import Mathlib

/-!
SimpleModbus (mbed port), a Modbus RTU master.

Shallow embedding of `SimpleModbus.cpp`.  The file-level globals of the C++
source (`state`, `retry_count`, `packet_index`, `frame`, `buffer`, `packet`)
become the fields of `Machine`; every C++ function becomes a function on
`Machine`.  Machine integers are natural numbers with explicit truncation:
`unsigned char` values are reduced modulo 256, `unsigned int` is 32 bits wide
on the mbed targets.

The serial port and the timer are the environment.  `Machine.port` lists what
`ModbusPort.readable() && ModbusPort.read(&byte, 1)` yields at the successive
passes through the receive loop (`some b`: byte `b` was read, `none`: nothing
readable); the response timeout expires after the last listed pass.

Array accesses outside `frame[BUFFER_SIZE]` or outside the caller's register
array are undefined behaviour in C++.  The embedding keeps running and records
the event in the sticky flag `Machine.fault`; a result with `fault = true`
says nothing about the real program beyond "an out-of-bounds access happened".
-/

namespace SimpleModbus

/-! ## Constants -/

/-- state machine states -/
def IDLE : Nat := 1

def WAITING_FOR_REPLY : Nat := 2

def WAITING_FOR_TURNAROUND : Nat := 3

def DONE : Nat := 4

def INVALID : Nat := 5

def BUFFER_SIZE : Nat := 100

/-- Modelled from the spec: the function-code names are defined in
`SimpleModbus.h`, which is not among the sources; the values are those of the
data model (section 3 of the specification). -/
def READ_COIL_STATUS : Nat := 1

/-- Modelled from the spec: see `READ_COIL_STATUS`. -/
def READ_INPUT_STATUS : Nat := 2

/-- Modelled from the spec: see `READ_COIL_STATUS`. -/
def READ_HOLDING_REGISTERS : Nat := 3

/-- Modelled from the spec: see `READ_COIL_STATUS`. -/
def READ_INPUT_REGISTERS : Nat := 4

/-- Modelled from the spec: see `READ_COIL_STATUS`. -/
def FORCE_MULTIPLE_COILS : Nat := 15

/-- Modelled from the spec: see `READ_COIL_STATUS`. -/
def PRESET_MULTIPLE_REGISTERS : Nat := 16

/-- Conversion to `unsigned char`. -/
def u8 (n : Nat) : Nat := n % 256

/-- Conversion to `unsigned int` (32 bits). -/
def u32 (n : Nat) : Nat := n % 4294967296

/-! ## Data model -/

/-- Modelled from the spec: the `Packet` record is declared in `SimpleModbus.h`,
which is not among the sources.  The fields are the ones `SimpleModbus.cpp`
uses; `id` and `function` are `unsigned char`, `address` and `data` are
`unsigned int` (the parameter types of `modbus_construct`), `register_array`
is the caller-owned register buffer (its length is its capacity).  The
counters are natural numbers without wrap-around. -/
structure Packet where
  id : Nat
  function : Nat
  address : Nat
  data : Nat
  register_array : List Nat
  requests : Nat
  successful_requests : Nat
  failed_requests : Nat
  exception_errors : Nat
  retries : Nat
  connection : Nat
  data_rcv : Nat
  deriving DecidableEq, Repr

/-- The globals of `SimpleModbus.cpp`, the record `packet` points to, the
serial port script, the bytes handed to `ModbusPort.write` by the last
`sendPacket`, and the out-of-bounds flag. -/
structure Machine where
  state : Nat
  retry_count : Nat
  packet_index : Nat
  frame : Nat → Nat
  buffer : Nat
  packet : Packet
  port : List (Option Nat)
  sent : List Nat
  fault : Bool

/-- Assignment `frame[i] = v` (the value is converted to `unsigned char`). -/
def Machine.store (m : Machine) (i v : Nat) : Machine :=
  { m with frame := Function.update m.frame i (u8 v),
           fault := m.fault || decide (BUFFER_SIZE ≤ i) }

/-- Assignment `frame[n - k] = v` where `n - k` is computed in `int`: a negative
index is outside the array and nothing is stored in the model. -/
def Machine.storeBack (m : Machine) (n k v : Nat) : Machine :=
  if k ≤ n then m.store (n - k) v else { m with fault := true }

/-- Records a read of `frame[i]`. -/
def Machine.touch (m : Machine) (i : Nat) : Machine :=
  { m with fault := m.fault || decide (BUFFER_SIZE ≤ i) }

/-- Records the reads of `frame[0] .. frame[n - 1]`. -/
def Machine.touchUpTo (m : Machine) (n : Nat) : Machine :=
  { m with fault := m.fault || decide (BUFFER_SIZE < n) }

/-- Records a read or write of `packet->register_array[i]`. -/
def Machine.touchReg (m : Machine) (i : Nat) : Machine :=
  { m with fault := m.fault || decide (m.packet.register_array.length ≤ i) }

/-- Assignment `packet->register_array[i] = v`. -/
def Machine.storeReg (m : Machine) (i v : Nat) : Machine :=
  { m.touchReg i with
      packet := { m.packet with register_array := m.packet.register_array.set i v } }

/-- The first `n` bytes of the frame buffer. -/
def frameBytes (frame : Nat → Nat) (n : Nat) : List Nat :=
  (List.range n).map frame

/-! ## CRC -/

/-- Inner loop of `calculateCRC` (`for j = 1 .. 8`), `k` passes left. -/
def calculateCRC_bits : Nat → Nat → Nat
  | 0, temp => temp
  | k + 1, temp =>
    let flag := temp &&& 0x0001
    let temp := temp >>> 1
    calculateCRC_bits k (if flag ≠ 0 then temp ^^^ 0xA001 else temp)

/-- Outer loop of `calculateCRC` (`for i = 0 .. bufferSize - 1`), `n` passes
left, at index `i`. -/
def calculateCRC_bytes (frame : Nat → Nat) : Nat → Nat → Nat → Nat
  | 0, _, temp => temp
  | n + 1, i, temp =>
    calculateCRC_bytes frame n (i + 1) (calculateCRC_bits 8 (temp ^^^ frame i))

/-- The function `calculateCRC(bufferSize)` over the frame buffer: the CRC
register with its two bytes swapped. -/
def calculateCRC (frame : Nat → Nat) (bufferSize : Nat) : Nat :=
  let temp := calculateCRC_bytes frame bufferSize 0 0xFFFF
  let temp2 := temp >>> 8
  let temp := (temp <<< 8) ||| temp2
  temp &&& 0xFFFF

/-- One shift step of the standard Modbus CRC-16, in the words of the
specification: shift the register right by one bit and XOR it with 0xA001 when
the bit shifted out was 1. -/
def crc16_spec_shift (reg : Nat) : Nat :=
  if reg % 2 = 1 then (reg / 2) ^^^ 0xA001 else reg / 2

/-- One byte step of the standard Modbus CRC-16, in the words of the
specification: XOR the byte into the register, then shift 8 times. -/
def crc16_spec_byte (reg byte : Nat) : Nat :=
  crc16_spec_shift^[8] (reg ^^^ byte)

/-- The standard Modbus CRC-16 of a byte sequence, in the words of the
specification (section 4.1): the register starts at 0xFFFF. -/
def crc16_spec (bytes : List Nat) : Nat :=
  bytes.foldl crc16_spec_byte 0xFFFF

/-! ## Outcome handlers -/

/-- The function `processError`. -/
def processError (m : Machine) : Machine :=
  let p := m.packet
  let p := { p with retries := p.retries + 1 }
  let p := { p with failed_requests := p.failed_requests + 1 }
  let p := if p.retries = m.retry_count then { p with connection := 0, retries := 0 } else p
  { m with packet := p, state := WAITING_FOR_TURNAROUND }

/-- The function `processSuccess`. -/
def processSuccess (m : Machine) : Machine :=
  let p := m.packet
  let p := { p with successful_requests := p.successful_requests + 1 }
  let p := { p with retries := 0 }
  { m with packet := p, state := WAITING_FOR_TURNAROUND }

/-! ## Request construction -/

/-- Loop of `construct_F16`: `n` passes left, at register `i`, writing at
`index` (an `unsigned char`). -/
def construct_F16_loop : Nat → Nat → Nat → Machine → Machine
  | 0, _, _, m => m
  | n + 1, i, index, m =>
    let temp := m.packet.register_array.getD i 0
    let m := m.touchReg i
    let m := m.store index (temp >>> 8)
    let index := u8 (index + 1)
    let m := m.store index (temp &&& 0xFF)
    let index := u8 (index + 1)
    construct_F16_loop n (i + 1) index m

/-- The function `construct_F16`: the machine after writing the payload, and the
returned frame size. -/
def construct_F16 (m : Machine) : Machine × Nat :=
  let no_of_bytes := u8 (m.packet.data * 2)
  let m := m.store 6 no_of_bytes
  let no_of_registers := u8 m.packet.data
  let m := construct_F16_loop no_of_registers 0 7 m
  (m, u8 (9 + no_of_bytes))

/-- Loop of `construct_F15`: `n` passes left, at register `i`. -/
def construct_F15_loop (no_of_bytes : Nat) : Nat → Nat → Nat → Nat → Machine → Machine
  | 0, _, _, _, m => m
  | n + 1, i, bytes_processed, index, m =>
    let temp := m.packet.register_array.getD i 0
    let m := m.touchReg i
    let m := m.store index (temp &&& 0xFF)
    let bytes_processed := u8 (bytes_processed + 1)
    if bytes_processed < no_of_bytes then
      let m := m.store (index + 1) (temp >>> 8)
      construct_F15_loop no_of_bytes n (i + 1) (u8 (bytes_processed + 1)) (u8 (index + 2)) m
    else
      construct_F15_loop no_of_bytes n (i + 1) bytes_processed index m

/-- The `unsigned char` register count of functions 1, 2 and 15. -/
def coil_registers (data : Nat) : Nat :=
  if data % 16 > 0 then u8 (u8 (data / 16) + 1) else u8 (data / 16)

/-- The `unsigned char` byte count of functions 1, 2 and 15. -/
def coil_bytes (data : Nat) : Nat :=
  if data % 16 > 0 then u8 (u8 (u8 (data / 16) * 2) + 1) else u8 (u8 (data / 16) * 2)

/-- The function `construct_F15`: the machine after writing the payload, and the
returned frame size. -/
def construct_F15 (m : Machine) : Machine × Nat :=
  let no_of_registers := coil_registers m.packet.data
  let no_of_bytes := coil_bytes m.packet.data
  let m := m.store 6 no_of_bytes
  let m := construct_F15_loop no_of_bytes no_of_registers 0 0 7 m
  (m, u8 (9 + no_of_bytes))

/-- The function `sendPacket`: the first `bufferSize` bytes of the frame go to
the port. -/
def sendPacket (m : Machine) (bufferSize : Nat) : Machine :=
  { m.touchUpTo bufferSize with sent := frameBytes m.frame bufferSize }

/-- The call `memset(frame, 0, n)`. -/
def clearFrame (m : Machine) (n : Nat) : Machine :=
  { m.touchUpTo n with frame := fun i => if i < n then 0 else m.frame i }

/-- First part of `constructPacket`: `data_rcv`, the request counter and the six
header bytes. -/
def constructPacket_header (m : Machine) : Machine :=
  let m := { m with packet := { m.packet with data_rcv := 0 } }
  let m := { m with packet := { m.packet with requests := m.packet.requests + 1 } }
  let m := m.store 0 m.packet.id
  let m := m.store 1 m.packet.function
  let m := m.store 2 (m.packet.address >>> 8)
  let m := m.store 3 (m.packet.address &&& 0xFF)
  let m := m.store 4 (m.packet.data >>> 8)
  m.store 5 (m.packet.data &&& 0xFF)

/-- Second part of `constructPacket`: the function-specific payload; returns the
machine and `frameSize`. -/
def constructPacket_payload (m : Machine) : Machine × Nat :=
  if m.packet.function = PRESET_MULTIPLE_REGISTERS then construct_F16 m
  else if m.packet.function = FORCE_MULTIPLE_COILS then construct_F15 m
  else (m, 8)

/-- Third part of `constructPacket`: the checksum bytes (`calculateCRC` takes
`frameSize - 2` converted to `unsigned char`; the two stores index with the
`int` value `frameSize - 2`, `frameSize - 1`), `sendPacket`, `memset`, and the
state change. -/
def constructPacket_seal (m : Machine) (frameSize : Nat) : Machine :=
  let crc16 := calculateCRC m.frame (u8 (frameSize + 254))
  let m := m.touchUpTo (u8 (frameSize + 254))
  let m := m.storeBack frameSize 2 (crc16 >>> 8)
  let m := m.storeBack frameSize 1 (crc16 &&& 0xFF)
  let m := sendPacket m frameSize
  let m := clearFrame m frameSize
  { m with state := WAITING_FOR_REPLY }

/-- Last part of `constructPacket`: a broadcast (id 0) forces a success. -/
def constructPacket_broadcast (m : Machine) : Machine :=
  if m.packet.id = 0 then processSuccess m else m

/-- The function `constructPacket`. -/
def constructPacket (m : Machine) : Machine :=
  let r := constructPacket_payload (constructPacket_header m)
  constructPacket_broadcast (constructPacket_seal r.1 r.2)

/-! ## Reply processing -/

/-- Loop of `process_F1_F2`: `n` passes left, at register `i`. -/
def process_F1_F2_loop (number_of_bytes : Nat) : Nat → Nat → Nat → Nat → Machine → Machine
  | 0, _, _, _, m => m
  | n + 1, i, bytes_processed, index, m =>
    let temp := m.frame index
    let m := m.touch index
    let bytes_processed := u8 (bytes_processed + 1)
    if bytes_processed < number_of_bytes then
      let temp := (m.frame (index + 1) <<< 8) ||| temp
      let m := m.touch (index + 1)
      let m := m.storeReg i temp
      process_F1_F2_loop number_of_bytes n (i + 1) (u8 (bytes_processed + 1)) (u8 (index + 2)) m
    else
      let m := m.storeReg i temp
      process_F1_F2_loop number_of_bytes n (i + 1) bytes_processed index m

/-- The function `process_F1_F2`. -/
def process_F1_F2 (m : Machine) : Machine :=
  let no_of_registers := coil_registers m.packet.data
  let number_of_bytes := coil_bytes m.packet.data
  if m.frame 2 = number_of_bytes then
    let m := process_F1_F2_loop number_of_bytes no_of_registers 0 0 3 m
    let m := { m with packet := { m.packet with data_rcv := m.packet.data } }
    processSuccess m
  else
    processError m

/-- Loop of `process_F3_F4`: `n` passes left, at register `i` (an
`unsigned char`), reading at `index` (an `unsigned char`).  The C++ loop
compares the `unsigned char` counter with the `unsigned int` quantity; it is
entered only when `frame[2] == packet->data * 2`, so for quantities up to 255
it makes `packet->data` passes; for larger ones the C++ loop does not end, and
the model has set `fault` at pass 49 (the read of `frame[101]`). -/
def process_F3_F4_loop : Nat → Nat → Nat → Machine → Machine
  | 0, _, _, m => m
  | n + 1, i, index, m =>
    let m := (m.touch index).touch (index + 1)
    let m := m.storeReg i ((m.frame index <<< 8) ||| m.frame (index + 1))
    process_F3_F4_loop n (u8 (i + 1)) (u8 (index + 2)) m

/-- The function `process_F3_F4`. -/
def process_F3_F4 (m : Machine) : Machine :=
  if m.frame 2 = u32 (m.packet.data * 2) then
    let m := process_F3_F4_loop m.packet.data 0 3 m
    let m := { m with packet := { m.packet with data_rcv := m.packet.data } }
    processSuccess m
  else
    processError m

/-- The function `process_F15_F16`. -/
def process_F15_F16 (m : Machine) : Machine :=
  let recieved_address := (m.frame 2 <<< 8) ||| m.frame 3
  let recieved_data := (m.frame 4 <<< 8) ||| m.frame 5
  if recieved_address = m.packet.address ∧ recieved_data = m.packet.data then
    let m := { m with packet := { m.packet with data_rcv := m.packet.data } }
    processSuccess m
  else
    processError m

/-- The checksum comparison shared by `waiting_for_reply` and `processReply`:
`calculateCRC(buffer - 2)` against `(frame[buffer - 2] << 8) | frame[buffer - 1]`.
Both callers run with `buffer >= 5`. -/
def checksumMatches (frame : Nat → Nat) (buffer : Nat) : Bool :=
  let received_crc := (frame (buffer - 2) <<< 8) ||| frame (buffer - 1)
  let calculated_crc := calculateCRC frame (u8 (buffer + 254))
  decide (calculated_crc = received_crc)

/-- The function `processReply`. -/
def processReply (m : Machine) : Machine :=
  let ok := checksumMatches m.frame m.buffer
  let m := (m.touch (m.buffer - 2)).touch (m.buffer - 1)
  if ok then
    if m.frame 1 &&& 0x80 = 0x80 then
      let m := { m with packet := { m.packet with exception_errors := m.packet.exception_errors + 1 } }
      processError m
    else if m.frame 1 = READ_COIL_STATUS ∨ m.frame 1 = READ_INPUT_STATUS then
      process_F1_F2 m
    else if m.frame 1 = READ_INPUT_REGISTERS ∨ m.frame 1 = READ_HOLDING_REGISTERS then
      process_F3_F4 m
    else if m.frame 1 = FORCE_MULTIPLE_COILS ∨ m.frame 1 = PRESET_MULTIPLE_REGISTERS then
      process_F15_F16 m
    else
      processError m
  else
    processError m

/-! ## Receive loop -/

/-- The locals of `waiting_for_reply` together with the machine. -/
structure Rx where
  m : Machine
  overflowFlag : Bool
  lateProcessing : Nat

/-- First half of the loop body: one poll of the port. -/
def rx_poll (ev : Option Nat) (r : Rx) : Rx :=
  match ev with
  | some byte =>
    if r.overflowFlag then r
    else
      let overflowFlag := decide (r.m.buffer = BUFFER_SIZE)
      let m := r.m.store r.m.buffer byte
      { r with m := { m with buffer := u8 (m.buffer + 1) }, overflowFlag := overflowFlag }
  | none => r

/-- Second half of the loop body: `(lateProcessing-- <= 0) && buffer >= 5`
followed by the checksum comparison; returns whether the loop breaks.  The
decrement of the `uint8_t` counter happens whatever the outcome. -/
def rx_frame_end (r : Rx) : Bool × Rx :=
  let late := r.lateProcessing
  let r := { r with lateProcessing := u8 (late + 255) }
  if late ≤ 0 ∧ 5 ≤ r.m.buffer then
    let ok := checksumMatches r.m.frame r.m.buffer
    (ok, { r with m := (r.m.touch (r.m.buffer - 2)).touch (r.m.buffer - 1) })
  else
    (false, r)

/-- The do-while loop of `waiting_for_reply`.  Each element of the script is one
pass through the body; the condition `ModBusTimer.read_ms() < timeout` holds
after every element but the last.  Returns the unconsumed part of the script.
(A do-while body runs at least once: the empty script stands for a single pass
that finds nothing readable, which leaves frame, buffer and overflowFlag as
they are, since `lateProcessing` starts at 20.) -/
def waiting_for_reply_loop : List (Option Nat) → Rx → Rx × List (Option Nat)
  | [], r => (r, [])
  | ev :: rest, r =>
    let e := rx_frame_end (rx_poll ev r)
    if e.1 then (e.2, rest) else waiting_for_reply_loop rest e.2

/-- First part of `waiting_for_reply`: the locals are initialised, `buffer` is
reset and the loop runs. -/
def waiting_for_reply_recv (m : Machine) : Rx :=
  let r := waiting_for_reply_loop m.port
    { m := { m with buffer := 0 }, overflowFlag := false, lateProcessing := 20 }
  { r.1 with m := { r.1.m with port := r.2 } }

/-- Second part of `waiting_for_reply`: the checks after the loop. -/
def waiting_for_reply_check (r : Rx) : Machine :=
  if r.m.buffer < 5 ∨ r.overflowFlag = true then processError r.m
  else if r.m.frame 0 ≠ r.m.packet.id then processError r.m
  else processReply r.m

/-- The function `waiting_for_reply`. -/
def waiting_for_reply (m : Machine) : Machine :=
  waiting_for_reply_check (waiting_for_reply_recv m)

/-! ## The state machine -/

/-- The function `waiting_for_turnaround`, at a pass where the timer has gone
past the turnaround delay `polling`. -/
def waiting_for_turnaround (m : Machine) : Machine :=
  { m with state := DONE }

/-- One pass through the `switch` of `Modbus_Get`. -/
def Modbus_Get_step (pkg : Packet) (m : Machine) : Machine :=
  if m.state = IDLE then constructPacket { m with packet := pkg }
  else if m.state = WAITING_FOR_REPLY then waiting_for_reply m
  else if m.state = WAITING_FOR_TURNAROUND then waiting_for_turnaround m
  else if m.state = DONE then
    { m with packet_index := u32 (m.packet_index + 1), state := INVALID }
  else m

/-- The loop `while (state != INVALID)` of `Modbus_Get`, at most `fuel` passes. -/
def Modbus_Get_loop (pkg : Packet) : Nat → Machine → Machine
  | 0, m => m
  | fuel + 1, m =>
    if m.state ≠ INVALID then Modbus_Get_loop pkg fuel (Modbus_Get_step pkg m) else m

/-- The function `Modbus_Get`: the run visits `IDLE`, `WAITING_FOR_REPLY` (not
for a broadcast), `WAITING_FOR_TURNAROUND` and `DONE`, so four passes are
enough (see `Modbus_Get_state`).  The record of the caller after the run is the
field `packet` of the result. -/
def Modbus_Get (pkg : Packet) (m : Machine) : Machine :=
  Modbus_Get_loop pkg 4 { m with state := IDLE }

/-- The function `modbus_construct`. -/
def modbus_construct (_packet : Packet) (id function address data : Nat)
    (register_array : List Nat) : Packet :=
  { _packet with
      id := u8 id, function := u8 function, address := u32 address, data := u32 data,
      register_array := register_array, connection := 1 }

/-- The receive state at the exit of the receive loop of the run
`Modbus_Get pkg m` to a slave that answers (id not 0). -/
def received (pkg : Packet) (m : Machine) : Rx :=
  waiting_for_reply_recv (constructPacket { m with state := IDLE, packet := pkg })

/-! ## Notions used in the statements -/

/-- Every cell of the frame buffer holds an `unsigned char`. -/
def FrameOK (frame : Nat → Nat) : Prop := ∀ i, frame i < 256

/-- A byte sequence ends with the standard CRC-16 of what precedes, low byte
first, then high byte. -/
def validChecksum (bytes : List Nat) : Bool :=
  decide (2 ≤ bytes.length) &&
  (bytes[bytes.length - 2]? == some (crc16_spec (bytes.take (bytes.length - 2)) % 256)) &&
  (bytes[bytes.length - 1]? == some (crc16_spec (bytes.take (bytes.length - 2)) / 256))

/-- A fresh transaction record for slave `id`. -/
def freshPacket (id function address data : Nat) (register_array : List Nat) : Packet :=
  { id := id, function := function, address := address, data := data,
    register_array := register_array, requests := 0, successful_requests := 0,
    failed_requests := 0, exception_errors := 0, retries := 0, connection := 1, data_rcv := 0 }

/-- The machine after `modbus_configure` with retry ceiling `retry_count`: the
frame is cleared, the state is `IDLE`; `port` is the script of the serial port
for the next run. -/
def configured (retry_count : Nat) (pkg : Packet) (port : List (Option Nat)) : Machine :=
  { state := IDLE, retry_count := u8 retry_count, packet_index := 0, frame := (fun _ => 0),
    buffer := 0, packet := pkg, port := port, sent := [], fault := false }

/-- The byte sequence lo(r0), hi(r0), lo(r1), hi(r1), ... of a list of 16-bit
registers, in the words of the specification of the coil payload. -/
def lowHighBytes : List Nat → List Nat
  | [] => []
  | r :: rs => (r % 256) :: (r / 256 % 256) :: lowHighBytes rs

/-- The register count of the coil functions in the words of the specification:
`floor(q/16)`, plus 1 if `q mod 16 != 0`. -/
def registerCount_spec (q : Nat) : Nat := q / 16 + (if q % 16 ≠ 0 then 1 else 0)

/-- The byte count of the coil functions in the words of the specification:
`2 * floor(q/16)`, plus 1 if `q mod 16 != 0`. -/
def byteCount_spec (q : Nat) : Nat := 2 * (q / 16) + (if q % 16 ≠ 0 then 1 else 0)

/-- The byte sequence hi(v0), lo(v0), hi(v1), lo(v1), ... of a list of 16-bit
registers: the data bytes of a function 3 or 4 reply. -/
def highLowBytes : List Nat → List Nat
  | [] => []
  | r :: rs => (r / 256) :: (r % 256) :: highLowBytes rs

/-- The reply `[id, function, 2q, hi(v0), lo(v0), ..., crcLo, crcHi]` that carries
the `q` register values `v`, with a correct checksum. -/
def reply_F3_F4 (id function : Nat) (v : List Nat) : List Nat :=
  ([id, function, 2 * v.length] ++ highLowBytes v)
    ++ [crc16_spec ([id, function, 2 * v.length] ++ highLowBytes v) % 256,
        crc16_spec ([id, function, 2 * v.length] ++ highLowBytes v) / 256]

/-- The failure handler in the words of the specification (section 4.4), applied
to the record of a run that has issued its request: `retries` and
`failedRequests` are incremented; if `retries` has reached the configured
maximum the connection is marked inactive and `retries` is reset to 0.
`receivedCount` is 0. -/
def failure_spec (maxRetries : Nat) (p : Packet) : Packet :=
  if p.retries + 1 = maxRetries then
    { p with requests := p.requests + 1, data_rcv := 0,
             failed_requests := p.failed_requests + 1, connection := 0, retries := 0 }
  else
    { p with requests := p.requests + 1, data_rcv := 0,
             failed_requests := p.failed_requests + 1, retries := p.retries + 1 }

/-- The success handler in the words of the specification (section 4.4), applied
to the record of a run that has issued its request and received `received`
items: `successfulRequests` is incremented and `retries` is reset to 0. -/
def success_spec (received : Nat) (p : Packet) : Packet :=
  { p with requests := p.requests + 1, data_rcv := received,
           successful_requests := p.successful_requests + 1, retries := 0 }

/-- What the receive loop maintains: the buffered bytes are `unsigned char`
values, and `buffer` exceeds the buffer size only with the overflow flag. -/
def RxOK (r : Rx) : Prop :=
  (∀ i, i < r.m.buffer → r.m.frame i < 256)
  ∧ r.m.buffer ≤ BUFFER_SIZE + 1
  ∧ (r.overflowFlag = false → r.m.buffer ≤ BUFFER_SIZE)

/-- A serial script that delivers the given bytes, one per poll, and then times
out. -/
def delivers (bytes : List Nat) : List (Option Nat) := bytes.map some

/-- The machine at the exit of the receive loop of a run that reads two holding
registers from slave 1 and is answered with the values 0x1234, 0x5678. -/
def roundtripMachine : Machine :=
  (received (freshPacket 1 3 0x6B 2 [0, 0])
    (configured 3 (freshPacket 1 3 0x6B 2 [0, 0])
      (delivers (reply_F3_F4 1 3 [0x1234, 0x5678])))).m

/-- A byte sequence followed by its standard CRC-16, low byte first. -/
def withChecksum (body : List Nat) : List Nat :=
  body ++ [crc16_spec body % 256, crc16_spec body / 256]

/-- The echoed address and quantity of a function 15 or 16 reply (bytes 2-3 and
4-5, big-endian) equal those of the request. -/
def echoMatches (frame : Nat → Nat) (p : Packet) : Prop :=
  (frame 2 <<< 8) ||| frame 3 = p.address ∧ (frame 4 <<< 8) ||| frame 5 = p.data

instance (frame : Nat → Nat) (p : Packet) : Decidable (echoMatches frame p) := by
  unfold echoMatches
  exact inferInstance

/-- The buffered reply at the exit of the receive loop is a checksum-valid reply
of the expected slave: at least 5 bytes, no overflow, first byte equal to the
slave id, correct checksum. -/
def validReply (id : Nat) (r : Rx) : Prop :=
  5 ≤ r.m.buffer ∧ r.overflowFlag = false ∧ r.m.frame 0 = id
    ∧ validChecksum (frameBytes r.m.frame r.m.buffer) = true

instance (id : Nat) (r : Rx) : Decidable (validReply id r) := by
  unfold validReply
  exact inferInstance

/-- The buffered reply at the exit of the receive loop is a checksum-valid
exception reply of the expected slave: a valid reply whose function byte has
bit 7 set. -/
def exceptionReply (id : Nat) (r : Rx) : Prop :=
  validReply id r ∧ r.m.frame 1 &&& 0x80 = 0x80

instance (id : Nat) (r : Rx) : Decidable (exceptionReply id r) := by
  unfold exceptionReply
  exact inferInstance

/-- The three shapes of the record after one run whose retry ceiling is
`maxRetries`: the failure handler applied, the failure handler applied after an
exception was counted, or the success handler applied with `receivedCount` 0 or
the quantity and some register contents. -/
def runOutcome (maxRetries : Nat) (pkg p : Packet) : Prop :=
  p = failure_spec maxRetries pkg
  ∨ p = failure_spec maxRetries { pkg with exception_errors := pkg.exception_errors + 1 }
  ∨ ∃ regs n, (n = 0 ∨ n = pkg.data) ∧ p = { success_spec n pkg with register_array := regs }

/-- The external scheduler drives the same record through consecutive runs;
`ports` lists, run by run, what the serial port offers during the run. -/
def runs : List (List (Option Nat)) → Machine → Machine
  | [], m => m
  | port :: rest, m => runs rest (Modbus_Get m.packet { m with port := port })

/-- The run ends on the failure path: it counts one failed request. -/
def failedRun (pkg : Packet) (m : Machine) : Bool :=
  decide ((Modbus_Get pkg m).packet.failed_requests = pkg.failed_requests + 1)

/-- The run ends on the success path: it counts one successful request. -/
def successfulRun (pkg : Packet) (m : Machine) : Bool :=
  decide ((Modbus_Get pkg m).packet.successful_requests = pkg.successful_requests + 1)

/-- Every one of the consecutive runs ends on the failure path. -/
def allFailed : List (List (Option Nat)) → Machine → Bool
  | [], _ => true
  | port :: rest, m =>
    failedRun m.packet { m with port := port }
      && allFailed rest (Modbus_Get m.packet { m with port := port })

/-- Every one of the consecutive runs ends on the success path. -/
def allSuccessful : List (List (Option Nat)) → Machine → Bool
  | [], _ => true
  | port :: rest, m =>
    successfulRun m.packet { m with port := port }
      && allSuccessful rest (Modbus_Get m.packet { m with port := port })

/-- The reply's function byte has bit 7 clear and is none of 1, 2, 3, 4, 15, 16. -/
def unsupportedFunction (frame : Nat → Nat) : Prop :=
  ¬ (frame 1 &&& 0x80 = 0x80) ∧ frame 1 ≠ 1 ∧ frame 1 ≠ 2 ∧ frame 1 ≠ 3 ∧ frame 1 ≠ 4
    ∧ frame 1 ≠ 15 ∧ frame 1 ≠ 16

instance (frame : Nat → Nat) : Decidable (unsupportedFunction frame) := by
  unfold unsupportedFunction
  exact inferInstance

/-- The byte-count field of a function 1 to 4 reply differs from the count the
engine computes for the transaction (`coil_bytes` for functions 1 and 2, twice
the quantity for functions 3 and 4). -/
def byteCountMismatch (frame : Nat → Nat) (pkg : Packet) : Prop :=
  ((frame 1 = 1 ∨ frame 1 = 2) ∧ frame 2 ≠ coil_bytes pkg.data)
  ∨ ((frame 1 = 3 ∨ frame 1 = 4) ∧ frame 2 ≠ u32 (pkg.data * 2))

instance (frame : Nat → Nat) (pkg : Packet) : Decidable (byteCountMismatch frame pkg) := by
  unfold byteCountMismatch
  exact inferInstance

/-- The failure kinds of a run to a slave `pkg.id`, read off the receive state
`r` at the exit of the receive loop: too short, overflow, unexpected slave,
checksum mismatch, and for a checksum-valid reply of the expected slave:
unsupported function, byte-count mismatch, echo mismatch. -/
def failureKind (pkg : Packet) (r : Rx) : Prop :=
  r.m.buffer < 5
  ∨ r.overflowFlag = true
  ∨ r.m.frame 0 ≠ pkg.id
  ∨ validChecksum (frameBytes r.m.frame r.m.buffer) = false
  ∨ (validReply pkg.id r
      ∧ (unsupportedFunction r.m.frame
        ∨ byteCountMismatch r.m.frame pkg
        ∨ ((r.m.frame 1 = 15 ∨ r.m.frame 1 = 16) ∧ ¬ echoMatches r.m.frame pkg)))

instance (pkg : Packet) (r : Rx) : Decidable (failureKind pkg r) := by
  unfold failureKind
  exact inferInstance

/-- The machine at the exit of the receive loop of a run that reads 20 coils from
slave 1 and is answered with the three data bytes CD AB 05. -/
def coilReplyMachine : Machine :=
  (received (freshPacket 1 1 0x13 20 [0, 0])
    (configured 3 (freshPacket 1 1 0x13 20 [0, 0])
      (delivers (withChecksum [1, 1, 3, 0xCD, 0xAB, 0x05])))).m

/-! # Theorems -/

/-! ## Arithmetic of bytes -/

theorem shr8_eq (x : Nat) : x >>> 8 = x / 256 := by
  rw [Nat.shiftRight_eq_div_pow]

theorem shr1_eq (x : Nat) : x >>> 1 = x / 2 := by
  rw [Nat.shiftRight_eq_div_pow]

theorem and_ff_eq (x : Nat) : x &&& 0xFF = x % 256 :=
  Nat.and_pow_two_sub_one_eq_mod x 8

theorem and_ffff_eq (x : Nat) : x &&& 0xFFFF = x % 65536 :=
  Nat.and_pow_two_sub_one_eq_mod x 16

theorem shl8_or_eq (a b : Nat) (hb : b < 256) : (a <<< 8) ||| b = a * 256 + b := by
  have h := Nat.mul_add_lt_is_or (i := 8) (b := b) (by simpa using hb) a
  rw [Nat.shiftLeft_eq, Nat.mul_comm a, ← h]


/-! ## Projections of the elementary updates -/

@[simp] theorem store_frame (m : Machine) (i v : Nat) :
    (m.store i v).frame = Function.update m.frame i (u8 v) := rfl

@[simp] theorem store_packet (m : Machine) (i v : Nat) : (m.store i v).packet = m.packet := rfl

@[simp] theorem store_port (m : Machine) (i v : Nat) : (m.store i v).port = m.port := rfl

@[simp] theorem store_retry_count (m : Machine) (i v : Nat) :
    (m.store i v).retry_count = m.retry_count := rfl

@[simp] theorem store_fault (m : Machine) (i v : Nat) :
    (m.store i v).fault = (m.fault || decide (BUFFER_SIZE ≤ i)) := rfl

@[simp] theorem touchReg_frame (m : Machine) (i : Nat) : (m.touchReg i).frame = m.frame := rfl

@[simp] theorem touchReg_packet (m : Machine) (i : Nat) : (m.touchReg i).packet = m.packet := rfl

@[simp] theorem touchReg_port (m : Machine) (i : Nat) : (m.touchReg i).port = m.port := rfl

@[simp] theorem touchReg_retry_count (m : Machine) (i : Nat) :
    (m.touchReg i).retry_count = m.retry_count := rfl

@[simp] theorem touchReg_fault (m : Machine) (i : Nat) :
    (m.touchReg i).fault = (m.fault || decide (m.packet.register_array.length ≤ i)) := rfl

theorem u8_lt (n : Nat) : u8 n < 256 := Nat.mod_lt _ (by decide)

theorem u8_of_lt {n : Nat} (h : n < 256) : u8 n = n := Nat.mod_eq_of_lt h

theorem FrameOK_update {f : Nat → Nat} (hf : FrameOK f) (i v : Nat) :
    FrameOK (Function.update f i (u8 v)) := by
  intro j
  by_cases h : j = i
  · subst h; simpa using u8_lt v
  · simpa [Function.update_noteq h] using hf j

/-! ## The CRC of the code is the standard CRC -/

theorem calculateCRC_bits_eq (k temp : Nat) :
    calculateCRC_bits k temp = crc16_spec_shift^[k] temp := by
  induction k generalizing temp with
  | zero => rfl
  | succ k ih =>
    rw [calculateCRC_bits, Function.iterate_succ_apply, ih]
    congr 1
    simp only [crc16_spec_shift, Nat.and_one_is_mod, shr1_eq]
    rcases Nat.mod_two_eq_zero_or_one temp with h | h <;> simp [h]

theorem calculateCRC_bytes_eq (frame : Nat → Nat) (n i temp : Nat) :
    calculateCRC_bytes frame n i temp
      = ((List.range' i n).map frame).foldl crc16_spec_byte temp := by
  induction n generalizing i temp with
  | zero => rfl
  | succ n ih =>
    rw [calculateCRC_bytes, ih, calculateCRC_bits_eq]
    simp [List.range'_succ, crc16_spec_byte]

theorem crc16_spec_shift_lt {reg : Nat} (h : reg < 65536) : crc16_spec_shift reg < 65536 := by
  unfold crc16_spec_shift
  split
  · exact Nat.xor_lt_two_pow (n := 16) (by omega) (by decide)
  · omega

theorem crc16_spec_shift_iter_lt (k : Nat) {reg : Nat} (h : reg < 65536) :
    crc16_spec_shift^[k] reg < 65536 := by
  induction k generalizing reg with
  | zero => simpa using h
  | succ k ih => rw [Function.iterate_succ_apply]; exact ih (crc16_spec_shift_lt h)

theorem crc16_spec_byte_lt {reg byte : Nat} (h : reg < 65536) (hb : byte < 256) :
    crc16_spec_byte reg byte < 65536 :=
  crc16_spec_shift_iter_lt 8 (Nat.xor_lt_two_pow (n := 16) h (by omega))

theorem crc16_spec_foldl_lt (bytes : List Nat) (hb : ∀ b ∈ bytes, b < 256) {reg : Nat}
    (h : reg < 65536) : bytes.foldl crc16_spec_byte reg < 65536 := by
  induction bytes generalizing reg with
  | nil => simpa using h
  | cons b bs ih =>
    rw [List.foldl_cons]
    exact ih (fun x hx => hb x (List.mem_cons_of_mem _ hx))
      (crc16_spec_byte_lt h (hb b (List.mem_cons_self _ _)))

theorem crc16_spec_lt (bytes : List Nat) (hb : ∀ b ∈ bytes, b < 256) :
    crc16_spec bytes < 65536 :=
  crc16_spec_foldl_lt bytes hb (by decide)

theorem frameBytes_lt {frame : Nat → Nat} {n : Nat} (hf : ∀ i, i < n → frame i < 256) :
    ∀ b ∈ frameBytes frame n, b < 256 := by
  intro b hb
  simp only [frameBytes, List.mem_map, List.mem_range] at hb
  obtain ⟨i, hi, rfl⟩ := hb
  exact hf i hi

/-- The value returned by `calculateCRC` is the standard CRC-16 of the first
`n` frame bytes with its two bytes swapped. -/
theorem calculateCRC_eq (frame : Nat → Nat) (n : Nat) (hf : ∀ i, i < n → frame i < 256) :
    calculateCRC frame n
      = (crc16_spec (frameBytes frame n) % 256) * 256 + crc16_spec (frameBytes frame n) / 256 := by
  have hlt := crc16_spec_lt (frameBytes frame n) (frameBytes_lt hf)
  have hc : calculateCRC_bytes frame n 0 0xFFFF = crc16_spec (frameBytes frame n) := by
    rw [calculateCRC_bytes_eq, crc16_spec, frameBytes, List.range_eq_range']
  unfold calculateCRC
  simp only [hc]
  generalize crc16_spec (frameBytes frame n) = c at hlt
  rw [and_ffff_eq, shr8_eq, shl8_or_eq _ _ (by omega)]
  omega

theorem swapped_high (c : Nat) (hc : c < 65536) :
    ((c % 256 * 256 + c / 256) / 256) % 256 = c % 256 := by
  have h1 : c / 256 < 256 := by omega
  have h2 : (c % 256 * 256 + c / 256) / 256 = c % 256 := by
    rw [Nat.add_comm, Nat.add_mul_div_right _ _ (by decide), Nat.div_eq_of_lt h1, Nat.zero_add]
  rw [h2, Nat.mod_mod]

theorem swapped_low (c : Nat) (hc : c < 65536) :
    (c % 256 * 256 + c / 256) % 256 = c / 256 := by
  have h1 : c / 256 < 256 := by omega
  rw [Nat.add_comm, Nat.add_mul_mod_self_right, Nat.mod_eq_of_lt h1]

/-! ## Frame bytes -/

@[simp] theorem frameBytes_length (frame : Nat → Nat) (n : Nat) :
    (frameBytes frame n).length = n := by
  simp [frameBytes]

theorem frameBytes_getElem? (frame : Nat → Nat) {n i : Nat} (h : i < n) :
    (frameBytes frame n)[i]? = some (frame i) := by
  simp [frameBytes, List.getElem?_map, List.getElem?_range h]

theorem frameBytes_take (frame : Nat → Nat) {n k : Nat} (h : k ≤ n) :
    (frameBytes frame n).take k = frameBytes frame k := by
  simp [frameBytes, ← List.map_take, List.take_range, Nat.min_eq_left h]

theorem frameBytes_congr {f g : Nat → Nat} {n : Nat} (h : ∀ i, i < n → f i = g i) :
    frameBytes f n = frameBytes g n := by
  simp only [frameBytes]
  apply List.map_congr_left
  intro i hi
  exact h i (List.mem_range.mp hi)

/-! ## The parts of `constructPacket` -/

theorem construct_F16_loop_frameOK (n i index : Nat) (m : Machine) (hf : FrameOK m.frame) :
    FrameOK (construct_F16_loop n i index m).frame := by
  induction n generalizing i index m with
  | zero => exact hf
  | succ n ih =>
    rw [construct_F16_loop]
    apply ih
    simp only [store_frame, touchReg_frame]
    exact FrameOK_update (FrameOK_update hf _ _) _ _

theorem construct_F15_loop_frameOK (nb n i bp index : Nat) (m : Machine) (hf : FrameOK m.frame) :
    FrameOK (construct_F15_loop nb n i bp index m).frame := by
  induction n generalizing i bp index m with
  | zero => exact hf
  | succ n ih =>
    rw [construct_F15_loop]
    simp only
    split
    · apply ih
      simp only [store_frame, touchReg_frame]
      exact FrameOK_update (FrameOK_update hf _ _) _ _
    · apply ih
      simp only [store_frame, touchReg_frame]
      exact FrameOK_update hf _ _

theorem header_frame (m : Machine) :
    (constructPacket_header m).frame
      = Function.update (Function.update (Function.update (Function.update (Function.update
          (Function.update m.frame 0 (u8 m.packet.id)) 1 (u8 m.packet.function))
          2 (u8 (m.packet.address >>> 8))) 3 (u8 (m.packet.address &&& 0xFF)))
          4 (u8 (m.packet.data >>> 8))) 5 (u8 (m.packet.data &&& 0xFF)) := rfl

theorem header_packet (m : Machine) :
    (constructPacket_header m).packet
      = { m.packet with data_rcv := 0, requests := m.packet.requests + 1 } := rfl

@[simp] theorem header_port (m : Machine) : (constructPacket_header m).port = m.port := rfl

@[simp] theorem header_retry_count (m : Machine) :
    (constructPacket_header m).retry_count = m.retry_count := rfl

theorem header_fault (m : Machine) : (constructPacket_header m).fault = m.fault := by
  simp [constructPacket_header, BUFFER_SIZE]

theorem header_frameOK (m : Machine) (hf : FrameOK m.frame) :
    FrameOK (constructPacket_header m).frame := by
  rw [header_frame]
  exact FrameOK_update (FrameOK_update (FrameOK_update (FrameOK_update (FrameOK_update
    (FrameOK_update hf _ _) _ _) _ _) _ _) _ _) _ _

theorem payload_frameOK (m : Machine) (hf : FrameOK m.frame) :
    FrameOK (constructPacket_payload m).1.frame := by
  unfold constructPacket_payload
  split
  · exact construct_F16_loop_frameOK _ _ _ _ (FrameOK_update hf _ _)
  · split
    · exact construct_F15_loop_frameOK _ _ _ _ _ _ (FrameOK_update hf _ _)
    · exact hf

theorem payload_size_lt (m : Machine) : (constructPacket_payload m).2 < 256 := by
  unfold constructPacket_payload
  split
  · exact u8_lt _
  · split
    · exact u8_lt _
    · show (8 : Nat) < 256
      decide

theorem seal_sent (m : Machine) {frameSize : Nat} (h2 : 2 ≤ frameSize) (hlt : frameSize < 256) :
    (constructPacket_seal m frameSize).sent
      = frameBytes (Function.update (Function.update m.frame (frameSize - 2)
          (u8 (calculateCRC m.frame (frameSize - 2) >>> 8))) (frameSize - 1)
          (u8 (calculateCRC m.frame (frameSize - 2) &&& 0xFF))) frameSize := by
  have hu : u8 (frameSize + 254) = frameSize - 2 := by unfold u8; omega
  have h1 : 1 ≤ frameSize := by omega
  simp [constructPacket_seal, Machine.storeBack, h2, h1, hu, sendPacket, clearFrame,
    Machine.touchUpTo]

@[simp] theorem broadcast_sent (m : Machine) : (constructPacket_broadcast m).sent = m.sent := by
  unfold constructPacket_broadcast processSuccess
  split <;> rfl

/-- The two checksum bytes of a sealed frame. -/
theorem seal_checksum (m : Machine) {frameSize : Nat}
    (h2 : 2 ≤ frameSize) (hlt : frameSize < 256) (hf : ∀ i, i < frameSize - 2 → m.frame i < 256) :
    (constructPacket_seal m frameSize).sent
        = frameBytes m.frame (frameSize - 2)
          ++ [crc16_spec (frameBytes m.frame (frameSize - 2)) % 256,
              crc16_spec (frameBytes m.frame (frameSize - 2)) / 256] := by
  rw [seal_sent m h2 hlt, calculateCRC_eq m.frame _ hf]
  have hc := crc16_spec_lt (frameBytes m.frame (frameSize - 2)) (frameBytes_lt hf)
  generalize crc16_spec (frameBytes m.frame (frameSize - 2)) = c at hc
  apply List.ext_getElem?
  intro i
  by_cases hi : i < frameSize - 2
  · rw [frameBytes_getElem? _ (by omega), List.getElem?_append_left (by simpa using hi),
      frameBytes_getElem? _ hi]
    rw [Function.update_noteq (by omega), Function.update_noteq (by omega)]
  · by_cases hi2 : i = frameSize - 2
    · subst hi2
      rw [frameBytes_getElem? _ (by omega), List.getElem?_append_right (by simp)]
      rw [Function.update_noteq (by omega), Function.update_same]
      simp only [frameBytes_length, Nat.sub_self, List.getElem?_cons_zero, shr8_eq, u8]
      rw [swapped_high c hc]
    · by_cases hi1 : i = frameSize - 1
      · subst hi1
        rw [frameBytes_getElem? _ (by omega), List.getElem?_append_right (by simp; omega)]
        rw [Function.update_same]
        have : frameSize - 1 - (frameSize - 2) = 1 := by omega
        simp only [frameBytes_length, this, and_ff_eq, u8, Nat.mod_mod]
        rw [swapped_low c hc]
        rfl
      · have : frameSize ≤ i := by omega
        rw [List.getElem?_eq_none (by simpa using this), List.getElem?_eq_none (by simp; omega)]
@[simp] theorem seal_sent_length (m : Machine) (frameSize : Nat) :
    (constructPacket_seal m frameSize).sent.length = frameSize := by
  show (frameBytes _ frameSize).length = frameSize
  exact frameBytes_length _ _

theorem constructPacket_sent (m : Machine) :
    (constructPacket m).sent
      = (constructPacket_seal (constructPacket_payload (constructPacket_header m)).1
          (constructPacket_payload (constructPacket_header m)).2).sent := by
  simp [constructPacket]

theorem append_pair_facts (pre : List Nat) (a b : Nat) :
    (pre ++ [a, b])[(pre ++ [a, b]).length - 2]? = some a
    ∧ (pre ++ [a, b])[(pre ++ [a, b]).length - 1]? = some b
    ∧ (pre ++ [a, b]).take ((pre ++ [a, b]).length - 2) = pre := by
  have e1 : (pre ++ [a, b]).length - 2 = pre.length := by simp
  have e2 : (pre ++ [a, b]).length - 1 = pre.length + 1 := by simp
  rw [e1, e2]
  refine ⟨?_, ?_, ?_⟩
  · rw [List.getElem?_append_right (Nat.le_refl _)]; simp
  · rw [List.getElem?_append_right (Nat.le_succ _)]; simp
  · exact List.take_left' rfl

/-- C1: in every request sent by `constructPacket` (length `n` between 2 and the
frame buffer size), bytes `n - 2` and `n - 1` are the low byte and the high
byte of the standard Modbus CRC-16 of bytes `0 .. n - 3`; and `calculateCRC`
returns that CRC with its two bytes swapped. -/
theorem constructPacket_checksum_bytes (m : Machine) (hf : FrameOK m.frame)
    (h2 : 2 ≤ (constructPacket m).sent.length)
    (_hfit : (constructPacket m).sent.length ≤ BUFFER_SIZE) :
    (constructPacket m).sent[(constructPacket m).sent.length - 2]?
        = some (crc16_spec
            ((constructPacket m).sent.take ((constructPacket m).sent.length - 2)) % 256)
    ∧ (constructPacket m).sent[(constructPacket m).sent.length - 1]?
        = some (crc16_spec
            ((constructPacket m).sent.take ((constructPacket m).sent.length - 2)) / 256)
    ∧ ∀ n, calculateCRC m.frame n
        = crc16_spec (frameBytes m.frame n) % 256 * 256 + crc16_spec (frameBytes m.frame n) / 256 := by
  have hs : ∃ pre, (constructPacket m).sent = pre ++ [crc16_spec pre % 256, crc16_spec pre / 256] := by
    rw [constructPacket_sent] at h2 ⊢
    generalize hr : constructPacket_payload (constructPacket_header m) = r at h2 ⊢
    have hsz : r.2 < 256 := hr ▸ payload_size_lt _
    have hok : FrameOK r.1.frame := hr ▸ payload_frameOK _ (header_frameOK m hf)
    rw [seal_sent_length] at h2
    exact ⟨_, seal_checksum r.1 h2 hsz (fun i _ => hok i)⟩
  obtain ⟨pre, hpre⟩ := hs
  rw [hpre]
  obtain ⟨h1, h2, h3⟩ := append_pair_facts pre (crc16_spec pre % 256) (crc16_spec pre / 256)
  rw [h3]
  exact ⟨h1, h2, fun n => calculateCRC_eq m.frame n (fun i _ => hf i)⟩

theorem calculateCRC_of_bytes (frame : Nat → Nat) (n : Nat) :
    calculateCRC frame n
      = (((frameBytes frame n).foldl crc16_spec_byte 0xFFFF <<< 8)
          ||| ((frameBytes frame n).foldl crc16_spec_byte 0xFFFF >>> 8)) &&& 0xFFFF := by
  unfold calculateCRC
  simp only [calculateCRC_bytes_eq, frameBytes, List.range_eq_range']

set_option maxRecDepth 100000 in
theorem known_vector_crc :
    ((([1, 3, 0, 0x6B, 0, 3] : List Nat).foldl crc16_spec_byte 0xFFFF <<< 8)
      ||| (([1, 3, 0, 0x6B, 0, 3] : List Nat).foldl crc16_spec_byte 0xFFFF >>> 8)) &&& 0xFFFF
      = 0x7417 := by
  decide

/-- C2 (as the code computes it): for the six message bytes 01 03 00 6B 00 03
the request sent is those bytes followed by the checksum bytes 0x74, 0x17. -/
theorem constructPacket_known_vector (m : Machine) (p : Packet) (regs : List Nat) :
    (constructPacket { m with packet := modbus_construct p 1 3 0x6B 3 regs }).sent
      = [0x01, 0x03, 0x00, 0x6B, 0x00, 0x03, 0x74, 0x17] := by
  rw [constructPacket_sent]
  have hp : constructPacket_payload
      (constructPacket_header { m with packet := modbus_construct p 1 3 0x6B 3 regs })
      = (constructPacket_header { m with packet := modbus_construct p 1 3 0x6B 3 regs }, 8) := by
    simp [constructPacket_payload, header_packet, modbus_construct, u8,
      PRESET_MULTIPLE_REGISTERS, FORCE_MULTIPLE_COILS]
  rw [hp, seal_sent _ (show 2 ≤ 8 by decide) (show 8 < 256 by decide)]
  have hb : frameBytes
      (constructPacket_header { m with packet := modbus_construct p 1 3 0x6B 3 regs }).frame 6
      = [1, 3, 0, 0x6B, 0, 3] := by
    simp [frameBytes, List.range_succ, header_frame, modbus_construct, u8, u32, Function.update,
      and_ff_eq, shr8_eq]
  have hc : calculateCRC
      (constructPacket_header { m with packet := modbus_construct p 1 3 0x6B 3 regs }).frame (8 - 2)
      = 0x7417 := by
    rw [calculateCRC_of_bytes, hb]
    exact known_vector_crc
  rw [hc]
  simp [frameBytes, List.range_succ, header_frame, modbus_construct, u8, u32, Function.update,
      and_ff_eq, shr8_eq]

set_option maxRecDepth 100000 in
/-- C2 (as stated): the checksum bytes appended to 01 03 00 6B 00 03 are not
0x76, 0x87. -/
theorem constructPacket_known_vector_refuted :
    (constructPacket (configured 3 (freshPacket 1 3 0x6B 3 []) [])).sent.drop 6 ≠ [0x76, 0x87] := by
  decide

set_option maxRecDepth 100000 in
/-- Witness of `constructPacket_checksum_bytes`: the read request for slave 0x11,
01 03 00 6B 00 03 with 0x11 in front, whose checksum bytes are 0x76, 0x87. -/
theorem constructPacket_checksum_bytes_witness :
    (constructPacket (configured 3 (freshPacket 0x11 3 0x6B 3 []) [])).sent
        = [0x11, 0x03, 0x00, 0x6B, 0x00, 0x03, 0x76, 0x87]
    ∧ (constructPacket (configured 3 (freshPacket 0x11 3 0x6B 3 []) [])).sent[
          (constructPacket (configured 3 (freshPacket 0x11 3 0x6B 3 []) [])).sent.length - 2]?
        = some (crc16_spec ((constructPacket (configured 3 (freshPacket 0x11 3 0x6B 3 []) [])).sent.take
            ((constructPacket (configured 3 (freshPacket 0x11 3 0x6B 3 []) [])).sent.length - 2)) % 256)
    ∧ (constructPacket (configured 3 (freshPacket 0x11 3 0x6B 3 []) [])).sent[
          (constructPacket (configured 3 (freshPacket 0x11 3 0x6B 3 []) [])).sent.length - 1]?
        = some (crc16_spec ((constructPacket (configured 3 (freshPacket 0x11 3 0x6B 3 []) [])).sent.take
            ((constructPacket (configured 3 (freshPacket 0x11 3 0x6B 3 []) [])).sent.length - 2)) / 256) :=
  ⟨by decide,
   (constructPacket_checksum_bytes (configured 3 (freshPacket 0x11 3 0x6B 3 []) [])
      (fun _ => show (0 : Nat) < 256 by decide) (by decide) (by decide)).1,
   (constructPacket_checksum_bytes (configured 3 (freshPacket 0x11 3 0x6B 3 []) [])
      (fun _ => show (0 : Nat) < 256 by decide) (by decide) (by decide)).2.1⟩

/-! ## What the parts of `constructPacket` leave alone -/

@[simp] theorem touchUpTo_frame (m : Machine) (n : Nat) : (m.touchUpTo n).frame = m.frame := rfl

@[simp] theorem touchUpTo_packet (m : Machine) (n : Nat) : (m.touchUpTo n).packet = m.packet := rfl

@[simp] theorem touchUpTo_port (m : Machine) (n : Nat) : (m.touchUpTo n).port = m.port := rfl

@[simp] theorem touchUpTo_retry_count (m : Machine) (n : Nat) :
    (m.touchUpTo n).retry_count = m.retry_count := rfl

@[simp] theorem touchUpTo_fault (m : Machine) (n : Nat) :
    (m.touchUpTo n).fault = (m.fault || decide (BUFFER_SIZE < n)) := rfl

@[simp] theorem storeBack_packet (m : Machine) (n k v : Nat) :
    (m.storeBack n k v).packet = m.packet := by
  unfold Machine.storeBack; split <;> rfl

@[simp] theorem storeBack_port (m : Machine) (n k v : Nat) :
    (m.storeBack n k v).port = m.port := by
  unfold Machine.storeBack; split <;> rfl

@[simp] theorem storeBack_retry_count (m : Machine) (n k v : Nat) :
    (m.storeBack n k v).retry_count = m.retry_count := by
  unfold Machine.storeBack; split <;> rfl

theorem storeBack_fault (m : Machine) {n k : Nat} (v : Nat) (hk : k ≤ n) (hn : n - k < BUFFER_SIZE) :
    (m.storeBack n k v).fault = m.fault := by
  simp [Machine.storeBack, hk, Nat.not_le.mpr hn]

@[simp] theorem seal_packet (m : Machine) (frameSize : Nat) :
    (constructPacket_seal m frameSize).packet = m.packet := by
  simp [constructPacket_seal, sendPacket, clearFrame]

@[simp] theorem seal_port (m : Machine) (frameSize : Nat) :
    (constructPacket_seal m frameSize).port = m.port := by
  simp [constructPacket_seal, sendPacket, clearFrame]

@[simp] theorem seal_retry_count (m : Machine) (frameSize : Nat) :
    (constructPacket_seal m frameSize).retry_count = m.retry_count := by
  simp [constructPacket_seal, sendPacket, clearFrame]

@[simp] theorem seal_state (m : Machine) (frameSize : Nat) :
    (constructPacket_seal m frameSize).state = WAITING_FOR_REPLY := rfl

theorem seal_fault (m : Machine) {frameSize : Nat} (h2 : 2 ≤ frameSize)
    (hfit : frameSize ≤ BUFFER_SIZE) : (constructPacket_seal m frameSize).fault = m.fault := by
  have hu : u8 (frameSize + 254) = frameSize - 2 := by unfold u8 BUFFER_SIZE at *; omega
  unfold BUFFER_SIZE at hfit
  have e1 : ¬ (100 < frameSize - 2) := by omega
  have e2 : ¬ (100 < frameSize) := by omega
  simp only [constructPacket_seal, sendPacket, clearFrame, hu, touchUpTo_fault]
  rw [storeBack_fault _ _ (by omega) (by unfold BUFFER_SIZE; omega),
    storeBack_fault _ _ (by omega) (by unfold BUFFER_SIZE; omega)]
  simp [BUFFER_SIZE, e1, e2]

@[simp] theorem construct_F16_loop_packet (n i index : Nat) (m : Machine) :
    (construct_F16_loop n i index m).packet = m.packet := by
  induction n generalizing i index m with
  | zero => rfl
  | succ n ih => rw [construct_F16_loop, ih]; rfl

@[simp] theorem construct_F16_loop_port (n i index : Nat) (m : Machine) :
    (construct_F16_loop n i index m).port = m.port := by
  induction n generalizing i index m with
  | zero => rfl
  | succ n ih => rw [construct_F16_loop, ih]; rfl

@[simp] theorem construct_F16_loop_retry_count (n i index : Nat) (m : Machine) :
    (construct_F16_loop n i index m).retry_count = m.retry_count := by
  induction n generalizing i index m with
  | zero => rfl
  | succ n ih => rw [construct_F16_loop, ih]; rfl

@[simp] theorem construct_F15_loop_packet (nb n i bp index : Nat) (m : Machine) :
    (construct_F15_loop nb n i bp index m).packet = m.packet := by
  induction n generalizing i bp index m with
  | zero => rfl
  | succ n ih =>
    rw [construct_F15_loop]
    simp only
    split <;> rw [ih] <;> rfl

@[simp] theorem construct_F15_loop_port (nb n i bp index : Nat) (m : Machine) :
    (construct_F15_loop nb n i bp index m).port = m.port := by
  induction n generalizing i bp index m with
  | zero => rfl
  | succ n ih =>
    rw [construct_F15_loop]
    simp only
    split <;> rw [ih] <;> rfl

@[simp] theorem construct_F15_loop_retry_count (nb n i bp index : Nat) (m : Machine) :
    (construct_F15_loop nb n i bp index m).retry_count = m.retry_count := by
  induction n generalizing i bp index m with
  | zero => rfl
  | succ n ih =>
    rw [construct_F15_loop]
    simp only
    split <;> rw [ih] <;> rfl

@[simp] theorem payload_packet (m : Machine) : (constructPacket_payload m).1.packet = m.packet := by
  unfold constructPacket_payload
  split
  · simp [construct_F16]
  · split
    · simp [construct_F15]
    · rfl

@[simp] theorem payload_port (m : Machine) : (constructPacket_payload m).1.port = m.port := by
  unfold constructPacket_payload
  split
  · simp [construct_F16]
  · split
    · simp [construct_F15]
    · rfl

@[simp] theorem payload_retry_count (m : Machine) :
    (constructPacket_payload m).1.retry_count = m.retry_count := by
  unfold constructPacket_payload
  split
  · simp [construct_F16]
  · split
    · simp [construct_F15]
    · rfl

theorem payload_read (m : Machine) (h16 : m.packet.function ≠ PRESET_MULTIPLE_REGISTERS)
    (h15 : m.packet.function ≠ FORCE_MULTIPLE_COILS) : constructPacket_payload m = (m, 8) := by
  simp [constructPacket_payload, h16, h15]

/-- The packet record after `constructPacket`, before the broadcast override. -/
theorem sealed_packet (m : Machine) :
    (constructPacket_seal (constructPacket_payload (constructPacket_header m)).1
        (constructPacket_payload (constructPacket_header m)).2).packet
      = { m.packet with data_rcv := 0, requests := m.packet.requests + 1 } := by
  rw [seal_packet, payload_packet, header_packet]

theorem broadcast_register_array (m : Machine) :
    (constructPacket_broadcast m).packet.register_array = m.packet.register_array := by
  unfold constructPacket_broadcast processSuccess
  split <;> rfl

theorem broadcast_fault (m : Machine) : (constructPacket_broadcast m).fault = m.fault := by
  unfold constructPacket_broadcast processSuccess
  split <;> rfl

theorem bytes_below_succ {f : Nat → Nat} {k : Nat} (h : ∀ j, j < k → f j < 256) (v : Nat) :
    ∀ j, j < k + 1 → Function.update f k (u8 v) j < 256 := by
  intro j hj
  by_cases e : j = k
  · subst e; simpa using u8_lt v
  · rw [Function.update_noteq e]; exact h j (by omega)

theorem header_frame_lt (m : Machine) : ∀ i, i < 6 → (constructPacket_header m).frame i < 256 := by
  rw [header_frame]
  exact bytes_below_succ (bytes_below_succ (bytes_below_succ (bytes_below_succ (bytes_below_succ
    (bytes_below_succ (fun j hj => absurd hj (Nat.not_lt_zero j)) _) _) _) _) _) _

theorem header_bytes (m : Machine) (hid : m.packet.id < 256) (hfn : m.packet.function < 256)
    (ha : m.packet.address < 65536) (hq : m.packet.data < 65536) :
    frameBytes (constructPacket_header m).frame 6
      = [m.packet.id, m.packet.function, m.packet.address >>> 8, m.packet.address &&& 0xFF,
          m.packet.data >>> 8, m.packet.data &&& 0xFF] := by
  have e1 : m.packet.address / 256 % 256 = m.packet.address / 256 := by omega
  have e2 : m.packet.data / 256 % 256 = m.packet.data / 256 := by omega
  simp [frameBytes, List.range_succ, header_frame, u8, Function.update, and_ff_eq, shr8_eq,
    Nat.mod_eq_of_lt hid, Nat.mod_eq_of_lt hfn, e1, e2]

/-- C3: for function codes 1 to 4 the request is the eight bytes id, function,
address high, address low, quantity high, quantity low, CRC low, CRC high; the
register array is neither changed nor accessed (no out-of-bounds access is
recorded whatever its length, and the bytes sent do not depend on it). -/
theorem constructPacket_read_request (m : Machine)
    (hfn : m.packet.function = 1 ∨ m.packet.function = 2 ∨ m.packet.function = 3
      ∨ m.packet.function = 4)
    (hid : m.packet.id < 256) (ha : m.packet.address < 65536) (hq : m.packet.data < 65536) :
    (constructPacket m).sent
        = [m.packet.id, m.packet.function, m.packet.address >>> 8, m.packet.address &&& 0xFF,
            m.packet.data >>> 8, m.packet.data &&& 0xFF,
            crc16_spec [m.packet.id, m.packet.function, m.packet.address >>> 8,
              m.packet.address &&& 0xFF, m.packet.data >>> 8, m.packet.data &&& 0xFF] % 256,
            crc16_spec [m.packet.id, m.packet.function, m.packet.address >>> 8,
              m.packet.address &&& 0xFF, m.packet.data >>> 8, m.packet.data &&& 0xFF] / 256]
    ∧ (constructPacket m).sent.length = 8
    ∧ (constructPacket m).packet.register_array = m.packet.register_array
    ∧ (constructPacket m).fault = m.fault
    ∧ ∀ regs, (constructPacket
          { m with packet := { m.packet with register_array := regs } }).sent
        = (constructPacket m).sent := by
  have key : ∀ m : Machine, (m.packet.function = 1 ∨ m.packet.function = 2 ∨ m.packet.function = 3
      ∨ m.packet.function = 4) → m.packet.id < 256 → m.packet.address < 65536 →
      m.packet.data < 65536 →
      (constructPacket m).sent
        = [m.packet.id, m.packet.function, m.packet.address >>> 8, m.packet.address &&& 0xFF,
            m.packet.data >>> 8, m.packet.data &&& 0xFF,
            crc16_spec [m.packet.id, m.packet.function, m.packet.address >>> 8,
              m.packet.address &&& 0xFF, m.packet.data >>> 8, m.packet.data &&& 0xFF] % 256,
            crc16_spec [m.packet.id, m.packet.function, m.packet.address >>> 8,
              m.packet.address &&& 0xFF, m.packet.data >>> 8, m.packet.data &&& 0xFF] / 256] := by
    intro m hfn hid ha hq
    have h16 : (constructPacket_header m).packet.function ≠ PRESET_MULTIPLE_REGISTERS := by
      rw [header_packet]; unfold PRESET_MULTIPLE_REGISTERS; simp only; omega
    have h15 : (constructPacket_header m).packet.function ≠ FORCE_MULTIPLE_COILS := by
      rw [header_packet]; unfold FORCE_MULTIPLE_COILS; simp only; omega
    have hb := header_bytes m hid (by omega) ha hq
    rw [constructPacket_sent, payload_read _ h16 h15]
    rw [seal_checksum _ (show 2 ≤ 8 by decide) (show 8 < 256 by decide) (header_frame_lt m)]
    show frameBytes _ 6 ++ [crc16_spec (frameBytes _ 6) % 256, crc16_spec (frameBytes _ 6) / 256] = _
    rw [hb]
    rfl
  have h16 : (constructPacket_header m).packet.function ≠ PRESET_MULTIPLE_REGISTERS := by
    rw [header_packet]; unfold PRESET_MULTIPLE_REGISTERS; simp only; omega
  have h15 : (constructPacket_header m).packet.function ≠ FORCE_MULTIPLE_COILS := by
    rw [header_packet]; unfold FORCE_MULTIPLE_COILS; simp only; omega
  refine ⟨key m hfn hid ha hq, ?_, ?_, ?_, ?_⟩
  · rw [constructPacket_sent]; simp [payload_read _ h16 h15]
  · unfold constructPacket
    simp only
    rw [broadcast_register_array, seal_packet, payload_packet, header_packet]
  · unfold constructPacket
    simp only
    rw [broadcast_fault, payload_read _ h16 h15,
      seal_fault _ (show 2 ≤ 8 by decide) (show 8 ≤ BUFFER_SIZE by decide), header_fault]
  · intro regs
    rw [key m hfn hid ha hq]
    exact key { m with packet := { m.packet with register_array := regs } } hfn hid ha hq

set_option maxRecDepth 100000 in
/-- Witness of `constructPacket_read_request`: a function 4 request with the
largest 16-bit quantity and a register array of two entries. -/
theorem constructPacket_read_request_witness :
    (constructPacket (configured 3 (freshPacket 5 4 0x1234 0xFFFF [7, 8]) [])).sent.length = 8
    ∧ (constructPacket (configured 3 (freshPacket 5 4 0x1234 0xFFFF [7, 8]) [])).sent.take 6
        = [5, 4, 0x12, 0x34, 0xFF, 0xFF]
    ∧ (constructPacket (configured 3 (freshPacket 5 4 0x1234 0xFFFF [7, 8]) [])).packet.register_array
        = [7, 8]
    ∧ (constructPacket (configured 3 (freshPacket 5 4 0x1234 0xFFFF [7, 8]) [])).fault = false :=
  ⟨(constructPacket_read_request (configured 3 (freshPacket 5 4 0x1234 0xFFFF [7, 8]) [])
      (by decide) (by decide) (by decide) (by decide)).2.1,
   by decide,
   (constructPacket_read_request (configured 3 (freshPacket 5 4 0x1234 0xFFFF [7, 8]) [])
      (by decide) (by decide) (by decide) (by decide)).2.2.1,
   (constructPacket_read_request (configured 3 (freshPacket 5 4 0x1234 0xFFFF [7, 8]) [])
      (by decide) (by decide) (by decide) (by decide)).2.2.2.1⟩

/-! ## The payload of function 16 -/

theorem construct_F16_loop_outside (n i index : Nat) (m : Machine) (h : index + 2 * n ≤ 255) :
    ∀ j, j < index ∨ index + 2 * n ≤ j → (construct_F16_loop n i index m).frame j = m.frame j := by
  induction n generalizing i index m with
  | zero => intro j _; rfl
  | succ n ih =>
    intro j hj
    have e1 : u8 (index + 1) = index + 1 := u8_of_lt (by omega)
    have e2 : u8 (index + 1 + 1) = index + 2 := u8_of_lt (by omega)
    rw [construct_F16_loop]
    simp only [e1, e2]
    rw [ih _ _ _ (by omega) j (by omega)]
    simp only [store_frame, touchReg_frame]
    rw [Function.update_noteq (by omega), Function.update_noteq (by omega)]

theorem construct_F16_loop_inside (n i index : Nat) (m : Machine) (h : index + 2 * n ≤ 255) :
    ∀ k, k < n →
      (construct_F16_loop n i index m).frame (index + 2 * k)
          = u8 (m.packet.register_array.getD (i + k) 0 >>> 8)
      ∧ (construct_F16_loop n i index m).frame (index + 2 * k + 1)
          = u8 (m.packet.register_array.getD (i + k) 0 &&& 0xFF) := by
  induction n generalizing i index m with
  | zero => intro k hk; omega
  | succ n ih =>
    intro k hk
    have e1 : u8 (index + 1) = index + 1 := u8_of_lt (by omega)
    have e2 : u8 (index + 1 + 1) = index + 2 := u8_of_lt (by omega)
    rw [construct_F16_loop]
    simp only [e1, e2]
    rcases k with _ | k
    · rw [construct_F16_loop_outside _ _ _ _ (by omega) _ (Or.inl (by omega)),
        construct_F16_loop_outside _ _ _ _ (by omega) _ (Or.inl (by omega))]
      simp only [store_frame, touchReg_frame, touchReg_packet, Nat.mul_zero, Nat.add_zero]
      rw [Function.update_same, Function.update_noteq (by omega), Function.update_same]
      exact ⟨rfl, rfl⟩
    · have := ih (i + 1) (index + 2)
        (((m.touchReg i).store index (m.packet.register_array.getD i 0 >>> 8)).store (index + 1)
          (m.packet.register_array.getD i 0 &&& 0xFF)) (by omega) k (by omega)
      simp only [store_packet, touchReg_packet] at this
      have a1 : index + 2 * (k + 1) = index + 2 + 2 * k := by omega
      have a2 : i + (k + 1) = i + 1 + k := by omega
      rw [a1, a2]
      exact this

theorem seal_sent_below (m : Machine) {frameSize j : Nat} (h2 : 2 ≤ frameSize)
    (hlt : frameSize < 256) (hj : j < frameSize - 2) :
    (constructPacket_seal m frameSize).sent[j]? = some (m.frame j) := by
  rw [seal_sent m h2 hlt, frameBytes_getElem? _ (by omega),
    Function.update_noteq (by omega), Function.update_noteq (by omega)]

theorem payload_F16 (m : Machine) (hfn : m.packet.function = PRESET_MULTIPLE_REGISTERS) :
    constructPacket_payload m = construct_F16 m := by
  simp [constructPacket_payload, hfn]

/-- The frame after the payload of a function 16 request of `q` registers that
fits the buffer. -/
theorem construct_F16_frame (m : Machine) (hq : m.packet.data ≤ 45) :
    (construct_F16 m).2 = 9 + 2 * m.packet.data
    ∧ (construct_F16 m).1.frame 6 = 2 * m.packet.data
    ∧ ∀ i, i < m.packet.data →
        (construct_F16 m).1.frame (7 + 2 * i)
            = u8 (m.packet.register_array.getD i 0 >>> 8)
        ∧ (construct_F16 m).1.frame (7 + 2 * i + 1)
            = u8 (m.packet.register_array.getD i 0 &&& 0xFF) := by
  have e1 : u8 (m.packet.data * 2) = 2 * m.packet.data := by unfold u8; omega
  have e2 : u8 m.packet.data = m.packet.data := by unfold u8; omega
  have e3 : u8 (9 + 2 * m.packet.data) = 9 + 2 * m.packet.data := by unfold u8; omega
  have e4 : u8 (2 * m.packet.data) = 2 * m.packet.data := by unfold u8; omega
  unfold construct_F16
  simp only [e1, e2, e3, store_packet]
  refine ⟨trivial, ?_, ?_⟩
  · rw [construct_F16_loop_outside _ _ _ _ (by omega) _ (Or.inl (by decide))]
    simp [e4]
  · intro i hi
    have := construct_F16_loop_inside m.packet.data 0 7 (m.store 6 (2 * m.packet.data))
      (by omega) i hi
    simpa using this

/-- C4: a function 16 request for `q` registers, `1 ≤ q ≤ 45`, has length
`9 + 2q`, byte 6 is `2q`, and bytes `7 + 2i`, `8 + 2i` are the high and the low
byte of the 16-bit register `i`; for `q = 2` and registers 0x1234, 0x5678 the
bytes 6 to 10 are 04 12 34 56 78. -/
theorem constructPacket_F16_request (m : Machine)
    (hfn : m.packet.function = PRESET_MULTIPLE_REGISTERS)
    (hq1 : 1 ≤ m.packet.data) (hq : m.packet.data ≤ 45) :
    (constructPacket m).sent.length = 9 + 2 * m.packet.data
    ∧ (constructPacket m).sent[6]? = some (2 * m.packet.data)
    ∧ (∀ i r, i < m.packet.data → m.packet.register_array[i]? = some r → r < 65536 →
        (constructPacket m).sent[7 + 2 * i]? = some (r >>> 8)
        ∧ (constructPacket m).sent[8 + 2 * i]? = some (r &&& 0xFF))
    ∧ (m.packet.data = 2 → m.packet.register_array = [0x1234, 0x5678] →
        ((constructPacket m).sent.drop 6).take 5 = [0x04, 0x12, 0x34, 0x56, 0x78]) := by
  have hp : constructPacket_payload (constructPacket_header m)
      = construct_F16 (constructPacket_header m) := payload_F16 _ (by rw [header_packet]; exact hfn)
  have hd : (constructPacket_header m).packet.data = m.packet.data := by rw [header_packet]
  have hr : (constructPacket_header m).packet.register_array = m.packet.register_array := by
    rw [header_packet]
  obtain ⟨hsz, h6, hpay⟩ := construct_F16_frame (constructPacket_header m) (by rw [hd]; exact hq)
  rw [hd] at hsz h6 hpay
  rw [hr] at hpay
  have hlen : (constructPacket m).sent.length = 9 + 2 * m.packet.data := by
    rw [constructPacket_sent, seal_sent_length, hp, hsz]
  have hget : ∀ j, j < 7 + 2 * m.packet.data →
      (constructPacket m).sent[j]? = some ((construct_F16 (constructPacket_header m)).1.frame j) := by
    intro j hj
    rw [constructPacket_sent, hp]
    exact seal_sent_below _ (by rw [hsz]; omega) (by rw [hsz]; omega) (by rw [hsz]; omega)
  have hregs : ∀ i r, i < m.packet.data → m.packet.register_array[i]? = some r → r < 65536 →
      (constructPacket m).sent[7 + 2 * i]? = some (r >>> 8)
      ∧ (constructPacket m).sent[8 + 2 * i]? = some (r &&& 0xFF) := by
    intro i r hi hri hr16
    have hD : m.packet.register_array.getD i 0 = r := by
      rw [List.getD_eq_getElem?_getD, hri]; rfl
    obtain ⟨ha, hb⟩ := hpay i hi
    rw [hD] at ha hb
    have e8 : 8 + 2 * i = 7 + 2 * i + 1 := by omega
    rw [hget _ (by omega), e8, hget _ (by omega), ha, hb]
    have c1 : u8 (r >>> 8) = r >>> 8 := by rw [shr8_eq]; unfold u8; omega
    have c2 : u8 (r &&& 0xFF) = r &&& 0xFF := by rw [and_ff_eq]; unfold u8; omega
    rw [c1, c2]
    exact ⟨rfl, rfl⟩
  refine ⟨hlen, ?_, hregs, ?_⟩
  · rw [hget 6 (by omega), h6]
  · intro h2 hl
    have g6 := hget 6 (by omega)
    have r0 := hregs 0 0x1234 (by omega) (by rw [hl]; rfl) (by decide)
    have r1 := hregs 1 0x5678 (by omega) (by rw [hl]; rfl) (by decide)
    rw [h6, h2] at g6
    rw [h2] at hlen
    apply List.ext_getElem?
    intro k
    rcases k with _ | _ | _ | _ | _ | k
    · simpa [List.getElem?_take, List.getElem?_drop] using g6
    · simpa [List.getElem?_take, List.getElem?_drop] using r0.1
    · simpa [List.getElem?_take, List.getElem?_drop] using r0.2
    · simpa [List.getElem?_take, List.getElem?_drop] using r1.1
    · simpa [List.getElem?_take, List.getElem?_drop] using r1.2
    · simp [List.getElem?_take]

set_option maxRecDepth 100000 in
/-- Witness of `constructPacket_F16_request`: two registers 0x1234, 0x5678. -/
theorem constructPacket_F16_request_witness :
    (constructPacket (configured 3 (freshPacket 1 16 0x0100 2 [0x1234, 0x5678]) [])).sent.length
        = 9 + 2 * 2
    ∧ ((constructPacket (configured 3 (freshPacket 1 16 0x0100 2 [0x1234, 0x5678]) [])).sent.drop 6).take 5
        = [0x04, 0x12, 0x34, 0x56, 0x78] :=
  ⟨(constructPacket_F16_request (configured 3 (freshPacket 1 16 0x0100 2 [0x1234, 0x5678]) [])
      (by decide) (by decide) (by decide)).1,
   (constructPacket_F16_request (configured 3 (freshPacket 1 16 0x0100 2 [0x1234, 0x5678]) [])
      (by decide) (by decide) (by decide)).2.2.2 (by decide) (by decide)⟩

/-! ## The payload of function 15 -/

theorem construct_F15_loop_outside (nb n i bp index : Nat) (m : Machine)
    (h : index + 2 * n ≤ 255) :
    ∀ j, j < index ∨ index + 2 * n ≤ j →
      (construct_F15_loop nb n i bp index m).frame j = m.frame j := by
  induction n generalizing i bp index m with
  | zero => intro j _; rfl
  | succ n ih =>
    intro j hj
    have e2 : u8 (index + 2) = index + 2 := u8_of_lt (by omega)
    rw [construct_F15_loop]
    simp only [e2]
    split
    · rw [ih _ _ _ _ (by omega) j (by omega)]
      simp only [store_frame, touchReg_frame]
      rw [Function.update_noteq (by omega), Function.update_noteq (by omega)]
    · rw [ih _ _ _ _ (by omega) j (by omega)]
      simp only [store_frame, touchReg_frame]
      rw [Function.update_noteq (by omega)]

theorem construct_F15_loop_inside (nb n i bp index : Nat) (m : Machine)
    (h : index + 2 * n ≤ 255) (hb : bp + 2 * n ≤ 255)
    (hrel : nb = bp + 2 * n ∨ nb + 1 = bp + 2 * n) :
    ∀ k, k < nb - bp →
      (construct_F15_loop nb n i bp index m).frame (index + k)
        = if k % 2 = 0 then u8 (m.packet.register_array.getD (i + k / 2) 0 &&& 0xFF)
          else u8 (m.packet.register_array.getD (i + k / 2) 0 >>> 8) := by
  induction n generalizing i bp index m with
  | zero => intro k hk; omega
  | succ n ih =>
    intro k hk
    have e1 : u8 (bp + 1) = bp + 1 := u8_of_lt (by omega)
    have e2 : u8 (index + 2) = index + 2 := u8_of_lt (by omega)
    have e3 : u8 (bp + 1 + 1) = bp + 2 := u8_of_lt (by omega)
    rw [construct_F15_loop]
    simp only [e1, e2, e3]
    split
    next hlt =>
      rcases k with _ | _ | k
      · rw [construct_F15_loop_outside _ _ _ _ _ _ (by omega) _ (Or.inl (by omega))]
        simp only [store_frame, touchReg_frame, Nat.add_zero]
        rw [Function.update_noteq (by omega), Function.update_same]
        simp
      · rw [construct_F15_loop_outside _ _ _ _ _ _ (by omega) _ (Or.inl (by omega))]
        simp only [store_frame, touchReg_frame]
        rw [Function.update_same]
        simp
      · have := ih (i + 1) (bp + 2) (index + 2)
          (((m.touchReg i).store index (m.packet.register_array.getD i 0 &&& 0xFF)).store
            (index + 1) (m.packet.register_array.getD i 0 >>> 8))
          (by omega) (by omega) (by omega) k (by omega)
        simp only [store_packet, touchReg_packet] at this
        have a1 : index + (k + 1 + 1) = index + 2 + k := by omega
        have a2 : (k + 1 + 1) % 2 = k % 2 := by omega
        have a3 : i + (k + 1 + 1) / 2 = i + 1 + k / 2 := by omega
        rw [a1, a2, a3]
        exact this
    next hge =>
      have hn : n = 0 := by omega
      subst hn
      have hk0 : k = 0 := by omega
      subst hk0
      simp [construct_F15_loop]

theorem coil_counts (q : Nat) (h : byteCount_spec q ≤ 255) :
    coil_registers q = registerCount_spec q ∧ coil_bytes q = byteCount_spec q := by
  unfold byteCount_spec at h
  unfold coil_registers coil_bytes registerCount_spec byteCount_spec u8
  by_cases hr : q % 16 = 0
  · have hn : ¬ (q % 16 > 0) := by omega
    have hn2 : ¬ (q % 16 ≠ 0) := by omega
    rw [if_neg hn2] at h
    simp only [if_neg hn, if_neg hn2]
    omega
  · have hp : q % 16 > 0 := by omega
    have hr2 : q % 16 ≠ 0 := hr
    rw [if_pos hr2] at h
    simp only [if_pos hp, if_pos hr2]
    omega

theorem payload_F15 (m : Machine) (hfn : m.packet.function = FORCE_MULTIPLE_COILS) :
    constructPacket_payload m = construct_F15 m := by
  have h16 : ¬ (m.packet.function = PRESET_MULTIPLE_REGISTERS) := by
    rw [hfn]; decide
  unfold constructPacket_payload
  rw [if_neg h16, if_pos hfn]

/-- The frame after the payload of a function 15 request that fits the buffer. -/
theorem construct_F15_frame (m : Machine) (hfit : 9 + byteCount_spec m.packet.data ≤ BUFFER_SIZE) :
    (construct_F15 m).2 = 9 + byteCount_spec m.packet.data
    ∧ (construct_F15 m).1.frame 6 = byteCount_spec m.packet.data
    ∧ ∀ k, k < byteCount_spec m.packet.data →
        (construct_F15 m).1.frame (7 + k)
          = if k % 2 = 0 then u8 (m.packet.register_array.getD (k / 2) 0 &&& 0xFF)
            else u8 (m.packet.register_array.getD (k / 2) 0 >>> 8) := by
  unfold BUFFER_SIZE at hfit
  obtain ⟨hrc, hbc⟩ := coil_counts m.packet.data (by omega)
  have hrel : byteCount_spec m.packet.data = 2 * registerCount_spec m.packet.data
      ∨ byteCount_spec m.packet.data + 1 = 2 * registerCount_spec m.packet.data := by
    unfold byteCount_spec registerCount_spec
    split <;> omega
  have e3 : u8 (9 + byteCount_spec m.packet.data) = 9 + byteCount_spec m.packet.data :=
    u8_of_lt (by omega)
  have e4 : u8 (byteCount_spec m.packet.data) = byteCount_spec m.packet.data :=
    u8_of_lt (by omega)
  unfold construct_F15
  simp only [hrc, hbc, e3, store_packet]
  refine ⟨trivial, ?_, ?_⟩
  · rw [construct_F15_loop_outside _ _ _ _ _ _ (by omega) _ (Or.inl (by decide))]
    simp [e4]
  · intro k hk
    have := construct_F15_loop_inside (byteCount_spec m.packet.data)
      (registerCount_spec m.packet.data) 0 0 7 (m.store 6 (byteCount_spec m.packet.data))
      (by omega) (by omega) (by omega) k (by omega)
    simpa using this

theorem lowHighBytes_getElem? (rs : List Nat) (k : Nat) :
    (lowHighBytes rs)[k]?
      = (rs[k / 2]?).map (fun r => if k % 2 = 0 then r % 256 else r / 256 % 256) := by
  induction rs generalizing k with
  | nil => simp [lowHighBytes]
  | cons r rs ih =>
    rcases k with _ | _ | k
    · simp [lowHighBytes]
    · simp [lowHighBytes]
    · have a1 : (k + 1 + 1) / 2 = k / 2 + 1 := by omega
      have a2 : (k + 1 + 1) % 2 = k % 2 := by omega
      simp only [lowHighBytes, List.getElem?_cons_succ, a1, a2]
      exact ih k

/-- C5: a function 15 request that fits the frame buffer has byte 6 equal to
`byteCount`, length `9 + byteCount`, and its payload bytes `7 .. 7 + byteCount - 1`
are the first `byteCount` bytes of lo(r0), hi(r0), lo(r1), hi(r1), ... over the
first `registerCount` registers; the last high byte is left out exactly when
`q mod 16 != 0`. -/
theorem constructPacket_F15_request (m : Machine)
    (hfn : m.packet.function = FORCE_MULTIPLE_COILS)
    (hfit : 9 + byteCount_spec m.packet.data ≤ BUFFER_SIZE)
    (hregs : registerCount_spec m.packet.data ≤ m.packet.register_array.length) :
    (constructPacket m).sent[6]? = some (byteCount_spec m.packet.data)
    ∧ (constructPacket m).sent.length = 9 + byteCount_spec m.packet.data
    ∧ ((constructPacket m).sent.drop 7).take (byteCount_spec m.packet.data)
        = (lowHighBytes (m.packet.register_array.take (registerCount_spec m.packet.data))).take
            (byteCount_spec m.packet.data)
    ∧ (byteCount_spec m.packet.data + 1 = 2 * registerCount_spec m.packet.data
        ↔ m.packet.data % 16 ≠ 0)
    ∧ (byteCount_spec m.packet.data = 2 * registerCount_spec m.packet.data
        ↔ m.packet.data % 16 = 0) := by
  have hp : constructPacket_payload (constructPacket_header m)
      = construct_F15 (constructPacket_header m) := payload_F15 _ (by rw [header_packet]; exact hfn)
  have hd : (constructPacket_header m).packet.data = m.packet.data := by rw [header_packet]
  have hr : (constructPacket_header m).packet.register_array = m.packet.register_array := by
    rw [header_packet]
  obtain ⟨hsz, h6, hpay⟩ := construct_F15_frame (constructPacket_header m) (by rw [hd]; exact hfit)
  rw [hd] at hsz h6 hpay
  rw [hr] at hpay
  have hfit2 : 9 + byteCount_spec m.packet.data ≤ 100 := hfit
  have hget : ∀ j, j < 7 + byteCount_spec m.packet.data →
      (constructPacket m).sent[j]? = some ((construct_F15 (constructPacket_header m)).1.frame j) := by
    intro j hj
    rw [constructPacket_sent, hp]
    exact seal_sent_below _ (by rw [hsz]; omega) (by rw [hsz]; omega) (by rw [hsz]; omega)
  have hcount : byteCount_spec m.packet.data ≤ 2 * registerCount_spec m.packet.data := by
    unfold byteCount_spec registerCount_spec
    split <;> omega
  refine ⟨?_, ?_, ?_, ?_, ?_⟩
  · rw [hget 6 (by omega), h6]
  · rw [constructPacket_sent, seal_sent_length, hp, hsz]
  · apply List.ext_getElem?
    intro k
    rw [List.getElem?_take, List.getElem?_take]
    by_cases hk : k < byteCount_spec m.packet.data
    · have hk2 : k / 2 < registerCount_spec m.packet.data := by omega
      rw [if_pos hk, if_pos hk, List.getElem?_drop, hget _ (by omega), hpay k hk,
        lowHighBytes_getElem?, List.getElem?_take, if_pos hk2]
      have hlen : k / 2 < m.packet.register_array.length := by omega
      rw [List.getD_eq_getElem?_getD, List.getElem?_eq_getElem hlen]
      simp only [Option.getD_some, Option.map_some', u8, and_ff_eq, shr8_eq, Nat.mod_mod]
    · rw [if_neg hk, if_neg hk]
  · unfold byteCount_spec registerCount_spec
    split <;> omega
  · unfold byteCount_spec registerCount_spec
    split <;> omega

set_option maxRecDepth 100000 in
/-- Witness of `constructPacket_F15_request`: 20 coils in two registers; three
payload bytes, the high byte 0xEF of the second register is left out. -/
theorem constructPacket_F15_request_witness :
    (constructPacket (configured 3 (freshPacket 1 15 0x0013 20 [0xABCD, 0xEF05]) [])).sent.length
        = 9 + byteCount_spec 20
    ∧ (constructPacket (configured 3 (freshPacket 1 15 0x0013 20 [0xABCD, 0xEF05]) [])).sent.take 10
        = [1, 15, 0x00, 0x13, 0x00, 20, 3, 0xCD, 0xAB, 0x05] :=
  ⟨(constructPacket_F15_request (configured 3 (freshPacket 1 15 0x0013 20 [0xABCD, 0xEF05]) [])
      (by decide) (by decide) (by decide)).2.1,
   by decide⟩

/-! ## The outcome handlers -/

theorem processError_packet (m : Machine) :
    (processError m).packet
      = if m.packet.retries + 1 = m.retry_count then
          { m.packet with failed_requests := m.packet.failed_requests + 1,
                          connection := 0, retries := 0 }
        else
          { m.packet with failed_requests := m.packet.failed_requests + 1,
                          retries := m.packet.retries + 1 } := by
  unfold processError
  simp only

@[simp] theorem processError_state (m : Machine) :
    (processError m).state = WAITING_FOR_TURNAROUND := rfl

@[simp] theorem processError_port (m : Machine) : (processError m).port = m.port := rfl

@[simp] theorem processError_fault (m : Machine) : (processError m).fault = m.fault := rfl

theorem processSuccess_packet (m : Machine) :
    (processSuccess m).packet
      = { m.packet with successful_requests := m.packet.successful_requests + 1, retries := 0 } :=
  rfl

@[simp] theorem processSuccess_state (m : Machine) :
    (processSuccess m).state = WAITING_FOR_TURNAROUND := rfl

@[simp] theorem processSuccess_port (m : Machine) : (processSuccess m).port = m.port := rfl

@[simp] theorem processSuccess_fault (m : Machine) : (processSuccess m).fault = m.fault := rfl

/-! ## The checksum test of the code and the standard checksum -/

theorem validChecksum_iff (frame : Nat → Nat) {n : Nat} (h2 : 2 ≤ n) :
    validChecksum (frameBytes frame n) = true
      ↔ frame (n - 2) = crc16_spec (frameBytes frame (n - 2)) % 256
        ∧ frame (n - 1) = crc16_spec (frameBytes frame (n - 2)) / 256 := by
  unfold validChecksum
  rw [frameBytes_length, frameBytes_getElem? _ (by omega), frameBytes_getElem? _ (by omega),
    frameBytes_take _ (by omega)]
  simp [h2]

theorem checksumMatches_iff (frame : Nat → Nat) {n : Nat} (h2 : 2 ≤ n) (hn : n < 256)
    (hf : ∀ i, i < n → frame i < 256) :
    checksumMatches frame n = true ↔ validChecksum (frameBytes frame n) = true := by
  rw [validChecksum_iff frame h2]
  have hu : u8 (n + 254) = n - 2 := by unfold u8; omega
  have hc := crc16_spec_lt (frameBytes frame (n - 2))
    (frameBytes_lt (fun i hi => hf i (by omega)))
  have h1 := hf (n - 1) (by omega)
  have h0 := hf (n - 2) (by omega)
  unfold checksumMatches
  simp only [hu, decide_eq_true_eq]
  rw [calculateCRC_eq frame _ (fun i hi => hf i (by omega)), shl8_or_eq _ _ h1]
  generalize crc16_spec (frameBytes frame (n - 2)) = c at hc
  omega

/-! ## The receive loop -/

theorem rx_poll_ok (ev : Option Nat) (r : Rx) (h : RxOK r) : RxOK (rx_poll ev r) := by
  obtain ⟨hb, hle, hov⟩ := h
  unfold BUFFER_SIZE at hle hov
  cases ev with
  | none => exact ⟨hb, hle, hov⟩
  | some byte =>
    unfold rx_poll
    simp only
    split
    · exact ⟨hb, hle, hov⟩
    next hno =>
      have hov2 := hov (by simpa using hno)
      have e : u8 (r.m.buffer + 1) = r.m.buffer + 1 := u8_of_lt (by omega)
      refine ⟨?_, ?_, ?_⟩
      · intro i hi
        simp only [store_frame] at hi ⊢
        change i < u8 (r.m.buffer + 1) at hi
        rw [e] at hi
        by_cases hib : i = r.m.buffer
        · subst hib; rw [Function.update_same]; exact u8_lt _
        · rw [Function.update_noteq hib]; exact hb i (by omega)
      · change u8 (r.m.buffer + 1) ≤ BUFFER_SIZE + 1
        rw [e]; unfold BUFFER_SIZE; omega
      · intro hf
        change u8 (r.m.buffer + 1) ≤ BUFFER_SIZE
        rw [e]
        have : r.m.buffer ≠ BUFFER_SIZE := by simpa using hf
        unfold BUFFER_SIZE at *
        omega

theorem rx_frame_end_ok (r : Rx) (h : RxOK r) : RxOK (rx_frame_end r).2 := by
  unfold rx_frame_end
  simp only
  split <;> exact h

theorem rx_poll_packet (ev : Option Nat) (r : Rx) :
    (rx_poll ev r).m.packet = r.m.packet ∧ (rx_poll ev r).m.retry_count = r.m.retry_count := by
  cases ev with
  | none => exact ⟨rfl, rfl⟩
  | some byte =>
    unfold rx_poll
    simp only
    split <;> exact ⟨rfl, rfl⟩

theorem rx_frame_end_packet (r : Rx) :
    (rx_frame_end r).2.m.packet = r.m.packet
    ∧ (rx_frame_end r).2.m.retry_count = r.m.retry_count := by
  unfold rx_frame_end
  simp only
  split <;> exact ⟨rfl, rfl⟩

theorem waiting_for_reply_loop_ok (polls : List (Option Nat)) (r : Rx) (h : RxOK r) :
    RxOK (waiting_for_reply_loop polls r).1 := by
  induction polls generalizing r with
  | nil => exact h
  | cons ev rest ih =>
    rw [waiting_for_reply_loop]
    split
    · exact rx_frame_end_ok _ (rx_poll_ok _ _ h)
    · exact ih _ (rx_frame_end_ok _ (rx_poll_ok _ _ h))

theorem waiting_for_reply_loop_packet (polls : List (Option Nat)) (r : Rx) :
    (waiting_for_reply_loop polls r).1.m.packet = r.m.packet
    ∧ (waiting_for_reply_loop polls r).1.m.retry_count = r.m.retry_count := by
  induction polls generalizing r with
  | nil => exact ⟨rfl, rfl⟩
  | cons ev rest ih =>
    rw [waiting_for_reply_loop]
    have h1 := rx_poll_packet ev r
    have h2 := rx_frame_end_packet (rx_poll ev r)
    split
    · exact ⟨h2.1.trans h1.1, h2.2.trans h1.2⟩
    · have h3 := ih (rx_frame_end (rx_poll ev r)).2
      exact ⟨h3.1.trans (h2.1.trans h1.1), h3.2.trans (h2.2.trans h1.2)⟩

theorem waiting_for_reply_recv_ok (m : Machine) : RxOK (waiting_for_reply_recv m) := by
  unfold waiting_for_reply_recv
  have h := waiting_for_reply_loop_ok m.port
    { m := { m with buffer := 0 }, overflowFlag := false, lateProcessing := 20 }
    ⟨fun i hi => absurd hi (Nat.not_lt_zero i), Nat.zero_le _, fun _ => Nat.zero_le _⟩
  exact h

theorem waiting_for_reply_recv_packet (m : Machine) :
    (waiting_for_reply_recv m).m.packet = m.packet
    ∧ (waiting_for_reply_recv m).m.retry_count = m.retry_count := by
  unfold waiting_for_reply_recv
  exact waiting_for_reply_loop_packet m.port
    { m := { m with buffer := 0 }, overflowFlag := false, lateProcessing := 20 }

/-! ## The run of `Modbus_Get` -/

theorem Modbus_Get_loop_invalid (pkg : Packet) (fuel : Nat) (m : Machine)
    (h : m.state = INVALID) : Modbus_Get_loop pkg fuel m = m := by
  cases fuel with
  | zero => rfl
  | succ k => rw [Modbus_Get_loop, if_neg (by simp [h])]

/-- The last two passes of a run: turnaround, then `DONE`. -/
theorem Modbus_Get_loop_finish (pkg : Packet) (fuel : Nat) (m : Machine)
    (h : m.state = WAITING_FOR_TURNAROUND) :
    Modbus_Get_loop pkg (fuel + 2) m
      = { m with packet_index := u32 (m.packet_index + 1), state := INVALID } := by
  have s1 : (Modbus_Get_step pkg m) = { m with state := DONE } := by
    unfold Modbus_Get_step
    rw [if_neg (by rw [h]; decide), if_neg (by rw [h]; decide), if_pos h]
    rfl
  have s2 : Modbus_Get_step pkg { m with state := DONE }
      = { m with packet_index := u32 (m.packet_index + 1), state := INVALID } := by
    unfold Modbus_Get_step
    rw [if_neg (by show ¬ (DONE = IDLE); decide),
      if_neg (by show ¬ (DONE = WAITING_FOR_REPLY); decide),
      if_neg (by show ¬ (DONE = WAITING_FOR_TURNAROUND); decide),
      if_pos (by show DONE = DONE; rfl)]
  rw [Modbus_Get_loop, if_pos (by rw [h]; decide), s1, Modbus_Get_loop,
    if_pos (by show DONE ≠ INVALID; decide), s2, Modbus_Get_loop_invalid _ _ _ rfl]

theorem constructPacket_of_ne (m : Machine) (h : m.packet.id ≠ 0) :
    constructPacket m
      = constructPacket_seal (constructPacket_payload (constructPacket_header m)).1
          (constructPacket_payload (constructPacket_header m)).2 := by
  unfold constructPacket constructPacket_broadcast
  simp only
  rw [if_neg]
  rw [sealed_packet]
  exact h

theorem constructPacket_of_zero (m : Machine) (h : m.packet.id = 0) :
    constructPacket m
      = processSuccess (constructPacket_seal (constructPacket_payload (constructPacket_header m)).1
          (constructPacket_payload (constructPacket_header m)).2) := by
  unfold constructPacket constructPacket_broadcast
  simp only
  rw [if_pos]
  rw [sealed_packet]
  exact h

theorem process_F1_F2_state (m : Machine) : (process_F1_F2 m).state = WAITING_FOR_TURNAROUND := by
  unfold process_F1_F2
  simp only
  split <;> rfl

theorem process_F3_F4_state (m : Machine) : (process_F3_F4 m).state = WAITING_FOR_TURNAROUND := by
  unfold process_F3_F4
  simp only
  split <;> rfl

theorem process_F15_F16_state (m : Machine) :
    (process_F15_F16 m).state = WAITING_FOR_TURNAROUND := by
  unfold process_F15_F16
  simp only
  split <;> rfl

theorem processReply_state (m : Machine) : (processReply m).state = WAITING_FOR_TURNAROUND := by
  unfold processReply
  simp only
  split
  · split
    · rfl
    · split
      · exact process_F1_F2_state _
      · split
        · exact process_F3_F4_state _
        · split
          · exact process_F15_F16_state _
          · rfl
  · rfl

theorem waiting_for_reply_state (m : Machine) :
    (waiting_for_reply m).state = WAITING_FOR_TURNAROUND := by
  unfold waiting_for_reply waiting_for_reply_check
  split
  · rfl
  · split
    · rfl
    · exact processReply_state _

/-- A run to a slave that answers: `IDLE`, `WAITING_FOR_REPLY`,
`WAITING_FOR_TURNAROUND`, `DONE`. -/
theorem Modbus_Get_of_ne (pkg : Packet) (m : Machine) (h : pkg.id ≠ 0) :
    Modbus_Get pkg m
      = { waiting_for_reply_check (received pkg m) with
            packet_index := u32 ((waiting_for_reply_check (received pkg m)).packet_index + 1),
            state := INVALID } := by
  have hc : constructPacket { m with state := IDLE, packet := pkg }
      = constructPacket_seal
          (constructPacket_payload (constructPacket_header { m with state := IDLE, packet := pkg })).1
          (constructPacket_payload (constructPacket_header { m with state := IDLE, packet := pkg })).2 :=
    constructPacket_of_ne _ h
  have s1 : Modbus_Get_step pkg { m with state := IDLE }
      = constructPacket { m with state := IDLE, packet := pkg } := by
    unfold Modbus_Get_step
    rw [if_pos (by show IDLE = IDLE; rfl)]
  have st : (constructPacket { m with state := IDLE, packet := pkg }).state = WAITING_FOR_REPLY := by
    rw [hc]; rfl
  have s2 : Modbus_Get_step pkg (constructPacket { m with state := IDLE, packet := pkg })
      = waiting_for_reply (constructPacket { m with state := IDLE, packet := pkg }) := by
    unfold Modbus_Get_step
    rw [if_neg (by rw [st]; decide), if_pos st]
  unfold Modbus_Get
  rw [Modbus_Get_loop, if_pos (by show IDLE ≠ INVALID; decide), s1, Modbus_Get_loop,
    if_pos (by rw [st]; decide), s2, Modbus_Get_loop_finish pkg 0 _ (waiting_for_reply_state _)]
  rfl

/-- A broadcast run: `IDLE`, `WAITING_FOR_TURNAROUND`, `DONE`; the pass for
`WAITING_FOR_REPLY` does not occur. -/
theorem Modbus_Get_of_zero (pkg : Packet) (m : Machine) (h : pkg.id = 0) :
    Modbus_Get pkg m
      = { constructPacket { m with state := IDLE, packet := pkg } with
            packet_index := u32 ((constructPacket { m with state := IDLE, packet := pkg }).packet_index + 1),
            state := INVALID } := by
  have s1 : Modbus_Get_step pkg { m with state := IDLE }
      = constructPacket { m with state := IDLE, packet := pkg } := by
    unfold Modbus_Get_step
    rw [if_pos (by show IDLE = IDLE; rfl)]
  have st : (constructPacket { m with state := IDLE, packet := pkg }).state
      = WAITING_FOR_TURNAROUND := by
    rw [constructPacket_of_zero _ h]; rfl
  unfold Modbus_Get
  rw [Modbus_Get_loop, if_pos (by show IDLE ≠ INVALID; decide), s1,
    Modbus_Get_loop_finish pkg 1 _ st]

/-- Every run ends in state `INVALID`: the four passes granted by `Modbus_Get`
are enough. -/
theorem Modbus_Get_state (pkg : Packet) (m : Machine) : (Modbus_Get pkg m).state = INVALID := by
  by_cases h : pkg.id = 0
  · rw [Modbus_Get_of_zero pkg m h]
  · rw [Modbus_Get_of_ne pkg m h]

/-- The record and the retry ceiling at the exit of the receive loop. -/
theorem received_packet (pkg : Packet) (m : Machine) :
    (received pkg m).m.packet = { pkg with data_rcv := 0, requests := pkg.requests + 1 }
      ∨ pkg.id = 0 := by
  by_cases h : pkg.id = 0
  · exact Or.inr h
  · left
    unfold received
    rw [(waiting_for_reply_recv_packet _).1, constructPacket_of_ne _ h, sealed_packet]

theorem received_retry_count (pkg : Packet) (m : Machine) :
    (received pkg m).m.retry_count = m.retry_count := by
  unfold received
  rw [(waiting_for_reply_recv_packet _).2]
  unfold constructPacket constructPacket_broadcast
  simp only
  split
  · show (constructPacket_seal _ _).retry_count = _
    rw [seal_retry_count, payload_retry_count, header_retry_count]
  · rw [seal_retry_count, payload_retry_count, header_retry_count]

/-! ## Reply processing -/

@[simp] theorem touch_frame (m : Machine) (i : Nat) : (m.touch i).frame = m.frame := rfl

@[simp] theorem touch_packet (m : Machine) (i : Nat) : (m.touch i).packet = m.packet := rfl

@[simp] theorem touch_retry_count (m : Machine) (i : Nat) :
    (m.touch i).retry_count = m.retry_count := rfl

@[simp] theorem touch_buffer (m : Machine) (i : Nat) : (m.touch i).buffer = m.buffer := rfl

@[simp] theorem touch_fault (m : Machine) (i : Nat) :
    (m.touch i).fault = (m.fault || decide (BUFFER_SIZE ≤ i)) := rfl

@[simp] theorem storeReg_frame (m : Machine) (i v : Nat) : (m.storeReg i v).frame = m.frame := rfl

@[simp] theorem storeReg_retry_count (m : Machine) (i v : Nat) :
    (m.storeReg i v).retry_count = m.retry_count := rfl

@[simp] theorem storeReg_packet (m : Machine) (i v : Nat) :
    (m.storeReg i v).packet
      = { m.packet with register_array := m.packet.register_array.set i v } := rfl

@[simp] theorem storeReg_fault (m : Machine) (i v : Nat) :
    (m.storeReg i v).fault = (m.fault || decide (m.packet.register_array.length ≤ i)) := rfl

/-- The reply loop of functions 3 and 4 leaves the frame alone. -/
theorem process_F3_F4_loop_frame (n i index : Nat) (m : Machine) :
    (process_F3_F4_loop n i index m).frame = m.frame
    ∧ (process_F3_F4_loop n i index m).retry_count = m.retry_count := by
  induction n generalizing i index m with
  | zero => exact ⟨rfl, rfl⟩
  | succ n ih =>
    rw [process_F3_F4_loop]
    obtain ⟨h1, h2⟩ := ih (u8 (i + 1)) (u8 (index + 2))
      (((m.touch index).touch (index + 1)).storeReg i
        ((((m.touch index).touch (index + 1)).frame index <<< 8)
          ||| ((m.touch index).touch (index + 1)).frame (index + 1)))
    exact ⟨h1, h2⟩

/-- The reply loop of functions 3 and 4 changes only the register array. -/
theorem process_F3_F4_loop_packet (n i index : Nat) (m : Machine) :
    (process_F3_F4_loop n i index m).packet
      = { m.packet with
            register_array := (process_F3_F4_loop n i index m).packet.register_array } := by
  induction n generalizing i index m with
  | zero => rfl
  | succ n ih =>
    rw [process_F3_F4_loop, ih]
    simp

theorem process_F3_F4_loop_length (n i index : Nat) (m : Machine) :
    (process_F3_F4_loop n i index m).packet.register_array.length
      = m.packet.register_array.length := by
  induction n generalizing i index m with
  | zero => rfl
  | succ n ih =>
    rw [process_F3_F4_loop, ih]
    simp

theorem process_F3_F4_loop_outside (n i index : Nat) (m : Machine) (hi : i + n ≤ 255) :
    ∀ j, j < i ∨ i + n ≤ j →
      (process_F3_F4_loop n i index m).packet.register_array[j]?
        = m.packet.register_array[j]? := by
  induction n generalizing i index m with
  | zero => intro j _; rfl
  | succ n ih =>
    intro j hj
    have e : u8 (i + 1) = i + 1 := u8_of_lt (by omega)
    rw [process_F3_F4_loop]
    simp only [e]
    rw [ih _ _ _ (by omega) j (by omega)]
    simp only [storeReg_packet, touch_packet]
    rw [List.getElem?_set_ne (by omega)]

theorem process_F3_F4_loop_inside (n i index : Nat) (m : Machine) (hi : i + n ≤ 255)
    (hx : index + 2 * n ≤ 255) (hcap : i + n ≤ m.packet.register_array.length) :
    ∀ k, k < n →
      (process_F3_F4_loop n i index m).packet.register_array[i + k]?
        = some ((m.frame (index + 2 * k) <<< 8) ||| m.frame (index + 2 * k + 1)) := by
  induction n generalizing i index m with
  | zero => intro k hk; omega
  | succ n ih =>
    intro k hk
    have e : u8 (i + 1) = i + 1 := u8_of_lt (by omega)
    have e2 : u8 (index + 2) = index + 2 := u8_of_lt (by omega)
    rw [process_F3_F4_loop]
    simp only [e, e2]
    rcases k with _ | k
    · rw [process_F3_F4_loop_outside _ _ _ _ (by omega) _ (Or.inl (by omega))]
      simp only [storeReg_packet, touch_packet, touch_frame, Nat.add_zero, Nat.mul_zero]
      rw [List.getElem?_set_self (by omega)]
    · have := ih (i + 1) (index + 2)
        (((m.touch index).touch (index + 1)).storeReg i
          ((((m.touch index).touch (index + 1)).frame index <<< 8)
            ||| ((m.touch index).touch (index + 1)).frame (index + 1)))
        (by omega) (by omega) (by simp; omega) k (by omega)
      simp only [storeReg_frame, touch_frame] at this
      have a1 : i + (k + 1) = i + 1 + k := by omega
      have a2 : index + 2 * (k + 1) = index + 2 + 2 * k := by omega
      rw [a1, a2]
      exact this

theorem process_F3_F4_loop_fault (n i index : Nat) (m : Machine)
    (hx : index + 2 * n ≤ BUFFER_SIZE) (hcap : i + n ≤ m.packet.register_array.length)
    (hi : i + n ≤ 255) :
    (process_F3_F4_loop n i index m).fault = m.fault := by
  induction n generalizing i index m with
  | zero => rfl
  | succ n ih =>
    have e : u8 (i + 1) = i + 1 := u8_of_lt (by omega)
    have e2 : u8 (index + 2) = index + 2 := u8_of_lt (by unfold BUFFER_SIZE at hx; omega)
    rw [process_F3_F4_loop]
    simp only [e, e2]
    rw [ih _ _ _ (by omega) (by simp; omega) (by omega)]
    unfold BUFFER_SIZE at hx
    have c1 : ¬ (100 ≤ index) := by omega
    have c2 : ¬ (100 ≤ index + 1) := by omega
    have c3 : ¬ (m.packet.register_array.length ≤ i) := by omega
    simp [BUFFER_SIZE, c1, c2, c3]
theorem processReply_exception (m : Machine) (hc : checksumMatches m.frame m.buffer = true)
    (hx : m.frame 1 &&& 0x80 = 0x80) :
    processReply m
      = processError
          { (m.touch (m.buffer - 2)).touch (m.buffer - 1) with
              packet := { m.packet with exception_errors := m.packet.exception_errors + 1 } } := by
  unfold processReply
  simp only [hc, if_true, touch_frame, touch_packet]
  rw [if_pos hx]

theorem processReply_invalid (m : Machine) (hc : checksumMatches m.frame m.buffer = false) :
    processReply m = processError ((m.touch (m.buffer - 2)).touch (m.buffer - 1)) := by
  unfold processReply
  simp [hc]

theorem processReply_F1_F2 (m : Machine) (hc : checksumMatches m.frame m.buffer = true)
    (hfn : m.frame 1 = 1 ∨ m.frame 1 = 2) :
    processReply m = process_F1_F2 ((m.touch (m.buffer - 2)).touch (m.buffer - 1)) := by
  unfold processReply
  rcases hfn with h | h <;>
    simp [hc, h, READ_COIL_STATUS, READ_INPUT_STATUS]

theorem processReply_F3_F4 (m : Machine) (hc : checksumMatches m.frame m.buffer = true)
    (hfn : m.frame 1 = 3 ∨ m.frame 1 = 4) :
    processReply m = process_F3_F4 ((m.touch (m.buffer - 2)).touch (m.buffer - 1)) := by
  unfold processReply
  rcases hfn with h | h <;>
    simp [hc, h, READ_COIL_STATUS, READ_INPUT_STATUS, READ_INPUT_REGISTERS,
      READ_HOLDING_REGISTERS]

theorem processReply_F15_F16 (m : Machine) (hc : checksumMatches m.frame m.buffer = true)
    (hfn : m.frame 1 = 15 ∨ m.frame 1 = 16) :
    processReply m = process_F15_F16 ((m.touch (m.buffer - 2)).touch (m.buffer - 1)) := by
  unfold processReply
  rcases hfn with h | h <;>
    simp [hc, h, READ_COIL_STATUS, READ_INPUT_STATUS, READ_INPUT_REGISTERS,
      READ_HOLDING_REGISTERS, FORCE_MULTIPLE_COILS, PRESET_MULTIPLE_REGISTERS]

/-! ## The reply of functions 3 and 4 -/

theorem highLowBytes_length (rs : List Nat) : (highLowBytes rs).length = 2 * rs.length := by
  induction rs with
  | nil => rfl
  | cons r rs ih => simp only [highLowBytes, List.length_cons, ih]; omega

theorem highLowBytes_getElem? (rs : List Nat) (k : Nat) :
    (highLowBytes rs)[k]?
      = (rs[k / 2]?).map (fun r => if k % 2 = 0 then r / 256 else r % 256) := by
  induction rs generalizing k with
  | nil => simp [highLowBytes]
  | cons r rs ih =>
    rcases k with _ | _ | k
    · simp [highLowBytes]
    · simp [highLowBytes]
    · have a1 : (k + 1 + 1) / 2 = k / 2 + 1 := by omega
      have a2 : (k + 1 + 1) % 2 = k % 2 := by omega
      simp only [highLowBytes, List.getElem?_cons_succ, a1, a2]
      exact ih k

theorem highLowBytes_lt (rs : List Nat) (h : ∀ r ∈ rs, r < 65536) :
    ∀ b ∈ highLowBytes rs, b < 256 := by
  induction rs with
  | nil => intro b hb; simp [highLowBytes] at hb
  | cons r rs ih =>
    intro b hb
    have hr := h r (List.mem_cons_self _ _)
    simp only [highLowBytes, List.mem_cons] at hb
    rcases hb with hb | hb | hb
    · omega
    · omega
    · exact ih (fun x hx => h x (List.mem_cons_of_mem _ hx)) b hb

theorem validChecksum_append (body : List Nat) :
    validChecksum (body ++ [crc16_spec body % 256, crc16_spec body / 256]) = true := by
  obtain ⟨h1, h2, h3⟩ := append_pair_facts body (crc16_spec body % 256) (crc16_spec body / 256)
  unfold validChecksum
  rw [h1, h2, h3]
  simp

/-- What a buffered function 3 or 4 reply puts into the frame. -/
theorem reply_F3_F4_frame (frame : Nat → Nat) (n id function : Nat) (v : List Nat)
    (hid : id < 256) (hfn : function < 256) (hq : 2 * v.length < 256)
    (hv : ∀ x ∈ v, x < 65536)
    (h : frameBytes frame n = reply_F3_F4 id function v) :
    n = 5 + 2 * v.length
    ∧ frame 1 = function
    ∧ frame 2 = 2 * v.length
    ∧ (∀ i, i < n → frame i < 256)
    ∧ validChecksum (frameBytes frame n) = true
    ∧ ∀ k x, v[k]? = some x → frame (3 + 2 * k) = x / 256 ∧ frame (3 + 2 * k + 1) = x % 256 := by
  have hlen : n = 5 + 2 * v.length := by
    have := congrArg List.length h
    simp only [frameBytes_length, reply_F3_F4, List.length_append, List.length_cons,
      List.length_nil, highLowBytes_length] at this
    omega
  have hat : ∀ i, i < n → some (frame i) = (reply_F3_F4 id function v)[i]? := by
    intro i hi
    rw [← h, frameBytes_getElem? _ hi]
  have hbody : ∀ b ∈ [id, function, 2 * v.length] ++ highLowBytes v, b < 256 := by
    intro b hb
    simp only [List.mem_append, List.mem_cons, List.mem_singleton, List.not_mem_nil, or_false] at hb
    rcases hb with (hb | hb | hb) | hb
    · omega
    · omega
    · omega
    · exact highLowBytes_lt v hv b hb
  have hcrc := crc16_spec_lt _ hbody
  refine ⟨hlen, ?_, ?_, ?_, ?_, ?_⟩
  · have := hat 1 (by omega)
    simpa [reply_F3_F4] using this
  · have := hat 2 (by omega)
    simpa [reply_F3_F4] using this
  · intro i hi
    have hm : frame i ∈ reply_F3_F4 id function v := by
      rw [← h]
      exact List.mem_map.mpr ⟨i, List.mem_range.mpr hi, rfl⟩
    unfold reply_F3_F4 at hm
    rw [List.mem_append] at hm
    rcases hm with hm | hm
    · exact hbody _ hm
    · simp only [List.mem_cons, List.mem_singleton, List.not_mem_nil, or_false] at hm
      rcases hm with hm | hm <;> omega
  · rw [h]
    exact validChecksum_append _
  · intro k x hk
    have hkl : k < v.length := by
      by_contra hc
      rw [List.getElem?_eq_none (by omega)] at hk
      exact absurd hk (by simp)
    have e0 := hat (3 + 2 * k) (by omega)
    have e1 := hat (3 + 2 * k + 1) (by omega)
    have hb3 : ([id, function, 2 * v.length] : List Nat).length = 3 := rfl
    have hl : ([id, function, 2 * v.length] ++ highLowBytes v).length = 3 + 2 * v.length := by
      rw [List.length_append, hb3, highLowBytes_length]
    unfold reply_F3_F4 at e0 e1
    rw [List.getElem?_append_left (by rw [hl]; omega),
      List.getElem?_append_right (by rw [hb3]; omega), hb3, highLowBytes_getElem?] at e0
    rw [List.getElem?_append_left (by rw [hl]; omega),
      List.getElem?_append_right (by rw [hb3]; omega), hb3, highLowBytes_getElem?] at e1
    have a0 : (3 + 2 * k - 3) / 2 = k := by omega
    have b0 : (3 + 2 * k - 3) % 2 = 0 := by omega
    have a1 : (3 + 2 * k + 1 - 3) / 2 = k := by omega
    have b1 : (3 + 2 * k + 1 - 3) % 2 = 1 := by omega
    rw [a0, b0, hk] at e0
    rw [a1, b1, hk] at e1
    simp at e0 e1
    exact ⟨e0, e1⟩

/-- C6: round trip for functions 3 and 4.  When the buffered reply is exactly
`[id, function, 2q, hi(v0), lo(v0), ..., crcLo, crcHi]` for `q` 16-bit values
`v`, `1 ≤ q ≤ 47`, `processReply` leaves `register_array[i] = v[i]` for every
`i < q`, sets `data_rcv = q` and takes the success path (no out-of-bounds
access is recorded). -/
theorem processReply_F3_F4_roundtrip (m : Machine) (v : List Nat)
    (hfn : m.packet.function = 3 ∨ m.packet.function = 4)
    (hid : m.packet.id < 256)
    (hq1 : 1 ≤ m.packet.data) (hq : m.packet.data ≤ 47)
    (hlen : v.length = m.packet.data) (hv : ∀ x ∈ v, x < 65536)
    (hcap : m.packet.data ≤ m.packet.register_array.length)
    (hbuf : frameBytes m.frame m.buffer = reply_F3_F4 m.packet.id m.packet.function v) :
    (processReply m).packet.register_array.take m.packet.data = v
    ∧ (∀ i, i < m.packet.data → (processReply m).packet.register_array[i]? = v[i]?)
    ∧ (processReply m).packet.data_rcv = m.packet.data
    ∧ (processReply m).packet.successful_requests = m.packet.successful_requests + 1
    ∧ (processReply m).packet.failed_requests = m.packet.failed_requests
    ∧ (processReply m).packet.retries = 0
    ∧ (processReply m).state = WAITING_FOR_TURNAROUND
    ∧ (processReply m).fault = m.fault := by
  obtain ⟨hn, h1, h2, hlt, hvalid, hdata⟩ := reply_F3_F4_frame m.frame m.buffer m.packet.id
    m.packet.function v hid (by omega) (by omega) hv hbuf
  have hc : checksumMatches m.frame m.buffer = true :=
    (checksumMatches_iff m.frame (by omega) (by omega) hlt).mpr hvalid
  have hguard : m.frame 2 = u32 (m.packet.data * 2) := by
    rw [h2, hlen]; unfold u32; omega
  generalize hL : process_F3_F4_loop m.packet.data 0 3
    ((m.touch (m.buffer - 2)).touch (m.buffer - 1)) = L
  have hLp : L.packet = { m.packet with register_array := L.packet.register_array } := by
    rw [← hL]; exact process_F3_F4_loop_packet _ _ _ _
  have hpr : processReply m
      = processSuccess { L with packet := { L.packet with data_rcv := L.packet.data } } := by
    rw [processReply_F3_F4 m hc (by rw [h1]; exact hfn)]
    unfold process_F3_F4
    simp only [touch_frame, touch_packet]
    rw [if_pos hguard, hL]
  have hregs : ∀ i, i < m.packet.data → (processReply m).packet.register_array[i]? = v[i]? := by
    intro i hi
    rw [hpr, processSuccess_packet]
    show L.packet.register_array[i]? = _
    have := process_F3_F4_loop_inside m.packet.data 0 3
      ((m.touch (m.buffer - 2)).touch (m.buffer - 1)) (by omega) (by omega)
      (by simpa using hcap) i hi
    rw [Nat.zero_add, hL] at this
    rw [this]
    have hiv : i < v.length := by omega
    obtain ⟨e0, e1⟩ := hdata i v[i] (List.getElem?_eq_getElem hiv)
    have hx := hv v[i] (List.getElem_mem hiv)
    simp only [touch_frame]
    rw [e0, e1, shl8_or_eq _ _ (by omega), List.getElem?_eq_getElem hiv]
    congr 1
    omega
  have hfault : L.fault = m.fault := by
    rw [← hL, process_F3_F4_loop_fault _ _ _ _ (by unfold BUFFER_SIZE; omega)
      (by simpa using hcap) (by omega)]
    have c1 : ¬ (BUFFER_SIZE ≤ m.buffer - 2) := by unfold BUFFER_SIZE; omega
    have c2 : ¬ (BUFFER_SIZE ≤ m.buffer - 1) := by unfold BUFFER_SIZE; omega
    simp [c1, c2]
  refine ⟨?_, hregs, ?_, ?_, ?_, ?_, processReply_state m, ?_⟩
  · apply List.ext_getElem?
    intro i
    rw [List.getElem?_take]
    by_cases hi : i < m.packet.data
    · rw [if_pos hi, hregs i hi]
    · rw [if_neg hi, List.getElem?_eq_none (by omega)]
  · rw [hpr, processSuccess_packet]
    show L.packet.data = _
    rw [hLp]
  · rw [hpr, processSuccess_packet]
    show L.packet.successful_requests + 1 = _
    rw [hLp]
  · rw [hpr, processSuccess_packet]
    show L.packet.failed_requests = _
    rw [hLp]
  · rw [hpr, processSuccess_packet]
  · rw [hpr, processSuccess_fault]
    exact hfault

set_option maxRecDepth 100000 in
/-- Witness of `processReply_F3_F4_roundtrip`: the reply to a read of two holding
registers, as received from the serial port. -/
theorem processReply_F3_F4_roundtrip_witness :
    (processReply roundtripMachine).packet.register_array.take 2 = [0x1234, 0x5678]
    ∧ (processReply roundtripMachine).packet.data_rcv = 2
    ∧ (processReply roundtripMachine).packet.successful_requests = 1 :=
  ⟨(processReply_F3_F4_roundtrip roundtripMachine [0x1234, 0x5678]
      (by decide) (by decide) (by decide) (by decide) (by decide) (by decide) (by decide)
      (by decide)).1,
   (processReply_F3_F4_roundtrip roundtripMachine [0x1234, 0x5678]
      (by decide) (by decide) (by decide) (by decide) (by decide) (by decide) (by decide)
      (by decide)).2.2.1,
   (processReply_F3_F4_roundtrip roundtripMachine [0x1234, 0x5678]
      (by decide) (by decide) (by decide) (by decide) (by decide) (by decide) (by decide)
      (by decide)).2.2.2.1⟩

/-! ## The two outcomes of a run -/

theorem processError_failure_spec (x : Machine) (pkg : Packet) (rc : Nat)
    (hp : x.packet = { pkg with data_rcv := 0, requests := pkg.requests + 1 })
    (hrc : x.retry_count = rc) :
    (processError x).packet = failure_spec rc pkg := by
  rw [processError_packet, hp, hrc]
  unfold failure_spec
  simp only

theorem process_F1_F2_mismatch (x : Machine) (h : x.frame 2 ≠ coil_bytes x.packet.data) :
    process_F1_F2 x = processError x := by
  unfold process_F1_F2
  simp only
  rw [if_neg h]

theorem process_F3_F4_mismatch (x : Machine) (h : x.frame 2 ≠ u32 (x.packet.data * 2)) :
    process_F3_F4 x = processError x := by
  unfold process_F3_F4
  simp only
  rw [if_neg h]

theorem failure_spec_fields (rc : Nat) (p : Packet) :
    (failure_spec rc p).failed_requests = p.failed_requests + 1
    ∧ (failure_spec rc p).successful_requests = p.successful_requests
    ∧ (failure_spec rc p).exception_errors = p.exception_errors
    ∧ (failure_spec rc p).register_array = p.register_array
    ∧ (failure_spec rc p).data_rcv = 0
    ∧ (failure_spec rc p).requests = p.requests + 1
    ∧ (failure_spec rc p).retries = (if p.retries + 1 = rc then 0 else p.retries + 1)
    ∧ (failure_spec rc p).connection = (if p.retries + 1 = rc then 0 else p.connection) := by
  unfold failure_spec
  split <;> simp [*]

/-- A checksum-valid reply of the expected slave reaches `processReply` and
passes its checksum test. -/
theorem check_validReply (pkg : Packet) (m : Machine) (hid : pkg.id ≠ 0)
    (h : validReply pkg.id (received pkg m)) :
    waiting_for_reply_check (received pkg m) = processReply (received pkg m).m
    ∧ checksumMatches (received pkg m).m.frame (received pkg m).m.buffer = true
    ∧ (received pkg m).m.packet = { pkg with data_rcv := 0, requests := pkg.requests + 1 }
    ∧ (received pkg m).m.retry_count = m.retry_count := by
  obtain ⟨h5, hov, hslave, hcrc⟩ := h
  have hp : (received pkg m).m.packet = { pkg with data_rcv := 0, requests := pkg.requests + 1 } := by
    rcases received_packet pkg m with h | h
    · exact h
    · exact absurd h hid
  obtain ⟨hbytes, hle, _⟩ : RxOK (received pkg m) := waiting_for_reply_recv_ok _
  unfold BUFFER_SIZE at hle
  refine ⟨?_, ?_, hp, received_retry_count pkg m⟩
  · unfold waiting_for_reply_check
    rw [if_neg (by rw [hov]; simp; omega), if_neg (by rw [hp, hslave]; simp)]
  · exact (checksumMatches_iff _ (by omega) (by omega) hbytes).mpr hcrc

theorem not_exception_of_small {x : Nat} (h : x ≤ 16) : ¬ (x &&& 0x80 = 0x80) := by
  have : x < 17 := by omega
  revert x
  decide
/-- C7 (amended): a checksum-valid reply of the expected slave whose function
byte is 1, 2, 3 or 4 and whose byte count differs from the expected one
(`2q` for functions 3/4 with a 16-bit `q`; `byteCount` for functions 1/2 when
it fits the one-byte field) ends the run on the failure path: the record is the
one the failure handler produces, `failed_requests` one higher,
`successful_requests` and the register array unchanged, `retries` one higher
or reset to 0 at the retry ceiling. -/
theorem Modbus_Get_byte_count_mismatch (pkg : Packet) (m : Machine)
    (hid : pkg.id ≠ 0) (hq16 : pkg.data < 65536)
    (hrep : validReply pkg.id (received pkg m))
    (hmis : (((received pkg m).m.frame 1 = 1 ∨ (received pkg m).m.frame 1 = 2)
          ∧ byteCount_spec pkg.data ≤ 255
          ∧ (received pkg m).m.frame 2 ≠ byteCount_spec pkg.data)
        ∨ (((received pkg m).m.frame 1 = 3 ∨ (received pkg m).m.frame 1 = 4)
          ∧ (received pkg m).m.frame 2 ≠ pkg.data * 2)) :
    (Modbus_Get pkg m).packet = failure_spec m.retry_count pkg
    ∧ (Modbus_Get pkg m).packet.failed_requests = pkg.failed_requests + 1
    ∧ (Modbus_Get pkg m).packet.successful_requests = pkg.successful_requests
    ∧ (Modbus_Get pkg m).packet.register_array = pkg.register_array
    ∧ (Modbus_Get pkg m).packet.retries
        = (if pkg.retries + 1 = m.retry_count then 0 else pkg.retries + 1) := by
  obtain ⟨hchk, hc, hp, hrc⟩ := check_validReply pkg m hid hrep
  have key : (Modbus_Get pkg m).packet = failure_spec m.retry_count pkg := by
    rw [Modbus_Get_of_ne pkg m hid]
    show (waiting_for_reply_check (received pkg m)).packet = _
    rw [hchk]
    generalize received pkg m = r at hc hp hrc hmis
    have hd : r.m.packet.data = pkg.data := by rw [hp]
    rcases hmis with ⟨hfn, hfit, hne⟩ | ⟨hfn, hne⟩
    · rw [processReply_F1_F2 _ hc hfn, process_F1_F2_mismatch]
      · exact processError_failure_spec _ pkg _ hp hrc
      · show r.m.frame 2 ≠ coil_bytes r.m.packet.data
        rw [hd, (coil_counts pkg.data hfit).2]
        exact hne
    · rw [processReply_F3_F4 _ hc hfn, process_F3_F4_mismatch]
      · exact processError_failure_spec _ pkg _ hp hrc
      · show r.m.frame 2 ≠ u32 (r.m.packet.data * 2)
        have hu : u32 (pkg.data * 2) = pkg.data * 2 := by unfold u32; omega
        rw [hd, hu]
        exact hne
  obtain ⟨f1, f2, _, f4, _, _, f7, _⟩ := failure_spec_fields m.retry_count pkg
  rw [key]
  exact ⟨rfl, f1, f2, f4, f7⟩

set_option maxRecDepth 100000 in
/-- Witness of `Modbus_Get_byte_count_mismatch`: a read of two holding registers
answered with a byte count of 2 instead of 4. -/
theorem Modbus_Get_byte_count_mismatch_witness :
    (Modbus_Get (freshPacket 1 3 0x6B 2 [7, 8])
        (configured 3 (freshPacket 1 3 0x6B 2 [7, 8])
          (delivers (withChecksum [1, 3, 2, 0x12, 0x34])))).packet
      = failure_spec 3 (freshPacket 1 3 0x6B 2 [7, 8])
    ∧ (Modbus_Get (freshPacket 1 3 0x6B 2 [7, 8])
        (configured 3 (freshPacket 1 3 0x6B 2 [7, 8])
          (delivers (withChecksum [1, 3, 2, 0x12, 0x34])))).packet.register_array = [7, 8] :=
  ⟨(Modbus_Get_byte_count_mismatch (freshPacket 1 3 0x6B 2 [7, 8])
      (configured 3 (freshPacket 1 3 0x6B 2 [7, 8])
        (delivers (withChecksum [1, 3, 2, 0x12, 0x34])))
      (by decide) (by decide) (by decide) (by decide)).1,
   (Modbus_Get_byte_count_mismatch (freshPacket 1 3 0x6B 2 [7, 8])
      (configured 3 (freshPacket 1 3 0x6B 2 [7, 8])
        (delivers (withChecksum [1, 3, 2, 0x12, 0x34])))
      (by decide) (by decide) (by decide) (by decide)).2.2.2.1⟩

set_option maxRecDepth 100000 in
/-- C7 (as stated) fails twice.  First: for 2048 coils the expected byte count
is 256, the code computes it in 8 bits as 0, and the checksum-valid reply
`01 01 00` with byte count 0 is accepted: success path, 128 registers
overwritten.  Second: at the retry ceiling a byte-count mismatch leaves
`retries` at 0, not incremented. -/
theorem Modbus_Get_byte_count_mismatch_refuted :
    (validReply 1 (received (freshPacket 1 1 0 2048 (List.replicate 128 0))
        (configured 3 (freshPacket 1 1 0 2048 (List.replicate 128 0))
          (delivers (withChecksum [1, 1, 0]))))
      ∧ (received (freshPacket 1 1 0 2048 (List.replicate 128 0))
        (configured 3 (freshPacket 1 1 0 2048 (List.replicate 128 0))
          (delivers (withChecksum [1, 1, 0])))).m.frame 1 = 1
      ∧ (received (freshPacket 1 1 0 2048 (List.replicate 128 0))
        (configured 3 (freshPacket 1 1 0 2048 (List.replicate 128 0))
          (delivers (withChecksum [1, 1, 0])))).m.frame 2 ≠ byteCount_spec 2048
      ∧ (Modbus_Get (freshPacket 1 1 0 2048 (List.replicate 128 0))
        (configured 3 (freshPacket 1 1 0 2048 (List.replicate 128 0))
          (delivers (withChecksum [1, 1, 0])))).packet.successful_requests = 1
      ∧ (Modbus_Get (freshPacket 1 1 0 2048 (List.replicate 128 0))
        (configured 3 (freshPacket 1 1 0 2048 (List.replicate 128 0))
          (delivers (withChecksum [1, 1, 0])))).packet.failed_requests = 0
      ∧ (Modbus_Get (freshPacket 1 1 0 2048 (List.replicate 128 0))
        (configured 3 (freshPacket 1 1 0 2048 (List.replicate 128 0))
          (delivers (withChecksum [1, 1, 0])))).packet.register_array
          = List.replicate 128 0x21)
    ∧ (validReply 1 (received (freshPacket 1 3 0x6B 2 [7, 8])
        (configured 1 (freshPacket 1 3 0x6B 2 [7, 8])
          (delivers (withChecksum [1, 3, 2, 0x12, 0x34]))))
      ∧ (Modbus_Get (freshPacket 1 3 0x6B 2 [7, 8])
        (configured 1 (freshPacket 1 3 0x6B 2 [7, 8])
          (delivers (withChecksum [1, 3, 2, 0x12, 0x34])))).packet.failed_requests = 1
      ∧ (Modbus_Get (freshPacket 1 3 0x6B 2 [7, 8])
        (configured 1 (freshPacket 1 3 0x6B 2 [7, 8])
          (delivers (withChecksum [1, 3, 2, 0x12, 0x34])))).packet.retries
          = (freshPacket 1 3 0x6B 2 [7, 8]).retries) := by
  decide

theorem process_F15_F16_mismatch (x : Machine) (h : ¬ echoMatches x.frame x.packet) :
    process_F15_F16 x = processError x := by
  unfold process_F15_F16
  simp only
  unfold echoMatches at h
  rw [if_neg h]

/-- C9: a broadcast run (slave id 0, any function code, any serial input) makes
the passes `IDLE`, `WAITING_FOR_TURNAROUND`, `DONE`: the state after the first
pass is not `WAITING_FOR_REPLY`, the serial script is left untouched, and the
record ends as the success handler leaves it, with `requests` and
`successful_requests` one higher, `failed_requests`, `exception_errors` and
`connection` as before and `retries = 0`. -/
theorem Modbus_Get_broadcast (pkg : Packet) (m : Machine) (h : pkg.id = 0) :
    (Modbus_Get_step pkg { m with state := IDLE }).state = WAITING_FOR_TURNAROUND
    ∧ (Modbus_Get pkg m).state = INVALID
    ∧ (Modbus_Get pkg m).port = m.port
    ∧ (Modbus_Get pkg m).packet = success_spec 0 pkg
    ∧ (Modbus_Get pkg m).packet.requests = pkg.requests + 1
    ∧ (Modbus_Get pkg m).packet.successful_requests = pkg.successful_requests + 1
    ∧ (Modbus_Get pkg m).packet.failed_requests = pkg.failed_requests
    ∧ (Modbus_Get pkg m).packet.exception_errors = pkg.exception_errors
    ∧ (Modbus_Get pkg m).packet.connection = pkg.connection
    ∧ (Modbus_Get pkg m).packet.retries = 0 := by
  have hc := constructPacket_of_zero { m with state := IDLE, packet := pkg } h
  have hp : (Modbus_Get pkg m).packet = success_spec 0 pkg := by
    rw [Modbus_Get_of_zero pkg m h]
    show (constructPacket { m with state := IDLE, packet := pkg }).packet = _
    rw [hc, processSuccess_packet, sealed_packet]
    rfl
  have hport : (Modbus_Get pkg m).port = m.port := by
    rw [Modbus_Get_of_zero pkg m h]
    show (constructPacket { m with state := IDLE, packet := pkg }).port = _
    rw [hc, processSuccess_port, seal_port, payload_port, header_port]
  have hs : (Modbus_Get_step pkg { m with state := IDLE }).state = WAITING_FOR_TURNAROUND := by
    unfold Modbus_Get_step
    rw [if_pos (by show IDLE = IDLE; rfl)]
    show (constructPacket { m with state := IDLE, packet := pkg }).state = _
    rw [hc]; rfl
  refine ⟨hs, Modbus_Get_state pkg m, hport, hp, ?_, ?_, ?_, ?_, ?_, ?_⟩ <;> rw [hp] <;> rfl

set_option maxRecDepth 100000 in
/-- Witness of `Modbus_Get_broadcast`: a broadcast write of two registers while
the port offers bytes; none is consumed. -/
theorem Modbus_Get_broadcast_witness :
    (Modbus_Get (freshPacket 0 16 0x0100 2 [0x1234, 0x5678])
        (configured 3 (freshPacket 0 16 0x0100 2 [0x1234, 0x5678])
          [some 1, some 16, some 1, some 0, none, some 0, some 2])).port
      = [some 1, some 16, some 1, some 0, none, some 0, some 2]
    ∧ (Modbus_Get (freshPacket 0 16 0x0100 2 [0x1234, 0x5678])
        (configured 3 (freshPacket 0 16 0x0100 2 [0x1234, 0x5678])
          [some 1, some 16, some 1, some 0, none, some 0, some 2])).packet.successful_requests = 1
    ∧ (Modbus_Get (freshPacket 0 16 0x0100 2 [0x1234, 0x5678])
        (configured 3 (freshPacket 0 16 0x0100 2 [0x1234, 0x5678])
          [some 1, some 16, some 1, some 0, none, some 0, some 2])).packet.failed_requests = 0 :=
  ⟨(Modbus_Get_broadcast (freshPacket 0 16 0x0100 2 [0x1234, 0x5678])
      (configured 3 (freshPacket 0 16 0x0100 2 [0x1234, 0x5678])
        [some 1, some 16, some 1, some 0, none, some 0, some 2]) (by decide)).2.2.1,
   by decide, by decide⟩

/-! ## The exception counter -/

/-- The reply loop of functions 1 and 2 changes only the register array. -/
theorem process_F1_F2_loop_packet (nb n i bp index : Nat) (m : Machine) :
    (process_F1_F2_loop nb n i bp index m).packet
      = { m.packet with
            register_array := (process_F1_F2_loop nb n i bp index m).packet.register_array } := by
  induction n generalizing i bp index m with
  | zero => rfl
  | succ n ih =>
    rw [process_F1_F2_loop]
    simp only
    split
    · rw [ih]; simp
    · rw [ih]; simp

theorem processError_exception_errors (x : Machine) :
    (processError x).packet.exception_errors = x.packet.exception_errors := by
  rw [processError_packet]
  split <;> rfl

theorem process_F1_F2_exception_errors (x : Machine) :
    (process_F1_F2 x).packet.exception_errors = x.packet.exception_errors := by
  unfold process_F1_F2
  simp only
  split
  · rw [processSuccess_packet]
    show (process_F1_F2_loop _ _ 0 0 3 x).packet.exception_errors = _
    rw [process_F1_F2_loop_packet]
  · exact processError_exception_errors x

theorem process_F3_F4_exception_errors (x : Machine) :
    (process_F3_F4 x).packet.exception_errors = x.packet.exception_errors := by
  unfold process_F3_F4
  simp only
  split
  · rw [processSuccess_packet]
    show (process_F3_F4_loop _ 0 3 x).packet.exception_errors = _
    rw [process_F3_F4_loop_packet]
  · exact processError_exception_errors x

theorem process_F15_F16_exception_errors (x : Machine) :
    (process_F15_F16 x).packet.exception_errors = x.packet.exception_errors := by
  unfold process_F15_F16
  simp only
  split
  · rfl
  · exact processError_exception_errors x

/-- The only path of `processReply` that counts an exception is the one of a
frame that passes the checksum test and has bit 7 of the function byte set. -/
theorem processReply_exception_errors (x : Machine)
    (h : ¬ (checksumMatches x.frame x.buffer = true ∧ x.frame 1 &&& 0x80 = 0x80)) :
    (processReply x).packet.exception_errors = x.packet.exception_errors := by
  unfold processReply
  simp only [touch_frame, touch_packet]
  split
  next hc =>
    split
    next hx => exact absurd ⟨hc, hx⟩ h
    next hx =>
      split
      · exact process_F1_F2_exception_errors _
      · split
        · exact process_F3_F4_exception_errors _
        · split
          · exact process_F15_F16_exception_errors _
          · exact processError_exception_errors _
  · exact processError_exception_errors _

theorem check_exception_errors (r : Rx) (hok : RxOK r)
    (h : ¬ (5 ≤ r.m.buffer ∧ r.overflowFlag = false ∧ r.m.frame 0 = r.m.packet.id
        ∧ validChecksum (frameBytes r.m.frame r.m.buffer) = true
        ∧ r.m.frame 1 &&& 0x80 = 0x80)) :
    (waiting_for_reply_check r).packet.exception_errors = r.m.packet.exception_errors := by
  obtain ⟨hbytes, hle, _⟩ := hok
  unfold BUFFER_SIZE at hle
  unfold waiting_for_reply_check
  split
  · exact processError_exception_errors _
  next h1 =>
    split
    · exact processError_exception_errors _
    next h2 =>
      apply processReply_exception_errors
      intro ⟨hc, hx⟩
      apply h
      have h5 : 5 ≤ r.m.buffer := by omega
      have hov : r.overflowFlag = false := by
        cases hr : r.overflowFlag
        · rfl
        · exact absurd (Or.inr hr) h1
      refine ⟨h5, hov, by simpa using h2, ?_, hx⟩
      exact (checksumMatches_iff _ (by omega) (by omega) hbytes).mp hc

/-- C10: a run to a non-broadcast slave whose buffered reply is a checksum-valid
exception reply (at least 5 bytes, no overflow, first byte the slave id,
correct checksum, bit 7 of the function byte set) raises `exception_errors`
and `failed_requests` by exactly 1 and leaves `successful_requests` and the
register array unchanged; every other run leaves `exception_errors`
unchanged. -/
theorem Modbus_Get_exception_errors (pkg : Packet) (m : Machine) :
    (pkg.id ≠ 0 → exceptionReply pkg.id (received pkg m) →
        (Modbus_Get pkg m).packet.exception_errors = pkg.exception_errors + 1
        ∧ (Modbus_Get pkg m).packet.failed_requests = pkg.failed_requests + 1
        ∧ (Modbus_Get pkg m).packet.successful_requests = pkg.successful_requests
        ∧ (Modbus_Get pkg m).packet.register_array = pkg.register_array)
    ∧ (¬ (pkg.id ≠ 0 ∧ exceptionReply pkg.id (received pkg m)) →
        (Modbus_Get pkg m).packet.exception_errors = pkg.exception_errors) := by
  constructor
  · intro hid ⟨hrep, hx⟩
    obtain ⟨hchk, hc, hp, hrc⟩ := check_validReply pkg m hid hrep
    have hrun : (Modbus_Get pkg m).packet = (processReply (received pkg m).m).packet := by
      rw [Modbus_Get_of_ne pkg m hid]
      show (waiting_for_reply_check (received pkg m)).packet = _
      rw [hchk]
    rw [hrun]
    generalize received pkg m = r at hc hp hrc hx
    have hpk : (processReply r.m).packet
        = failure_spec m.retry_count { pkg with exception_errors := pkg.exception_errors + 1 } := by
      rw [processReply_exception _ hc hx]
      exact processError_failure_spec _
        { pkg with exception_errors := pkg.exception_errors + 1 } _
        (by
          show ({ r.m.packet with exception_errors := r.m.packet.exception_errors + 1 } : Packet) = _
          rw [hp])
        hrc
    rw [hpk]
    obtain ⟨f1, f2, f3, f4, _⟩ := failure_spec_fields m.retry_count
      { pkg with exception_errors := pkg.exception_errors + 1 }
    exact ⟨f3, f1, f2, f4⟩
  · intro h
    by_cases hid : pkg.id = 0
    · rw [Modbus_Get_of_zero pkg m hid]
      show (constructPacket { m with state := IDLE, packet := pkg }).packet.exception_errors = _
      rw [constructPacket_of_zero _ hid, processSuccess_packet, sealed_packet]
    · rw [Modbus_Get_of_ne pkg m hid]
      show (waiting_for_reply_check (received pkg m)).packet.exception_errors = _
      have hp : (received pkg m).m.packet
          = { pkg with data_rcv := 0, requests := pkg.requests + 1 } := by
        rcases received_packet pkg m with h | h
        · exact h
        · exact absurd h hid
      have hok : RxOK (received pkg m) := waiting_for_reply_recv_ok _
      have hne : ¬ (5 ≤ (received pkg m).m.buffer ∧ (received pkg m).overflowFlag = false
          ∧ (received pkg m).m.frame 0 = (received pkg m).m.packet.id
          ∧ validChecksum (frameBytes (received pkg m).m.frame (received pkg m).m.buffer) = true
          ∧ (received pkg m).m.frame 1 &&& 0x80 = 0x80) := by
        intro ⟨h5, hov, hsl, hcrc, hx⟩
        apply h
        refine ⟨hid, ⟨h5, hov, ?_, hcrc⟩, hx⟩
        rw [hsl, hp]
      rw [check_exception_errors _ hok hne, hp]

set_option maxRecDepth 100000 in
/-- Witness of `Modbus_Get_exception_errors`: slave 1 answers a read of holding
registers with the exception frame `01 83 02`. -/
theorem Modbus_Get_exception_errors_witness :
    (Modbus_Get (freshPacket 1 3 0x6B 2 [7, 8])
        (configured 3 (freshPacket 1 3 0x6B 2 [7, 8])
          (delivers (withChecksum [1, 0x83, 2])))).packet.exception_errors = 0 + 1
    ∧ (Modbus_Get (freshPacket 1 3 0x6B 2 [7, 8])
        (configured 3 (freshPacket 1 3 0x6B 2 [7, 8])
          (delivers (withChecksum [1, 0x83, 2])))).packet.failed_requests = 0 + 1
    ∧ (Modbus_Get (freshPacket 1 3 0x6B 2 [7, 8])
        (configured 3 (freshPacket 1 3 0x6B 2 [7, 8])
          (delivers (withChecksum [1, 3, 2, 0x12, 0x34])))).packet.exception_errors = 0 :=
  ⟨((Modbus_Get_exception_errors (freshPacket 1 3 0x6B 2 [7, 8])
      (configured 3 (freshPacket 1 3 0x6B 2 [7, 8])
        (delivers (withChecksum [1, 0x83, 2])))).1 (by decide) (by decide)).1,
   ((Modbus_Get_exception_errors (freshPacket 1 3 0x6B 2 [7, 8])
      (configured 3 (freshPacket 1 3 0x6B 2 [7, 8])
        (delivers (withChecksum [1, 0x83, 2])))).1 (by decide) (by decide)).2.1,
   (Modbus_Get_exception_errors (freshPacket 1 3 0x6B 2 [7, 8])
      (configured 3 (freshPacket 1 3 0x6B 2 [7, 8])
        (delivers (withChecksum [1, 3, 2, 0x12, 0x34])))).2 (by decide)⟩

/-! ## The shape of the record after a run -/

theorem processError_outcome (x : Machine) (pkg : Packet) (rc : Nat)
    (hp : x.packet = { pkg with data_rcv := 0, requests := pkg.requests + 1 })
    (hrc : x.retry_count = rc) : runOutcome rc pkg (processError x).packet :=
  Or.inl (processError_failure_spec x pkg rc hp hrc)

theorem processSuccess_outcome (L x : Machine) (pkg : Packet) (rc : Nat)
    (hL : L.packet = { x.packet with register_array := L.packet.register_array })
    (hp : x.packet = { pkg with data_rcv := 0, requests := pkg.requests + 1 }) :
    runOutcome rc pkg
      (processSuccess { L with packet := { L.packet with data_rcv := L.packet.data } }).packet := by
  refine Or.inr (Or.inr ⟨L.packet.register_array, pkg.data, Or.inr rfl, ?_⟩)
  rw [processSuccess_packet]
  show ({ ({ L.packet with data_rcv := L.packet.data } : Packet) with
    successful_requests := L.packet.successful_requests + 1, retries := 0 } : Packet) = _
  rw [hL, hp]
  rfl

theorem process_F1_F2_outcome (x : Machine) (pkg : Packet) (rc : Nat)
    (hp : x.packet = { pkg with data_rcv := 0, requests := pkg.requests + 1 })
    (hrc : x.retry_count = rc) : runOutcome rc pkg (process_F1_F2 x).packet := by
  unfold process_F1_F2
  simp only
  split
  · exact processSuccess_outcome _ x pkg rc (process_F1_F2_loop_packet _ _ _ _ _ _) hp
  · exact processError_outcome x pkg rc hp hrc

theorem process_F3_F4_outcome (x : Machine) (pkg : Packet) (rc : Nat)
    (hp : x.packet = { pkg with data_rcv := 0, requests := pkg.requests + 1 })
    (hrc : x.retry_count = rc) : runOutcome rc pkg (process_F3_F4 x).packet := by
  unfold process_F3_F4
  simp only
  split
  · exact processSuccess_outcome _ x pkg rc (process_F3_F4_loop_packet _ _ _ _) hp
  · exact processError_outcome x pkg rc hp hrc

theorem process_F15_F16_outcome (x : Machine) (pkg : Packet) (rc : Nat)
    (hp : x.packet = { pkg with data_rcv := 0, requests := pkg.requests + 1 })
    (hrc : x.retry_count = rc) : runOutcome rc pkg (process_F15_F16 x).packet := by
  unfold process_F15_F16
  simp only
  split
  · exact processSuccess_outcome x x pkg rc rfl hp
  · exact processError_outcome x pkg rc hp hrc

theorem processReply_outcome (x : Machine) (pkg : Packet) (rc : Nat)
    (hp : x.packet = { pkg with data_rcv := 0, requests := pkg.requests + 1 })
    (hrc : x.retry_count = rc) : runOutcome rc pkg (processReply x).packet := by
  unfold processReply
  simp only [touch_frame, touch_packet]
  split
  · split
    · refine Or.inr (Or.inl ?_)
      exact processError_failure_spec _
        { pkg with exception_errors := pkg.exception_errors + 1 } rc
        (by
          show ({ x.packet with exception_errors := x.packet.exception_errors + 1 } : Packet) = _
          rw [hp])
        hrc
    · split
      · exact process_F1_F2_outcome _ pkg rc hp hrc
      · split
        · exact process_F3_F4_outcome _ pkg rc hp hrc
        · split
          · exact process_F15_F16_outcome _ pkg rc hp hrc
          · exact processError_outcome _ pkg rc hp hrc
  · exact processError_outcome _ pkg rc hp hrc

theorem check_outcome (r : Rx) (pkg : Packet) (rc : Nat)
    (hp : r.m.packet = { pkg with data_rcv := 0, requests := pkg.requests + 1 })
    (hrc : r.m.retry_count = rc) : runOutcome rc pkg (waiting_for_reply_check r).packet := by
  unfold waiting_for_reply_check
  split
  · exact processError_outcome _ pkg rc hp hrc
  · split
    · exact processError_outcome _ pkg rc hp hrc
    · exact processReply_outcome _ pkg rc hp hrc

theorem received_packet_of_ne (pkg : Packet) (m : Machine) (hid : pkg.id ≠ 0) :
    (received pkg m).m.packet = { pkg with data_rcv := 0, requests := pkg.requests + 1 } := by
  rcases received_packet pkg m with h | h
  · exact h
  · exact absurd h hid

theorem Modbus_Get_packet_of_ne (pkg : Packet) (m : Machine) (hid : pkg.id ≠ 0) :
    (Modbus_Get pkg m).packet = (waiting_for_reply_check (received pkg m)).packet := by
  rw [Modbus_Get_of_ne pkg m hid]

theorem Modbus_Get_packet_of_zero (pkg : Packet) (m : Machine) (hid : pkg.id = 0) :
    (Modbus_Get pkg m).packet = success_spec 0 pkg := by
  rw [Modbus_Get_of_zero pkg m hid]
  show (constructPacket { m with state := IDLE, packet := pkg }).packet = _
  rw [constructPacket_of_zero _ hid, processSuccess_packet, sealed_packet]
  rfl

/-- Every run leaves the record in one of the three shapes of `runOutcome`. -/
theorem Modbus_Get_outcome (pkg : Packet) (m : Machine) :
    runOutcome m.retry_count pkg (Modbus_Get pkg m).packet := by
  by_cases hid : pkg.id = 0
  · rw [Modbus_Get_packet_of_zero pkg m hid]
    exact Or.inr (Or.inr ⟨pkg.register_array, 0, Or.inl rfl, rfl⟩)
  · rw [Modbus_Get_packet_of_ne pkg m hid]
    exact check_outcome _ pkg _ (received_packet_of_ne pkg m hid) (received_retry_count pkg m)

/-! ## Consecutive runs -/

theorem process_F1_F2_loop_retry_count (nb n i bp index : Nat) (m : Machine) :
    (process_F1_F2_loop nb n i bp index m).retry_count = m.retry_count := by
  induction n generalizing i bp index m with
  | zero => rfl
  | succ n ih =>
    rw [process_F1_F2_loop]
    simp only
    split
    · rw [ih]; rfl
    · rw [ih]; rfl

theorem processReply_retry_count (x : Machine) : (processReply x).retry_count = x.retry_count := by
  unfold processReply
  simp only
  split
  · split
    · rfl
    · split
      · unfold process_F1_F2
        simp only
        split
        · show (process_F1_F2_loop _ _ 0 0 3 _).retry_count = _
          rw [process_F1_F2_loop_retry_count]; rfl
        · rfl
      · split
        · unfold process_F3_F4
          simp only
          split
          · show (process_F3_F4_loop _ 0 3 _).retry_count = _
            rw [(process_F3_F4_loop_frame _ _ _ _).2]; rfl
          · rfl
        · split
          · unfold process_F15_F16
            simp only
            split <;> rfl
          · rfl
  · rfl

theorem Modbus_Get_retry_count (pkg : Packet) (m : Machine) :
    (Modbus_Get pkg m).retry_count = m.retry_count := by
  by_cases hid : pkg.id = 0
  · rw [Modbus_Get_of_zero pkg m hid]
    show (constructPacket { m with state := IDLE, packet := pkg }).retry_count = _
    rw [constructPacket_of_zero _ hid]
    show (constructPacket_seal _ _).retry_count = _
    rw [seal_retry_count, payload_retry_count, header_retry_count]
  · rw [Modbus_Get_of_ne pkg m hid]
    show (waiting_for_reply_check (received pkg m)).retry_count = _
    rw [← received_retry_count pkg m]
    unfold waiting_for_reply_check
    split
    · rfl
    · split
      · rfl
      · exact processReply_retry_count _

/-- What a run on the failure path does to the record. -/
theorem failedRun_fields (pkg : Packet) (m : Machine) (h : failedRun pkg m = true) :
    (Modbus_Get pkg m).packet.failed_requests = pkg.failed_requests + 1
    ∧ (Modbus_Get pkg m).packet.retries
        = (if pkg.retries + 1 = m.retry_count then 0 else pkg.retries + 1)
    ∧ (Modbus_Get pkg m).packet.connection
        = (if pkg.retries + 1 = m.retry_count then 0 else pkg.connection) := by
  have hf : (Modbus_Get pkg m).packet.failed_requests = pkg.failed_requests + 1 := by
    simpa [failedRun] using h
  refine ⟨hf, ?_⟩
  rcases Modbus_Get_outcome pkg m with ho | ho | ⟨regs, n, _, ho⟩
  · rw [ho]
    exact ⟨(failure_spec_fields _ _).2.2.2.2.2.2.1, (failure_spec_fields _ _).2.2.2.2.2.2.2⟩
  · rw [ho]
    exact ⟨(failure_spec_fields _ _).2.2.2.2.2.2.1, (failure_spec_fields _ _).2.2.2.2.2.2.2⟩
  · rw [ho] at hf
    have : pkg.failed_requests = pkg.failed_requests + 1 := hf
    omega

/-- What a run on the success path does to the record. -/
theorem successfulRun_fields (pkg : Packet) (m : Machine) (h : successfulRun pkg m = true) :
    (Modbus_Get pkg m).packet.successful_requests = pkg.successful_requests + 1
    ∧ (Modbus_Get pkg m).packet.requests = pkg.requests + 1
    ∧ (Modbus_Get pkg m).packet.failed_requests = pkg.failed_requests
    ∧ (Modbus_Get pkg m).packet.exception_errors = pkg.exception_errors
    ∧ (Modbus_Get pkg m).packet.connection = pkg.connection
    ∧ (Modbus_Get pkg m).packet.retries = 0 := by
  have hs : (Modbus_Get pkg m).packet.successful_requests = pkg.successful_requests + 1 := by
    simpa [successfulRun] using h
  refine ⟨hs, ?_⟩
  rcases Modbus_Get_outcome pkg m with ho | ho | ⟨regs, n, _, ho⟩
  · rw [ho, (failure_spec_fields _ _).2.1] at hs
    omega
  · rw [ho, (failure_spec_fields _ _).2.1] at hs
    have : pkg.successful_requests = pkg.successful_requests + 1 := hs
    omega
  · rw [ho]
    exact ⟨rfl, rfl, rfl, rfl, rfl⟩
theorem runs_retry_count (ports : List (List (Option Nat))) (m : Machine) :
    (runs ports m).retry_count = m.retry_count := by
  induction ports generalizing m with
  | nil => rfl
  | cons port rest ih =>
    rw [runs, ih, Modbus_Get_retry_count]

/-- Consecutive failures starting from `retries = j` below the ceiling. -/
theorem runs_allFailed (ports : List (List (Option Nat))) (m : Machine)
    (hle : m.packet.retries + ports.length ≤ m.retry_count)
    (hall : allFailed ports m = true) :
    (runs ports m).packet.failed_requests = m.packet.failed_requests + ports.length
    ∧ (m.packet.retries + ports.length < m.retry_count →
        (runs ports m).packet.retries = m.packet.retries + ports.length
        ∧ (runs ports m).packet.connection = m.packet.connection)
    ∧ (m.packet.retries + ports.length = m.retry_count → 1 ≤ ports.length →
        (runs ports m).packet.retries = 0 ∧ (runs ports m).packet.connection = 0) := by
  induction ports generalizing m with
  | nil =>
    refine ⟨rfl, fun _ => ⟨rfl, rfl⟩, fun _ h => ?_⟩
    simp at h
  | cons port rest ih =>
    rw [allFailed, Bool.and_eq_true] at hall
    obtain ⟨h1, hrest⟩ := hall
    have hrc : (Modbus_Get m.packet { m with port := port }).retry_count = m.retry_count :=
      Modbus_Get_retry_count _ _
    obtain ⟨f1, f2, f3⟩ := failedRun_fields m.packet { m with port := port } h1
    change _ = (if m.packet.retries + 1 = m.retry_count then 0 else m.packet.retries + 1) at f2
    change _ = (if m.packet.retries + 1 = m.retry_count then 0 else m.packet.connection) at f3
    simp only [List.length_cons] at hle ⊢
    rw [runs]
    by_cases hc : m.packet.retries + 1 = m.retry_count
    · have hnil : rest = [] := by
        cases rest with
        | nil => rfl
        | cons a b => simp only [List.length_cons] at hle; omega
      subst hnil
      rw [if_pos hc] at f2 f3
      refine ⟨by rw [runs, f1]; rfl, fun h => ?_, fun _ _ => ?_⟩
      · simp only [List.length_nil] at h; omega
      · rw [runs]; exact ⟨f2, f3⟩
    · rw [if_neg hc] at f2 f3
      obtain ⟨g1, g2, g3⟩ := ih (Modbus_Get m.packet { m with port := port })
        (by rw [f2, hrc]; omega) hrest
      rw [f1, f2, f3, hrc] at *
      refine ⟨by rw [g1]; omega, fun h => ?_, fun h _ => ?_⟩
      · obtain ⟨a, b⟩ := g2 (by omega)
        exact ⟨by rw [a]; omega, b⟩
      · have hr1 : 1 ≤ rest.length := by omega
        exact g3 (by omega) hr1

/-- C11: with a retry ceiling `m ≥ 1`, a record that starts with `retries = 0`
and an active connection has, after `k < m` consecutive failed runs, an active
connection and `retries = k`; after exactly `m` consecutive failed runs the
connection is inactive and `retries = 0`; `failed_requests` has grown by the
number of runs. -/
theorem runs_retry_ceiling (ports : List (List (Option Nat))) (m : Machine)
    (hm : 1 ≤ m.retry_count) (h0 : m.packet.retries = 0) (hc : m.packet.connection = 1)
    (hall : allFailed ports m = true) :
    (ports.length < m.retry_count →
        (runs ports m).packet.connection = 1
        ∧ (runs ports m).packet.retries = ports.length
        ∧ (runs ports m).packet.failed_requests = m.packet.failed_requests + ports.length)
    ∧ (ports.length = m.retry_count →
        (runs ports m).packet.connection = 0
        ∧ (runs ports m).packet.retries = 0
        ∧ (runs ports m).packet.failed_requests = m.packet.failed_requests + m.retry_count) := by
  constructor
  · intro hk
    obtain ⟨g1, g2, _⟩ := runs_allFailed ports m (by rw [h0]; omega) hall
    obtain ⟨a, b⟩ := g2 (by rw [h0]; omega)
    exact ⟨by rw [b, hc], by rw [a, h0]; omega, g1⟩
  · intro hk
    obtain ⟨g1, _, g3⟩ := runs_allFailed ports m (by rw [h0]; omega) hall
    obtain ⟨a, b⟩ := g3 (by rw [h0]; omega) (by omega)
    exact ⟨b, a, by rw [g1, hk]⟩

/-- C12: `N` consecutive runs that each end on the success path raise
`successful_requests` and `requests` by exactly `N`, leave `failed_requests`,
`exception_errors` and the connection flag unchanged, and (when at least one
run took place) end with `retries = 0`. -/
theorem runs_successes (ports : List (List (Option Nat))) (m : Machine)
    (hall : allSuccessful ports m = true) :
    (runs ports m).packet.successful_requests = m.packet.successful_requests + ports.length
    ∧ (runs ports m).packet.requests = m.packet.requests + ports.length
    ∧ (runs ports m).packet.failed_requests = m.packet.failed_requests
    ∧ (runs ports m).packet.exception_errors = m.packet.exception_errors
    ∧ (runs ports m).packet.connection = m.packet.connection
    ∧ (1 ≤ ports.length → (runs ports m).packet.retries = 0) := by
  induction ports generalizing m with
  | nil =>
    refine ⟨rfl, rfl, rfl, rfl, rfl, fun h => ?_⟩
    simp at h
  | cons port rest ih =>
    rw [allSuccessful, Bool.and_eq_true] at hall
    obtain ⟨h1, hrest⟩ := hall
    obtain ⟨s1, s2, s3, s4, s5, s6⟩ := successfulRun_fields m.packet { m with port := port } h1
    obtain ⟨g1, g2, g3, g4, g5, g6⟩ := ih (Modbus_Get m.packet { m with port := port }) hrest
    rw [runs]
    simp only [List.length_cons]
    refine ⟨by rw [g1, s1]; omega, by rw [g2, s2]; omega, by rw [g3, s3], by rw [g4, s4],
      by rw [g5, s5], fun _ => ?_⟩
    cases rest with
    | nil => rw [runs]; exact s6
    | cons a b => exact g6 (by simp)

set_option maxRecDepth 100000 in
/-- Witness of `runs_retry_ceiling`: ceiling 2, two runs that time out without a
byte. -/
theorem runs_retry_ceiling_witness :
    (runs [[], []] (configured 2 (freshPacket 1 3 0x6B 2 [0, 0]) [])).packet.connection = 0
    ∧ (runs [[], []] (configured 2 (freshPacket 1 3 0x6B 2 [0, 0]) [])).packet.retries = 0
    ∧ (runs [[], []] (configured 2 (freshPacket 1 3 0x6B 2 [0, 0]) [])).packet.failed_requests
        = 0 + 2
    ∧ (runs [[]] (configured 2 (freshPacket 1 3 0x6B 2 [0, 0]) [])).packet.connection = 1
    ∧ (runs [[]] (configured 2 (freshPacket 1 3 0x6B 2 [0, 0]) [])).packet.retries = 1 :=
  ⟨((runs_retry_ceiling [[], []] (configured 2 (freshPacket 1 3 0x6B 2 [0, 0]) [])
      (by decide) (by decide) (by decide) (by decide)).2 (by decide)).1,
   ((runs_retry_ceiling [[], []] (configured 2 (freshPacket 1 3 0x6B 2 [0, 0]) [])
      (by decide) (by decide) (by decide) (by decide)).2 (by decide)).2.1,
   ((runs_retry_ceiling [[], []] (configured 2 (freshPacket 1 3 0x6B 2 [0, 0]) [])
      (by decide) (by decide) (by decide) (by decide)).2 (by decide)).2.2,
   ((runs_retry_ceiling [[]] (configured 2 (freshPacket 1 3 0x6B 2 [0, 0]) [])
      (by decide) (by decide) (by decide) (by decide)).1 (by decide)).1,
   ((runs_retry_ceiling [[]] (configured 2 (freshPacket 1 3 0x6B 2 [0, 0]) [])
      (by decide) (by decide) (by decide) (by decide)).1 (by decide)).2.1⟩

set_option maxRecDepth 100000 in
/-- Witness of `runs_successes`: two reads of two holding registers, each
answered correctly. -/
theorem runs_successes_witness :
    (runs [delivers (reply_F3_F4 1 3 [0x1234, 0x5678]), delivers (reply_F3_F4 1 3 [1, 2])]
        (configured 3 (freshPacket 1 3 0x6B 2 [0, 0]) [])).packet.successful_requests = 0 + 2
    ∧ (runs [delivers (reply_F3_F4 1 3 [0x1234, 0x5678]), delivers (reply_F3_F4 1 3 [1, 2])]
        (configured 3 (freshPacket 1 3 0x6B 2 [0, 0]) [])).packet.failed_requests = 0
    ∧ (runs [delivers (reply_F3_F4 1 3 [0x1234, 0x5678]), delivers (reply_F3_F4 1 3 [1, 2])]
        (configured 3 (freshPacket 1 3 0x6B 2 [0, 0]) [])).packet.register_array = [1, 2] :=
  ⟨(runs_successes
      [delivers (reply_F3_F4 1 3 [0x1234, 0x5678]), delivers (reply_F3_F4 1 3 [1, 2])]
      (configured 3 (freshPacket 1 3 0x6B 2 [0, 0]) []) (by decide)).1,
   (runs_successes
      [delivers (reply_F3_F4 1 3 [0x1234, 0x5678]), delivers (reply_F3_F4 1 3 [1, 2])]
      (configured 3 (freshPacket 1 3 0x6B 2 [0, 0]) []) (by decide)).2.2.1,
   by decide⟩

/-! ## Construction of a record -/

/-- C13 (amended): `modbus_construct` stores the given id, function, address,
quantity and register buffer and marks the connection active; it assigns no
counter, so `requests`, `successful_requests`, `failed_requests`,
`exception_errors`, `retries` (and `data_rcv`) keep the values they had, and
are zero exactly when the record was zero before. -/
theorem modbus_construct_fields (p : Packet) (id function address data : Nat)
    (register_array : List Nat)
    (hid : id < 256) (hfn : function < 256)
    (ha : address < 4294967296) (hq : data < 4294967296) :
    (modbus_construct p id function address data register_array).id = id
    ∧ (modbus_construct p id function address data register_array).function = function
    ∧ (modbus_construct p id function address data register_array).address = address
    ∧ (modbus_construct p id function address data register_array).data = data
    ∧ (modbus_construct p id function address data register_array).register_array
        = register_array
    ∧ (modbus_construct p id function address data register_array).connection = 1
    ∧ (modbus_construct p id function address data register_array).requests = p.requests
    ∧ (modbus_construct p id function address data register_array).successful_requests
        = p.successful_requests
    ∧ (modbus_construct p id function address data register_array).failed_requests
        = p.failed_requests
    ∧ (modbus_construct p id function address data register_array).exception_errors
        = p.exception_errors
    ∧ (modbus_construct p id function address data register_array).retries = p.retries
    ∧ (modbus_construct p id function address data register_array).data_rcv = p.data_rcv := by
  refine ⟨?_, ?_, ?_, ?_, rfl, rfl, rfl, rfl, rfl, rfl, rfl, rfl⟩
  · exact Nat.mod_eq_of_lt hid
  · exact Nat.mod_eq_of_lt hfn
  · exact Nat.mod_eq_of_lt ha
  · exact Nat.mod_eq_of_lt hq

/-- Witness of `modbus_construct_fields`: a record that has been in use is
constructed again. -/
theorem modbus_construct_fields_witness :
    (modbus_construct (failure_spec 3 (freshPacket 9 4 0 1 [])) 1 3 0x6B 2 [0, 0]).connection = 1
    ∧ (modbus_construct (failure_spec 3 (freshPacket 9 4 0 1 [])) 1 3 0x6B 2 [0, 0]).requests
        = (failure_spec 3 (freshPacket 9 4 0 1 [])).requests :=
  ⟨(modbus_construct_fields (failure_spec 3 (freshPacket 9 4 0 1 [])) 1 3 0x6B 2 [0, 0]
      (by decide) (by decide) (by decide) (by decide)).2.2.2.2.2.1,
   (modbus_construct_fields (failure_spec 3 (freshPacket 9 4 0 1 [])) 1 3 0x6B 2 [0, 0]
      (by decide) (by decide) (by decide) (by decide)).2.2.2.2.2.2.1⟩

set_option maxRecDepth 100000 in
/-- C13 (as stated) fails: a record that went through one failed run (one
request, one failed request, one retry) keeps these counts when it is
constructed again. -/
theorem modbus_construct_counters_refuted :
    (modbus_construct
        (Modbus_Get (freshPacket 1 3 0x6B 2 [0, 0])
          (configured 3 (freshPacket 1 3 0x6B 2 [0, 0]) [])).packet
        1 3 0x6B 2 [0, 0]).requests = 1
    ∧ (modbus_construct
        (Modbus_Get (freshPacket 1 3 0x6B 2 [0, 0])
          (configured 3 (freshPacket 1 3 0x6B 2 [0, 0]) [])).packet
        1 3 0x6B 2 [0, 0]).failed_requests = 1
    ∧ (modbus_construct
        (Modbus_Get (freshPacket 1 3 0x6B 2 [0, 0])
          (configured 3 (freshPacket 1 3 0x6B 2 [0, 0]) [])).packet
        1 3 0x6B 2 [0, 0]).retries = 1 := by
  decide

/-! ## The failure kinds -/

theorem processReply_unsupported (x : Machine) (hc : checksumMatches x.frame x.buffer = true)
    (hu : unsupportedFunction x.frame) :
    processReply x = processError ((x.touch (x.buffer - 2)).touch (x.buffer - 1)) := by
  obtain ⟨h80, h1, h2, h3, h4, h15, h16⟩ := hu
  unfold processReply
  simp only [hc, if_true, touch_frame]
  rw [if_neg h80,
    if_neg (by unfold READ_COIL_STATUS READ_INPUT_STATUS; rintro (h | h) <;> contradiction),
    if_neg (by
      unfold READ_INPUT_REGISTERS READ_HOLDING_REGISTERS; rintro (h | h) <;> contradiction),
    if_neg (by
      unfold FORCE_MULTIPLE_COILS PRESET_MULTIPLE_REGISTERS; rintro (h | h) <;> contradiction)]

/-- C14: every failure kind has the same effect.  A run to a non-broadcast
slave that ends because fewer than 5 bytes were received, because the receive
buffer overflowed, because byte 0 is not the slave id, because the checksum does
not match, or, for a checksum-valid reply, because of an unsupported function
byte, a byte-count mismatch or an echo mismatch, leaves the record that the
failure handler produces from the record before the run: `retries` and
`failed_requests` incremented, then the retry-ceiling check;
`successful_requests`, `exception_errors` and the register array unchanged;
`data_rcv = 0`. -/
theorem Modbus_Get_failure_kinds (pkg : Packet) (m : Machine) (hid : pkg.id ≠ 0)
    (hkind : failureKind pkg (received pkg m)) :
    (Modbus_Get pkg m).packet = failure_spec m.retry_count pkg
    ∧ (Modbus_Get pkg m).packet.failed_requests = pkg.failed_requests + 1
    ∧ (Modbus_Get pkg m).packet.retries
        = (if pkg.retries + 1 = m.retry_count then 0 else pkg.retries + 1)
    ∧ (Modbus_Get pkg m).packet.connection
        = (if pkg.retries + 1 = m.retry_count then 0 else pkg.connection)
    ∧ (Modbus_Get pkg m).packet.successful_requests = pkg.successful_requests
    ∧ (Modbus_Get pkg m).packet.exception_errors = pkg.exception_errors
    ∧ (Modbus_Get pkg m).packet.register_array = pkg.register_array
    ∧ (Modbus_Get pkg m).packet.data_rcv = 0 := by
  have hp := received_packet_of_ne pkg m hid
  have hrc := received_retry_count pkg m
  have hok : RxOK (received pkg m) := waiting_for_reply_recv_ok _
  have key : (Modbus_Get pkg m).packet = failure_spec m.retry_count pkg := by
    rw [Modbus_Get_packet_of_ne pkg m hid]
    generalize received pkg m = r at hp hrc hok hkind
    obtain ⟨hbytes, hle, _⟩ := hok
    unfold BUFFER_SIZE at hle
    have early : r.m.buffer < 5 ∨ r.overflowFlag = true →
        (waiting_for_reply_check r).packet = failure_spec m.retry_count pkg := by
      intro h
      unfold waiting_for_reply_check
      rw [if_pos h]
      exact processError_failure_spec _ pkg _ hp hrc
    have slave : r.m.frame 0 ≠ pkg.id →
        (waiting_for_reply_check r).packet = failure_spec m.retry_count pkg := by
      intro h
      by_cases h1 : r.m.buffer < 5 ∨ r.overflowFlag = true
      · exact early h1
      · unfold waiting_for_reply_check
        rw [if_neg h1, if_pos (by rw [hp]; exact h)]
        exact processError_failure_spec _ pkg _ hp hrc
    have reply : ¬ (r.m.buffer < 5 ∨ r.overflowFlag = true) → r.m.frame 0 = pkg.id →
        waiting_for_reply_check r = processReply r.m := by
      intro h1 h2
      unfold waiting_for_reply_check
      rw [if_neg h1, if_neg (by rw [hp]; simpa using h2)]
    rcases hkind with h | h | h | h | ⟨⟨h5, hov, hsl, hcrc⟩, h⟩
    · exact early (Or.inl h)
    · exact early (Or.inr h)
    · exact slave h
    · by_cases h1 : r.m.buffer < 5 ∨ r.overflowFlag = true
      · exact early h1
      · by_cases h2 : r.m.frame 0 = pkg.id
        · rw [reply h1 h2]
          have hcm : checksumMatches r.m.frame r.m.buffer = false := by
            cases hv : checksumMatches r.m.frame r.m.buffer
            · rfl
            · have := (checksumMatches_iff _ (by omega) (by omega) hbytes).mp hv
              rw [h] at this
              exact absurd this (by simp)
          rw [processReply_invalid _ hcm]
          exact processError_failure_spec _ pkg _ hp hrc
        · exact slave h2
    · have h1 : ¬ (r.m.buffer < 5 ∨ r.overflowFlag = true) := by
        rw [hov]; simp; omega
      have hc : checksumMatches r.m.frame r.m.buffer = true :=
        (checksumMatches_iff _ (by omega) (by omega) hbytes).mpr hcrc
      have hd : r.m.packet.data = pkg.data := by rw [hp]
      rw [reply h1 hsl]
      rcases h with hu | (⟨hfn, hne⟩ | ⟨hfn, hne⟩) | ⟨hfn, hne⟩
      · rw [processReply_unsupported _ hc hu]
        exact processError_failure_spec _ pkg _ hp hrc
      · rw [processReply_F1_F2 _ hc hfn, process_F1_F2_mismatch]
        · exact processError_failure_spec _ pkg _ hp hrc
        · show r.m.frame 2 ≠ coil_bytes r.m.packet.data
          rw [hd]; exact hne
      · rw [processReply_F3_F4 _ hc hfn, process_F3_F4_mismatch]
        · exact processError_failure_spec _ pkg _ hp hrc
        · show r.m.frame 2 ≠ u32 (r.m.packet.data * 2)
          rw [hd]; exact hne
      · rw [processReply_F15_F16 _ hc hfn, process_F15_F16_mismatch]
        · exact processError_failure_spec _ pkg _ hp hrc
        · show ¬ echoMatches r.m.frame r.m.packet
          unfold echoMatches at hne ⊢
          rw [hp]
          exact hne
  obtain ⟨f1, f2, f3, f4, f5, _, f7, f8⟩ := failure_spec_fields m.retry_count pkg
  rw [key]
  exact ⟨rfl, f1, f7, f8, f2, f3, f4, f5⟩

set_option maxRecDepth 100000 in
/-- Witness of `Modbus_Get_failure_kinds`: a timeout without a byte, and a reply
whose checksum bytes are wrong. -/
theorem Modbus_Get_failure_kinds_witness :
    (Modbus_Get (freshPacket 1 3 0x6B 2 [7, 8])
        (configured 3 (freshPacket 1 3 0x6B 2 [7, 8]) [])).packet
      = failure_spec 3 (freshPacket 1 3 0x6B 2 [7, 8])
    ∧ (Modbus_Get (freshPacket 1 3 0x6B 2 [7, 8])
        (configured 3 (freshPacket 1 3 0x6B 2 [7, 8])
          (delivers [1, 3, 4, 0x12, 0x34, 0x56, 0x78, 0, 0]))).packet
      = failure_spec 3 (freshPacket 1 3 0x6B 2 [7, 8]) :=
  ⟨(Modbus_Get_failure_kinds (freshPacket 1 3 0x6B 2 [7, 8])
      (configured 3 (freshPacket 1 3 0x6B 2 [7, 8]) []) (by decide) (by decide)).1,
   (Modbus_Get_failure_kinds (freshPacket 1 3 0x6B 2 [7, 8])
      (configured 3 (freshPacket 1 3 0x6B 2 [7, 8])
        (delivers [1, 3, 4, 0x12, 0x34, 0x56, 0x78, 0, 0])) (by decide) (by decide)).1⟩
/-! ## The receive loop at its limits -/

set_option maxRecDepth 1000000 in
/-- C15 (as the code behaves): when the port delivers 101 bytes, the first 100
fill the frame buffer without an out-of-bounds access, and the 101st sets the
overflow flag and is stored all the same, at index 100, one past the end of
`frame[100]`. -/
theorem waiting_for_reply_overflow_store :
    (received (freshPacket 1 3 0x6B 2 [0, 0])
        (configured 3 (freshPacket 1 3 0x6B 2 [0, 0])
          (delivers (List.replicate 100 0xAB)))).m.fault = false
    ∧ (received (freshPacket 1 3 0x6B 2 [0, 0])
        (configured 3 (freshPacket 1 3 0x6B 2 [0, 0])
          (delivers (List.replicate 100 0xAB)))).overflowFlag = false
    ∧ (received (freshPacket 1 3 0x6B 2 [0, 0])
        (configured 3 (freshPacket 1 3 0x6B 2 [0, 0])
          (delivers (List.replicate 101 0xAB)))).overflowFlag = true
    ∧ (received (freshPacket 1 3 0x6B 2 [0, 0])
        (configured 3 (freshPacket 1 3 0x6B 2 [0, 0])
          (delivers (List.replicate 101 0xAB)))).m.frame 100 = 0xAB
    ∧ (received (freshPacket 1 3 0x6B 2 [0, 0])
        (configured 3 (freshPacket 1 3 0x6B 2 [0, 0])
          (delivers (List.replicate 101 0xAB)))).m.buffer = 101
    ∧ (received (freshPacket 1 3 0x6B 2 [0, 0])
        (configured 3 (freshPacket 1 3 0x6B 2 [0, 0])
          (delivers (List.replicate 101 0xAB)))).m.fault = true := by
  decide

set_option maxRecDepth 1000000 in
/-- C16 (as the code behaves): the port is silent for 21 passes, then delivers a
complete, checksum-valid reply during passes 22 to 30, stays silent at pass 31
and delivers a stray byte at pass 32.  At the end of pass 30 nine bytes are
buffered and their checksum is correct, but the loop polls on: the script is
consumed to its end, the stray byte is appended and the run fails, while the
same run without passes 31 and 32 succeeds. -/
theorem waiting_for_reply_no_early_exit :
    (received (freshPacket 1 3 0x6B 2 [0, 0])
        (configured 3 (freshPacket 1 3 0x6B 2 [0, 0])
          (List.replicate 21 none ++ delivers (reply_F3_F4 1 3 [0x1234, 0x5678])))).m.buffer = 9
    ∧ validReply 1 (received (freshPacket 1 3 0x6B 2 [0, 0])
        (configured 3 (freshPacket 1 3 0x6B 2 [0, 0])
          (List.replicate 21 none ++ delivers (reply_F3_F4 1 3 [0x1234, 0x5678]))))
    ∧ (Modbus_Get (freshPacket 1 3 0x6B 2 [0, 0])
        (configured 3 (freshPacket 1 3 0x6B 2 [0, 0])
          (List.replicate 21 none ++ delivers (reply_F3_F4 1 3 [0x1234, 0x5678])))).packet
        = { success_spec 2 (freshPacket 1 3 0x6B 2 [0, 0]) with
              register_array := [0x1234, 0x5678] }
    ∧ (received (freshPacket 1 3 0x6B 2 [0, 0])
        (configured 3 (freshPacket 1 3 0x6B 2 [0, 0])
          (List.replicate 21 none ++ delivers (reply_F3_F4 1 3 [0x1234, 0x5678])
            ++ [none, some 0x55]))).m.port = []
    ∧ (received (freshPacket 1 3 0x6B 2 [0, 0])
        (configured 3 (freshPacket 1 3 0x6B 2 [0, 0])
          (List.replicate 21 none ++ delivers (reply_F3_F4 1 3 [0x1234, 0x5678])
            ++ [none, some 0x55]))).m.buffer = 10
    ∧ (Modbus_Get (freshPacket 1 3 0x6B 2 [0, 0])
        (configured 3 (freshPacket 1 3 0x6B 2 [0, 0])
          (List.replicate 21 none ++ delivers (reply_F3_F4 1 3 [0x1234, 0x5678])
            ++ [none, some 0x55]))).packet
        = failure_spec 3 (freshPacket 1 3 0x6B 2 [0, 0]) := by
  decide

/-! ## The request stays inside the frame buffer -/

theorem construct_F16_loop_fault (n i index : Nat) (m : Machine)
    (hx : index + 2 * n ≤ BUFFER_SIZE) (hcap : i + n ≤ m.packet.register_array.length) :
    (construct_F16_loop n i index m).fault = m.fault := by
  induction n generalizing i index m with
  | zero => rfl
  | succ n ih =>
    unfold BUFFER_SIZE at hx
    have e1 : u8 (index + 1) = index + 1 := u8_of_lt (by omega)
    have e2 : u8 (index + 1 + 1) = index + 2 := u8_of_lt (by omega)
    rw [construct_F16_loop]
    simp only [e1, e2]
    rw [ih _ _ _ (by unfold BUFFER_SIZE; omega) (by simp; omega)]
    have c1 : ¬ (100 ≤ index) := by omega
    have c2 : ¬ (100 ≤ index + 1) := by omega
    have c3 : ¬ (m.packet.register_array.length ≤ i) := by omega
    simp [BUFFER_SIZE, c1, c2, c3]

theorem construct_F15_loop_fault (nb n i bp index : Nat) (m : Machine)
    (hb : bp + 2 * n ≤ 255)
    (hrel : nb = bp + 2 * n ∨ nb + 1 = bp + 2 * n)
    (hx : index + (nb - bp) ≤ BUFFER_SIZE) (hcap : i + n ≤ m.packet.register_array.length) :
    (construct_F15_loop nb n i bp index m).fault = m.fault := by
  induction n generalizing i bp index m with
  | zero => rfl
  | succ n ih =>
    unfold BUFFER_SIZE at hx
    have e1 : u8 (bp + 1) = bp + 1 := u8_of_lt (by omega)
    have e2 : u8 (index + 2) = index + 2 := u8_of_lt (by omega)
    have e3 : u8 (bp + 1 + 1) = bp + 2 := u8_of_lt (by omega)
    have c3 : ¬ (m.packet.register_array.length ≤ i) := by omega
    have c1 : ¬ (100 ≤ index) := by omega
    rw [construct_F15_loop]
    simp only [e1, e2, e3]
    split
    next hlt =>
      rw [ih _ _ _ _ (by omega) (by omega) (by unfold BUFFER_SIZE; omega) (by simp; omega)]
      have c2 : ¬ (100 ≤ index + 1) := by omega
      simp [BUFFER_SIZE, c1, c2, c3]
    next hge =>
      have hn : n = 0 := by omega
      subst hn
      simp [construct_F15_loop, BUFFER_SIZE, c1, c3]

theorem construct_F16_fault (m : Machine) (hq : m.packet.data ≤ 45)
    (hcap : m.packet.data ≤ m.packet.register_array.length) :
    (construct_F16 m).1.fault = m.fault := by
  have e2 : u8 m.packet.data = m.packet.data := by unfold u8; omega
  unfold construct_F16
  simp only [e2, store_packet]
  rw [construct_F16_loop_fault _ _ _ _ (by unfold BUFFER_SIZE; omega) (by simpa using hcap)]
  simp [BUFFER_SIZE]

theorem construct_F15_fault (m : Machine)
    (hfit : 9 + byteCount_spec m.packet.data ≤ BUFFER_SIZE)
    (hcap : registerCount_spec m.packet.data ≤ m.packet.register_array.length) :
    (construct_F15 m).1.fault = m.fault := by
  unfold BUFFER_SIZE at hfit
  obtain ⟨hrc, hbc⟩ := coil_counts m.packet.data (by omega)
  have hrel : byteCount_spec m.packet.data = 2 * registerCount_spec m.packet.data
      ∨ byteCount_spec m.packet.data + 1 = 2 * registerCount_spec m.packet.data := by
    unfold byteCount_spec registerCount_spec
    split <;> omega
  unfold construct_F15
  simp only [hrc, hbc, store_packet]
  rw [construct_F15_loop_fault _ _ _ _ _ _ (by omega) (by omega) (by unfold BUFFER_SIZE; omega)
    (by simpa using hcap)]
  simp [BUFFER_SIZE]

/-- C17 (amended): for function 1 to 4 with any quantity, for function 16 with
at most 45 registers and for function 15 with `9 + byteCount` at most 100 (the
register array holding the registers to send), the request is at most 100 bytes
long and building it accesses no index outside the frame buffer. -/
theorem constructPacket_within_frame (m : Machine)
    (h : (m.packet.function = 1 ∨ m.packet.function = 2 ∨ m.packet.function = 3
          ∨ m.packet.function = 4)
        ∨ (m.packet.function = PRESET_MULTIPLE_REGISTERS ∧ m.packet.data ≤ 45
          ∧ m.packet.data ≤ m.packet.register_array.length)
        ∨ (m.packet.function = FORCE_MULTIPLE_COILS
          ∧ 9 + byteCount_spec m.packet.data ≤ BUFFER_SIZE
          ∧ registerCount_spec m.packet.data ≤ m.packet.register_array.length)) :
    (constructPacket m).sent.length ≤ BUFFER_SIZE
    ∧ (constructPacket m).fault = m.fault := by
  have hd : (constructPacket_header m).packet.data = m.packet.data := by rw [header_packet]
  have hr : (constructPacket_header m).packet.register_array = m.packet.register_array := by
    rw [header_packet]
  have hfun : (constructPacket_header m).packet.function = m.packet.function := by
    rw [header_packet]
  have hlen : (constructPacket m).sent.length
      = (constructPacket_payload (constructPacket_header m)).2 := by
    rw [constructPacket_sent, seal_sent_length]
  have hfault : (constructPacket m).fault
      = (constructPacket_seal (constructPacket_payload (constructPacket_header m)).1
          (constructPacket_payload (constructPacket_header m)).2).fault := by
    unfold constructPacket
    simp only
    rw [broadcast_fault]
  rw [hlen, hfault]
  rcases h with h | ⟨hfn, hq, hcap⟩ | ⟨hfn, hfit, hcap⟩
  · have h16 : (constructPacket_header m).packet.function ≠ PRESET_MULTIPLE_REGISTERS := by
      rw [hfun]; unfold PRESET_MULTIPLE_REGISTERS; omega
    have h15 : (constructPacket_header m).packet.function ≠ FORCE_MULTIPLE_COILS := by
      rw [hfun]; unfold FORCE_MULTIPLE_COILS; omega
    rw [payload_read _ h16 h15]
    refine ⟨by show 8 ≤ BUFFER_SIZE; decide, ?_⟩
    rw [seal_fault _ (show 2 ≤ 8 by decide) (show 8 ≤ BUFFER_SIZE by decide), header_fault]
  · rw [payload_F16 _ (by rw [hfun]; exact hfn)]
    have hsz := (construct_F16_frame (constructPacket_header m) (by rw [hd]; exact hq)).1
    rw [hd] at hsz
    rw [hsz]
    refine ⟨by unfold BUFFER_SIZE; omega, ?_⟩
    rw [seal_fault _ (by omega) (by unfold BUFFER_SIZE; omega),
      construct_F16_fault _ (by rw [hd]; exact hq) (by rw [hd, hr]; exact hcap), header_fault]
  · rw [payload_F15 _ (by rw [hfun]; exact hfn)]
    have hsz := (construct_F15_frame (constructPacket_header m) (by rw [hd]; exact hfit)).1
    rw [hd] at hsz
    rw [hsz]
    refine ⟨hfit, ?_⟩
    rw [seal_fault _ (by omega) hfit,
      construct_F15_fault _ (by rw [hd]; exact hfit) (by rw [hd, hr]; exact hcap), header_fault]

set_option maxRecDepth 1000000 in
/-- Witness of `constructPacket_within_frame`: the largest function 16 request
that fits, 45 registers, 99 bytes. -/
theorem constructPacket_within_frame_witness :
    (constructPacket (configured 3 (freshPacket 1 16 0 45 (List.replicate 45 0x0102)) [])).sent.length
        ≤ BUFFER_SIZE
    ∧ (constructPacket (configured 3 (freshPacket 1 16 0 45 (List.replicate 45 0x0102)) [])).fault
        = false :=
  constructPacket_within_frame (configured 3 (freshPacket 1 16 0 45 (List.replicate 45 0x0102)) [])
    (by decide)

set_option maxRecDepth 1000000 in
/-- C17 (as stated) fails: a function 16 request for 46 registers is 101 bytes
long and its second checksum byte is stored at index 100. -/
theorem constructPacket_within_frame_refuted :
    (constructPacket (configured 3 (freshPacket 1 16 0 46 (List.replicate 46 0x0102)) [])).sent.length
        = 101
    ∧ (constructPacket (configured 3 (freshPacket 1 16 0 46 (List.replicate 46 0x0102)) [])).fault
        = true := by
  decide

/-! ## The reply of functions 1 and 2 -/

theorem process_F1_F2_loop_frame (nb n i bp index : Nat) (m : Machine) :
    (process_F1_F2_loop nb n i bp index m).frame = m.frame := by
  induction n generalizing i bp index m with
  | zero => rfl
  | succ n ih =>
    rw [process_F1_F2_loop]
    simp only
    split
    · rw [ih]; rfl
    · rw [ih]; rfl

theorem process_F1_F2_loop_outside (nb n i bp index : Nat) (m : Machine) :
    ∀ j, j < i ∨ i + n ≤ j →
      (process_F1_F2_loop nb n i bp index m).packet.register_array[j]?
        = m.packet.register_array[j]? := by
  induction n generalizing i bp index m with
  | zero => intro j _; rfl
  | succ n ih =>
    intro j hj
    rw [process_F1_F2_loop]
    simp only
    split
    · rw [ih _ _ _ _ j (by omega)]
      simp only [storeReg_packet, touch_packet]
      rw [List.getElem?_set_ne (by omega)]
    · rw [ih _ _ _ _ j (by omega)]
      simp only [storeReg_packet, touch_packet]
      rw [List.getElem?_set_ne (by omega)]

theorem process_F1_F2_loop_inside (nb n i bp index : Nat) (m : Machine)
    (hb : bp + 2 * n ≤ 255) (hx : index + 2 * n ≤ 255)
    (hrel : nb = bp + 2 * n ∨ nb + 1 = bp + 2 * n)
    (hcap : i + n ≤ m.packet.register_array.length) :
    ∀ k, k < n →
      (process_F1_F2_loop nb n i bp index m).packet.register_array[i + k]?
        = some (if 2 * k + 1 < nb - bp
            then (m.frame (index + 2 * k + 1) <<< 8) ||| m.frame (index + 2 * k)
            else m.frame (index + 2 * k)) := by
  induction n generalizing i bp index m with
  | zero => intro k hk; omega
  | succ n ih =>
    intro k hk
    have e1 : u8 (bp + 1) = bp + 1 := u8_of_lt (by omega)
    have e2 : u8 (index + 2) = index + 2 := u8_of_lt (by omega)
    have e3 : u8 (bp + 1 + 1) = bp + 2 := u8_of_lt (by omega)
    rw [process_F1_F2_loop]
    simp only [e1, e2, e3]
    split
    next hlt =>
      rcases k with _ | k
      · rw [process_F1_F2_loop_outside _ _ _ _ _ _ _ (Or.inl (by omega))]
        simp only [storeReg_packet, touch_packet, touch_frame, Nat.add_zero, Nat.mul_zero]
        rw [List.getElem?_set_self (by omega), if_pos (by omega)]
      · have := ih (i + 1) (bp + 2) (index + 2)
          (((m.touch index).touch (index + 1)).storeReg i
            ((((m.touch index).frame (index + 1)) <<< 8) ||| m.frame index))
          (by omega) (by omega) (by omega) (by simp; omega) k (by omega)
        simp only [storeReg_frame, touch_frame] at this
        have a1 : i + (k + 1) = i + 1 + k := by omega
        have a2 : index + 2 * (k + 1) = index + 2 + 2 * k := by omega
        rw [a1, a2]
        by_cases hc : 2 * k + 1 < nb - (bp + 2)
        · rw [if_pos hc] at this
          rw [if_pos (by omega)]
          exact this
        · rw [if_neg hc] at this
          rw [if_neg (by omega)]
          exact this
    next hge =>
      have hn : n = 0 := by omega
      subst hn
      have hk0 : k = 0 := by omega
      subst hk0
      rw [process_F1_F2_loop]
      simp only [storeReg_packet, touch_packet, touch_frame, Nat.add_zero, Nat.mul_zero]
      rw [List.getElem?_set_self (by omega), if_neg (by omega)]

theorem high_low_join (r : Nat) (h : r < 65536) :
    (u8 (r >>> 8) <<< 8) ||| u8 (r &&& 0xFF) = r := by
  rw [shr8_eq, and_ff_eq]
  unfold u8
  rw [Nat.mod_mod, shl8_or_eq _ _ (Nat.mod_lt _ (by decide))]
  omega

/-- C18: coil packing round trip.  When a function 1 or 2 reply for `q` coils
carries the byte count and the payload bytes that `construct_F15` emits for the
16-bit registers `r` (the machine `enc` holds `q` and `r`; its request fits the
frame), `process_F1_F2` accepts it, sets `data_rcv = q` and writes register `i`
as `r[i]` for every `i < registerCount`, except that for `q mod 16 != 0` the
last register is written as `r[registerCount - 1] & 0xFF`. -/
theorem process_F1_F2_roundtrip (x enc : Machine)
    (hq : x.packet.data = enc.packet.data)
    (hfit : 9 + byteCount_spec enc.packet.data ≤ BUFFER_SIZE)
    (hcap : registerCount_spec enc.packet.data ≤ x.packet.register_array.length)
    (hcount : x.frame 2 = (construct_F15 enc).1.frame 6)
    (hdata : ∀ k, k < byteCount_spec enc.packet.data →
      x.frame (3 + k) = (construct_F15 enc).1.frame (7 + k)) :
    (process_F1_F2 x).packet.data_rcv = enc.packet.data
    ∧ (process_F1_F2 x).packet.successful_requests = x.packet.successful_requests + 1
    ∧ (process_F1_F2 x).packet.failed_requests = x.packet.failed_requests
    ∧ (process_F1_F2 x).packet.retries = 0
    ∧ ∀ i v, i < registerCount_spec enc.packet.data →
        enc.packet.register_array[i]? = some v → v < 65536 →
        (process_F1_F2 x).packet.register_array[i]?
          = some (if enc.packet.data % 16 ≠ 0 ∧ i + 1 = registerCount_spec enc.packet.data
              then v &&& 0xFF else v) := by
  have hfit2 : 9 + byteCount_spec enc.packet.data ≤ 100 := hfit
  obtain ⟨_, h6, hpay⟩ := construct_F15_frame enc hfit
  obtain ⟨hrc, hbc⟩ := coil_counts enc.packet.data (by omega)
  have hrel : byteCount_spec enc.packet.data = 2 * registerCount_spec enc.packet.data
      ∨ byteCount_spec enc.packet.data + 1 = 2 * registerCount_spec enc.packet.data := by
    unfold byteCount_spec registerCount_spec
    split <;> omega
  have hodd : (enc.packet.data % 16 ≠ 0
      ↔ byteCount_spec enc.packet.data + 1 = 2 * registerCount_spec enc.packet.data) := by
    unfold byteCount_spec registerCount_spec
    split <;> omega
  generalize hL : process_F1_F2_loop (byteCount_spec enc.packet.data)
    (registerCount_spec enc.packet.data) 0 0 3 x = L
  have hLp : L.packet = { x.packet with register_array := L.packet.register_array } := by
    rw [← hL]; exact process_F1_F2_loop_packet _ _ _ _ _ _
  have hpr : process_F1_F2 x
      = processSuccess { L with packet := { L.packet with data_rcv := L.packet.data } } := by
    unfold process_F1_F2
    simp only
    rw [hq, hrc, hbc, if_pos (by rw [hcount, h6]), hL]
  rw [hpr, processSuccess_packet]
  refine ⟨?_, ?_, ?_, rfl, ?_⟩
  · show L.packet.data = _
    rw [hLp]; exact hq
  · show L.packet.successful_requests + 1 = _
    rw [hLp]
  · show L.packet.failed_requests = _
    rw [hLp]
  · intro i v hi hv hv16
    show L.packet.register_array[i]? = _
    have hin := process_F1_F2_loop_inside (byteCount_spec enc.packet.data)
      (registerCount_spec enc.packet.data) 0 0 3 x (by omega) (by omega) (by omega)
      (by omega) i hi
    rw [Nat.zero_add, hL, Nat.sub_zero] at hin
    rw [hin]
    have hD : enc.packet.register_array.getD i 0 = v := by
      rw [List.getD_eq_getElem?_getD, hv]; rfl
    have hlo : x.frame (3 + 2 * i) = u8 (v &&& 0xFF) := by
      rw [hdata (2 * i) (by omega), hpay (2 * i) (by omega)]
      have e1 : 2 * i % 2 = 0 := by omega
      have e2 : 2 * i / 2 = i := by omega
      rw [if_pos e1, e2, hD]
    have hlo2 : u8 (v &&& 0xFF) = v &&& 0xFF := by
      rw [and_ff_eq]; unfold u8; rw [Nat.mod_mod]
    by_cases hc : 2 * i + 1 < byteCount_spec enc.packet.data
    · have hhi : x.frame (3 + 2 * i + 1) = u8 (v >>> 8) := by
        have a : 3 + 2 * i + 1 = 3 + (2 * i + 1) := by omega
        rw [a, hdata (2 * i + 1) hc, hpay (2 * i + 1) hc]
        have e1 : ¬ ((2 * i + 1) % 2 = 0) := by omega
        have e2 : (2 * i + 1) / 2 = i := by omega
        rw [if_neg e1, e2, hD]
      rw [if_pos hc, hhi, hlo, high_low_join v hv16, if_neg (by omega)]
    · rw [if_neg hc, hlo, hlo2, if_pos (by constructor <;> omega)]

set_option maxRecDepth 1000000 in
/-- Witness of `process_F1_F2_roundtrip`: 20 coils held in the registers 0xABCD,
0xEF05 are encoded as the three bytes CD AB 05; a reply that carries them is
decoded to 0xABCD, 0x0005. -/
theorem process_F1_F2_roundtrip_witness :
    (process_F1_F2 coilReplyMachine).packet.data_rcv = 20
    ∧ (process_F1_F2 coilReplyMachine).packet.register_array[0]? = some 0xABCD
    ∧ (process_F1_F2 coilReplyMachine).packet.register_array[1]? = some 0x05 :=
  ⟨(process_F1_F2_roundtrip coilReplyMachine
      (configured 3 (freshPacket 1 15 0x13 20 [0xABCD, 0xEF05]) [])
      (by decide) (by decide) (by decide) (by decide) (by decide)).1,
   (process_F1_F2_roundtrip coilReplyMachine
      (configured 3 (freshPacket 1 15 0x13 20 [0xABCD, 0xEF05]) [])
      (by decide) (by decide) (by decide) (by decide) (by decide)).2.2.2.2
        0 0xABCD (by decide) (by decide) (by decide),
   (process_F1_F2_roundtrip coilReplyMachine
      (configured 3 (freshPacket 1 15 0x13 20 [0xABCD, 0xEF05]) [])
      (by decide) (by decide) (by decide) (by decide) (by decide)).2.2.2.2
        1 0xEF05 (by decide) (by decide) (by decide)⟩

/-! ## Accounting -/

/-- C19: every run terminates (state `INVALID`), raises `requests` by exactly 1
and raises exactly one of `successful_requests` and `failed_requests`, by
exactly 1; so `requests = successful_requests + failed_requests` is preserved;
after the run `data_rcv` is 0 or the quantity. -/
theorem Modbus_Get_accounting (pkg : Packet) (m : Machine) :
    (Modbus_Get pkg m).state = INVALID
    ∧ (Modbus_Get pkg m).packet.requests = pkg.requests + 1
    ∧ (((Modbus_Get pkg m).packet.successful_requests = pkg.successful_requests + 1
          ∧ (Modbus_Get pkg m).packet.failed_requests = pkg.failed_requests)
        ∨ ((Modbus_Get pkg m).packet.failed_requests = pkg.failed_requests + 1
          ∧ (Modbus_Get pkg m).packet.successful_requests = pkg.successful_requests))
    ∧ (pkg.requests = pkg.successful_requests + pkg.failed_requests →
        (Modbus_Get pkg m).packet.requests
          = (Modbus_Get pkg m).packet.successful_requests
            + (Modbus_Get pkg m).packet.failed_requests)
    ∧ ((Modbus_Get pkg m).packet.data_rcv = 0 ∨ (Modbus_Get pkg m).packet.data_rcv = pkg.data) := by
  refine ⟨Modbus_Get_state pkg m, ?_⟩
  rcases Modbus_Get_outcome pkg m with ho | ho | ⟨regs, n, hn, ho⟩
  · obtain ⟨f1, f2, _, _, f5, f6, _, _⟩ := failure_spec_fields m.retry_count pkg
    rw [ho]
    exact ⟨f6, Or.inr ⟨f1, f2⟩, fun h => by rw [f6, f1, f2]; omega, Or.inl f5⟩
  · obtain ⟨f1, f2, _, _, f5, f6, _, _⟩ := failure_spec_fields m.retry_count
      { pkg with exception_errors := pkg.exception_errors + 1 }
    rw [ho]
    refine ⟨f6, Or.inr ⟨f1, f2⟩, fun h => ?_, Or.inl f5⟩
    rw [f6, f1, f2]
    show pkg.requests + 1 = pkg.successful_requests + (pkg.failed_requests + 1)
    omega
  · rw [ho]
    refine ⟨rfl, Or.inl ⟨rfl, rfl⟩, fun h => ?_, ?_⟩
    · show pkg.requests + 1 = pkg.successful_requests + 1 + pkg.failed_requests
      omega
    · show n = 0 ∨ n = pkg.data
      exact hn

set_option maxRecDepth 1000000 in
/-- Witness of `Modbus_Get_accounting`: a run that times out keeps
`requests = successful_requests + failed_requests`. -/
theorem Modbus_Get_accounting_witness :
    (Modbus_Get (freshPacket 1 3 0x6B 2 [7, 8])
        (configured 3 (freshPacket 1 3 0x6B 2 [7, 8]) [])).packet.requests
      = (Modbus_Get (freshPacket 1 3 0x6B 2 [7, 8])
          (configured 3 (freshPacket 1 3 0x6B 2 [7, 8]) [])).packet.successful_requests
        + (Modbus_Get (freshPacket 1 3 0x6B 2 [7, 8])
          (configured 3 (freshPacket 1 3 0x6B 2 [7, 8]) [])).packet.failed_requests :=
  (Modbus_Get_accounting (freshPacket 1 3 0x6B 2 [7, 8])
    (configured 3 (freshPacket 1 3 0x6B 2 [7, 8]) [])).2.2.2.1 (by decide)

/-! ## What an accepted function 3 or 4 reply guarantees -/

/-- A run to a non-broadcast slave whose buffered reply is not a checksum-valid
reply of at least 5 bytes from the expected slave ends on the failure path. -/
theorem Modbus_Get_not_validReply (pkg : Packet) (m : Machine) (hid : pkg.id ≠ 0)
    (hnv : ¬ validReply pkg.id (received pkg m)) :
    (Modbus_Get pkg m).packet = failure_spec m.retry_count pkg := by
  have hp := received_packet_of_ne pkg m hid
  have hrc := received_retry_count pkg m
  have hok : RxOK (received pkg m) := waiting_for_reply_recv_ok _
  rw [Modbus_Get_packet_of_ne pkg m hid]
  generalize received pkg m = r at hp hrc hok hnv
  obtain ⟨hbytes, hle, _⟩ := hok
  unfold BUFFER_SIZE at hle
  by_cases h1 : r.m.buffer < 5 ∨ r.overflowFlag = true
  · unfold waiting_for_reply_check
    rw [if_pos h1]
    exact processError_failure_spec _ pkg _ hp hrc
  · by_cases h2 : r.m.frame 0 = pkg.id
    · have h5 : 5 ≤ r.m.buffer := by
        by_contra h
        exact h1 (Or.inl (by omega))
      have hov : r.overflowFlag = false := by
        cases ho : r.overflowFlag
        · rfl
        · exact absurd (Or.inr ho) h1
      have hcm : checksumMatches r.m.frame r.m.buffer = false := by
        cases hv : checksumMatches r.m.frame r.m.buffer
        · rfl
        · exact absurd
            ⟨h5, hov, h2, (checksumMatches_iff _ (by omega) (by omega) hbytes).mp hv⟩ hnv
      unfold waiting_for_reply_check
      rw [if_neg h1, if_neg (by rw [hp]; simpa using h2), processReply_invalid _ hcm]
      exact processError_failure_spec _ pkg _ hp hrc
    · unfold waiting_for_reply_check
      rw [if_neg h1, if_pos (by rw [hp]; exact h2)]
      exact processError_failure_spec _ pkg _ hp hrc

/-- C20 (amended): when a run to a non-broadcast slave ends on the success path
and the function byte of the buffered reply is 3 or 4, then the reply is a
checksum-valid reply of at least 5 bytes from the expected slave (no overflow,
byte 0 the slave id, checksum matching) whose byte 2 equals twice the quantity,
and `data_rcv` is the quantity; the number of bytes received is not compared
with `5 + 2q`.  When it is `5 + 2q`, register `i` is decoded from the frame
bytes `3 + 2i` and `4 + 2i`, which lie before the two checksum bytes. -/
theorem Modbus_Get_F3_F4_accepted (pkg : Packet) (m : Machine)
    (hid : pkg.id ≠ 0) (hq16 : pkg.data < 65536)
    (hfn : (received pkg m).m.frame 1 = 3 ∨ (received pkg m).m.frame 1 = 4)
    (hacc : successfulRun pkg m = true) :
    validReply pkg.id (received pkg m)
    ∧ (received pkg m).m.frame 2 = 2 * pkg.data
    ∧ (Modbus_Get pkg m).packet.data_rcv = pkg.data
    ∧ ((received pkg m).m.buffer = 5 + 2 * pkg.data →
        pkg.data ≤ pkg.register_array.length →
        ∀ i, i < pkg.data →
          (Modbus_Get pkg m).packet.register_array[i]?
              = some (((received pkg m).m.frame (3 + 2 * i) <<< 8)
                  ||| (received pkg m).m.frame (3 + 2 * i + 1))
          ∧ 3 + 2 * i + 1 < (received pkg m).m.buffer - 2) := by
  have hs : (Modbus_Get pkg m).packet.successful_requests = pkg.successful_requests + 1 := by
    simpa [successfulRun] using hacc
  have hrep : validReply pkg.id (received pkg m) := by
    by_contra hnv
    rw [Modbus_Get_not_validReply pkg m hid hnv, (failure_spec_fields _ _).2.1] at hs
    omega
  obtain ⟨hchk, hc, hp, hrc⟩ := check_validReply pkg m hid hrep
  have hrun : (Modbus_Get pkg m).packet = (processReply (received pkg m).m).packet := by
    rw [Modbus_Get_packet_of_ne pkg m hid, hchk]
  refine ⟨hrep, ?_⟩
  rw [hrun] at hs ⊢
  have h5 := hrep.1
  have hok : RxOK (received pkg m) := waiting_for_reply_recv_ok _
  generalize received pkg m = r at hc hp hrc hfn hs h5 hok
  obtain ⟨_, hle, _⟩ := hok
  unfold BUFFER_SIZE at hle
  have hd : r.m.packet.data = pkg.data := by rw [hp]
  have hu : u32 (pkg.data * 2) = 2 * pkg.data := by unfold u32; omega
  have hguard : r.m.frame 2 = u32 (r.m.packet.data * 2) := by
    by_contra hne
    rw [processReply_F3_F4 _ hc hfn,
      process_F3_F4_mismatch ((r.m.touch (r.m.buffer - 2)).touch (r.m.buffer - 1)) hne,
      processError_failure_spec ((r.m.touch (r.m.buffer - 2)).touch (r.m.buffer - 1)) pkg
        m.retry_count hp hrc,
      (failure_spec_fields _ _).2.1] at hs
    omega
  generalize hL : process_F3_F4_loop r.m.packet.data 0 3
    ((r.m.touch (r.m.buffer - 2)).touch (r.m.buffer - 1)) = L
  have hLp : L.packet = { r.m.packet with register_array := L.packet.register_array } := by
    rw [← hL]; exact process_F3_F4_loop_packet _ _ _ _
  have hpr : processReply r.m
      = processSuccess { L with packet := { L.packet with data_rcv := L.packet.data } } := by
    rw [processReply_F3_F4 _ hc hfn]
    unfold process_F3_F4
    simp only [touch_frame, touch_packet]
    rw [if_pos hguard, hL]
  refine ⟨by rw [hguard, hd, hu], ?_, ?_⟩
  · rw [hpr, processSuccess_packet]
    show L.packet.data = _
    rw [hLp]; exact hd
  · intro hbuf hcap i hi
    have hin := process_F3_F4_loop_inside r.m.packet.data 0 3
      ((r.m.touch (r.m.buffer - 2)).touch (r.m.buffer - 1)) (by omega) (by omega)
      (by
        have hcap2 : pkg.data ≤ r.m.packet.register_array.length := by rw [hp]; exact hcap
        rw [hd, Nat.zero_add]
        exact hcap2)
      i (by omega)
    rw [Nat.zero_add, hL] at hin
    refine ⟨?_, by omega⟩
    rw [hpr, processSuccess_packet]
    show L.packet.register_array[i]? = _
    rw [hin]
    rfl

set_option maxRecDepth 1000000 in
/-- Witness of `Modbus_Get_F3_F4_accepted`: a complete reply of nine bytes to a
read of two holding registers is accepted; it is a valid reply of the expected
slave, its byte 2 is 4, and both registers are decoded from its data bytes. -/
theorem Modbus_Get_F3_F4_accepted_witness :
    validReply 1 (received (freshPacket 1 3 0x6B 2 [0, 0])
        (configured 3 (freshPacket 1 3 0x6B 2 [0, 0])
          (delivers (reply_F3_F4 1 3 [0x1234, 0x5678]))))
    ∧ (received (freshPacket 1 3 0x6B 2 [0, 0])
        (configured 3 (freshPacket 1 3 0x6B 2 [0, 0])
          (delivers (reply_F3_F4 1 3 [0x1234, 0x5678])))).m.frame 2 = 2 * 2
    ∧ (Modbus_Get (freshPacket 1 3 0x6B 2 [0, 0])
        (configured 3 (freshPacket 1 3 0x6B 2 [0, 0])
          (delivers (reply_F3_F4 1 3 [0x1234, 0x5678])))).packet.data_rcv = 2
    ∧ (Modbus_Get (freshPacket 1 3 0x6B 2 [0, 0])
        (configured 3 (freshPacket 1 3 0x6B 2 [0, 0])
          (delivers (reply_F3_F4 1 3 [0x1234, 0x5678])))).packet.register_array
        = [0x1234, 0x5678] :=
  ⟨(Modbus_Get_F3_F4_accepted (freshPacket 1 3 0x6B 2 [0, 0])
      (configured 3 (freshPacket 1 3 0x6B 2 [0, 0])
        (delivers (reply_F3_F4 1 3 [0x1234, 0x5678])))
      (by decide) (by decide) (by decide) (by decide)).1,
   (Modbus_Get_F3_F4_accepted (freshPacket 1 3 0x6B 2 [0, 0])
      (configured 3 (freshPacket 1 3 0x6B 2 [0, 0])
        (delivers (reply_F3_F4 1 3 [0x1234, 0x5678])))
      (by decide) (by decide) (by decide) (by decide)).2.1,
   (Modbus_Get_F3_F4_accepted (freshPacket 1 3 0x6B 2 [0, 0])
      (configured 3 (freshPacket 1 3 0x6B 2 [0, 0])
        (delivers (reply_F3_F4 1 3 [0x1234, 0x5678])))
      (by decide) (by decide) (by decide) (by decide)).2.2.1,
   by decide⟩

set_option maxRecDepth 1000000 in
/-- C20 (as stated) fails: the five bytes `01 03 02` plus checksum answer a read
of one holding register.  The byte count 2 matches, the run takes the success
path with 5 bytes received instead of 7, and the register is decoded from the
two checksum bytes A1 31. -/
theorem Modbus_Get_F3_F4_accepted_refuted :
    validReply 1 (received (freshPacket 1 3 0x6B 1 [7])
        (configured 3 (freshPacket 1 3 0x6B 1 [7]) (delivers (withChecksum [1, 3, 2]))))
    ∧ (received (freshPacket 1 3 0x6B 1 [7])
        (configured 3 (freshPacket 1 3 0x6B 1 [7]) (delivers (withChecksum [1, 3, 2])))).m.frame 1
        = 3
    ∧ successfulRun (freshPacket 1 3 0x6B 1 [7])
        (configured 3 (freshPacket 1 3 0x6B 1 [7]) (delivers (withChecksum [1, 3, 2]))) = true
    ∧ (received (freshPacket 1 3 0x6B 1 [7])
        (configured 3 (freshPacket 1 3 0x6B 1 [7]) (delivers (withChecksum [1, 3, 2])))).m.buffer
        = 5
    ∧ (received (freshPacket 1 3 0x6B 1 [7])
        (configured 3 (freshPacket 1 3 0x6B 1 [7]) (delivers (withChecksum [1, 3, 2])))).m.buffer
        ≠ 5 + 2 * (freshPacket 1 3 0x6B 1 [7]).data
    ∧ withChecksum [1, 3, 2] = [1, 3, 2, 0xA1, 0x31]
    ∧ (Modbus_Get (freshPacket 1 3 0x6B 1 [7])
        (configured 3 (freshPacket 1 3 0x6B 1 [7])
          (delivers (withChecksum [1, 3, 2])))).packet.register_array = [0xA131] := by
  decide

end SimpleModbus
